import Mathlib

/-!
Urban Life Simulator: survival-mode wave manager and gun economy.

A shallow embedding of the wave/economy logic of `src/urban-life-simulator.js`
(`class WaveManager`, `UrbanLifeSimulator.spawnEnemies`, `getGunUpgradeCost`,
`isNearTeleportPortal`, `upgradeGun`, `updateProjectiles`, `isProjectileBlocked`,
`updateEnemyProjectiles`, `playerTakeDamage`, `updateStats`, `applyPowerup`,
`useItem`, `generateProgressCode`, `redeemProgressCode`, `resetGame`) and of the
health-changing vote outcomes of `src/living-hell-module.js` (`buildChoices`).

Conventions of the embedding.

* JavaScript numbers are integers where the program only ever stores integers
  (`money`, `score`, `gunLevel`, `waveNumber`) and rationals elsewhere, with
  exact arithmetic.  Two stored results are rounded as IEEE 754 doubles,
  because the rounding changes what happens: the countdown
  `userData.life -= delta` of a projectile (`toDouble`) and the sum
  `stats.money += bossRunReward`, whose reward `250 * 2^L` passes `2^53`
  (`integerToDouble`).
* Rendering, audio and DOM updates (HUD text, CSS classes, `scene.add`) carry no
  game state and are left out; every other assignment of the source is kept.
* `Math.random()` and the trigonometric ring placement are supplied by a
  `SpawnEnv`, one per call of `spawnEnemies`.
* `setTimeout(() => { if (this.active) this.startNextWave(); }, 2000)` is kept
  as a counter of pending auto-advance callbacks; the callback body is
  `WaveManager.autoAdvanceCallback`.
* Object identity of enemies (used by `this.enemies.indexOf(enemy)`) is an
  `id` drawn from a counter of the game.
* `btoa` and `atob` are the base64 functions of the HTML standard on lists of
  characters; the draw of `Math.random()` for the nonce of a progress code is an
  argument of `generateProgressCode`.
-/

namespace ULS

/-! ## IEEE doubles -/

/-- The power `2^k` for an integer exponent `k`. -/
def pow2 (k : ℤ) : ℚ :=
  if 0 ≤ k then ((2 ^ k.toNat : ℕ) : ℚ) else 1 / ((2 ^ (-k).toNat : ℕ) : ℚ)

/-- The position of the leading binary digit of `n`: `2^k ≤ n < 2^(k+1)` for
`n > 0`.  The first argument bounds the number of halvings. -/
def log2Floor : ℕ → ℕ → ℕ
  | 0, _ => 0
  | fuel + 1, n => if n < 2 then 0 else log2Floor fuel (n / 2) + 1

/-- The exponent `e` with `2^e ≤ a < 2^(e+1)` of a positive rational `a`. -/
def binade (a : ℚ) : ℤ :=
  let e : ℤ := (log2Floor a.num.natAbs a.num.natAbs : ℤ) - (log2Floor a.den a.den : ℤ)
  if pow2 e ≤ a then e else e - 1

/-- Rounding of a non-negative rational to the nearest integer, ties to even. -/
def roundHalfEven (m : ℚ) : ℤ :=
  let f : ℤ := m.num / (m.den : ℤ)
  let r : ℚ := m - f
  if 1 / 2 < r ∨ (r = 1 / 2 ∧ f % 2 = 1) then f + 1 else f

/-- The IEEE 754 binary64 number nearest to `x` (53 significant bits, ties to
even, subnormal spacing `2^-1074` below `2^-1022`): the value that a JavaScript
arithmetic operation stores when its exact result is `x`.  Overflow to
`Infinity`, for a magnitude of `2^1024` or more, is left out. -/
def toDouble (x : ℚ) : ℚ :=
  if x = 0 then 0
  else
    let a := |x|
    let e := max (binade a) (-1022)
    let quantum := pow2 (e - 52)
    let m := roundHalfEven (a / quantum)
    if x < 0 then -((m : ℚ) * quantum) else (m : ℚ) * quantum

/-- The double nearest to the integer `n`: `n` itself up to `2^53` in
magnitude, beyond that `n` rounded to 53 significant bits, ties to even. -/
def integerToDouble (n : ℤ) : ℤ :=
  if |n| ≤ 9007199254740992 then n
  else
    let e := log2Floor n.natAbs n.natAbs - 52
    let q := n.natAbs / 2 ^ e
    let r := n.natAbs % 2 ^ e
    let m := if 2 ^ (e - 1) < r ∨ (r = 2 ^ (e - 1) ∧ q % 2 = 1) then q + 1 else q
    if n < 0 then -((m * 2 ^ e : ℕ) : ℤ) else ((m * 2 ^ e : ℕ) : ℤ)

/-! ## Data model -/

/-- A `THREE.Vector3` with exact coordinates. -/
structure Vector3 where
  x : ℚ
  y : ℚ
  z : ℚ
deriving DecidableEq

/-- The method `Vector3.distanceToSquared`. -/
def Vector3.distanceToSquared (a b : Vector3) : ℚ :=
  (a.x - b.x) * (a.x - b.x) + (a.y - b.y) * (a.y - b.y) + (a.z - b.z) * (a.z - b.z)

/-- The test `a.distanceTo(b) < radius`.  `distanceTo` is the square root of
`distanceToSquared`, hence non-negative, so the test holds exactly when the
radius is positive and the squared distance is below the squared radius. -/
def Vector3.distanceToLt (a b : Vector3) (radius : ℚ) : Bool :=
  decide (0 < radius) && decide (a.distanceToSquared b < radius * radius)

/-- The `stats` record created by the constructor (lines 167-177). -/
structure Stats where
  health : ℚ
  hunger : ℚ
  energy : ℚ
  money : ℤ
  wantedLevel : ℚ
  score : ℤ
  combo : ℚ
  bestCombo : ℚ
  gunLevel : ℕ
deriving DecidableEq

/-- An enemy record as built in `spawnEnemies` (lines 2505-2561); `position` is
`mesh.position` and `id` stands for the identity of the JavaScript object. -/
structure Enemy where
  id : ℕ
  position : Vector3
  health : ℚ
  isBoss : Bool
  lastShotTime : ℚ
  fireCooldown : ℚ
  projectileDamage : ℚ
deriving DecidableEq

/-- An entry of `this.locations`; `position` may be missing (`loc.position &&`). -/
structure Location where
  name : String
  position : Option Vector3
deriving DecidableEq

/-- The fields of `class WaveManager` (lines 9-13). -/
structure WaveManager where
  active : Bool
  waveNumber : ℕ
deriving DecidableEq

/-- The part of `UrbanLifeSimulator` read or written by the wave manager and
the gun economy.  `scene` tells whether `this.scene` is set, `camera` is
`this.camera.position` when the camera exists, `enemyTextures` is
`this.enemyTextures.length`, `bossModel` tells whether `this.models.boss` is
loaded, `pendingAdvance` counts the scheduled auto-advance callbacks that have
not fired yet and `nextEnemyId` is the identity counter. -/
structure Game where
  scene : Bool
  camera : Option Vector3
  enemyTextures : ℕ
  bossModel : Bool
  stats : Stats
  gunBaseDamage : ℚ
  gunDamageMultiplier : ℚ
  locations : List Location
  enemies : List Enemy
  isSurvivalModeActive : Bool
  waveManager : WaveManager
  pendingAdvance : ℕ
  nextEnemyId : ℕ
deriving DecidableEq

/-- The numeric inputs of one `spawnEnemies` call that the program does not
compute exactly: the two `Math.random()` draws made for enemy `i` (`height`
for line 2453, `jitter` for line 2513) and the ring direction
`(cos, sin)` of the angle `(i / count) * 2π`. -/
structure SpawnEnv where
  height : ℕ → ℚ
  jitter : ℕ → ℚ
  cos : ℕ → ℕ → ℚ
  sin : ℕ → ℕ → ℚ

/-- The six portal locations of the constructor (lines 273-280). -/
def defaultLocations : List Location :=
  [ ⟨"Downtown", some ⟨0, 0, 0⟩⟩,
    ⟨"Industrial District", some ⟨50, 0, 50⟩⟩,
    ⟨"Residential Area", some ⟨-50, 0, 50⟩⟩,
    ⟨"The Living Hell House", some ⟨100, 0, 0⟩⟩,
    ⟨"The Docks", some ⟨120, 0, 20⟩⟩,
    ⟨"Chinatown", some ⟨110, 0, -20⟩⟩ ]

/-- The state left by the constructor, with a fresh `WaveManager`
(`active = false`, `waveNumber = 0`) and nothing loaded yet. -/
def Game.initial : Game where
  scene := false
  camera := none
  enemyTextures := 0
  bossModel := false
  stats :=
    { health := 100, hunger := 100, energy := 100, money := 500, wantedLevel := 0,
      score := 0, combo := 1, bestCombo := 1, gunLevel := 1 }
  gunBaseDamage := 40
  gunDamageMultiplier := 1
  locations := defaultLocations
  enemies := []
  isSurvivalModeActive := false
  waveManager := { active := false, waveNumber := 0 }
  pendingAdvance := 0
  nextEnemyId := 0

/-- The constructor state once the scene, the camera (at the player position
`(0, 1.7, 0)`) and `n` enemy textures are available. -/
def Game.ready (n : ℕ) : Game :=
  { Game.initial with scene := true, camera := some ⟨0, 17 / 10, 0⟩, enemyTextures := n }

/-- A spawn environment with constant draws, used for concrete runs. -/
def SpawnEnv.const (r : ℚ) : SpawnEnv where
  height := fun _ => r
  jitter := fun _ => r
  cos := fun _ _ => 1
  sin := fun _ _ => 0

/-! ## Economy -/

/-- The method `getGunUpgradeCost` (lines 2375-2379):
`n = gunLevel + 1`, result `250 * Math.pow(2, n - 1)`. -/
def getGunUpgradeCost (g : Game) : ℤ :=
  let n := g.stats.gunLevel + 1
  250 * 2 ^ (n - 1)

/-- The reward computed in `onEnemyKilled` (lines 75-76):
`nextLevel = (gunLevel || 1) + 1`, `bossRunReward = 250 * Math.pow(2, nextLevel - 1)`. -/
def bossRunReward (g : Game) : ℤ :=
  let nextLevel := (if g.stats.gunLevel = 0 then 1 else g.stats.gunLevel) + 1
  250 * 2 ^ (nextLevel - 1)

/-- The method `isNearTeleportPortal(radius)` (lines 2382-2391); the source
gives `radius` the default value 10. -/
def isNearTeleportPortal (g : Game) (radius : ℚ) : Bool :=
  match g.camera with
  | none => false
  | some pos =>
    g.locations.any fun loc =>
      match loc.position with
      | none => false
      | some p => pos.distanceToLt p radius

/-- The method `upgradeGun` (lines 2394-2430). -/
def upgradeGun (g : Game) : Game :=
  let cost := getGunUpgradeCost g
  if !isNearTeleportPortal g 10 then g
  else if g.stats.money < cost then g
  else
    let stats := { g.stats with money := g.stats.money - cost, gunLevel := g.stats.gunLevel + 1 }
    { g with stats := stats, gunDamageMultiplier := 1 + ((stats.gunLevel : ℚ) - 1) * 0.2 }

/-! ## Wave manager and spawn director -/

/-- The method `WaveManager.onEnemyKilled` (lines 63-120).  Clearing a boss
wave pays `bossRunReward` and stops survival mode; clearing any other wave
schedules one auto-advance callback.  The sum `money += bossRunReward` (line
77) is stored as a double. -/
def WaveManager.onEnemyKilled (g : Game) : Game :=
  let remaining := g.enemies.length
  if remaining == 0 && g.waveManager.active then
    let isBossWave := g.waveManager.waveNumber % 5 == 0
    if isBossWave then
      { g with
        stats := { g.stats with money := integerToDouble (g.stats.money + bossRunReward g) }
        waveManager := { g.waveManager with active := false }
        isSurvivalModeActive := false }
    else if !isBossWave then
      { g with pendingAdvance := g.pendingAdvance + 1 }
    else g
  else g

/-- The body of the `for` loop of `spawnEnemies` for index `i` (lines
2449-2561): the enemy record that is pushed. -/
def spawnEnemy (g : Game) (env : SpawnEnv) (basePosition : Vector3)
    (currentWave count : ℕ) (isBossWave : Bool) (i : ℕ) : Enemy :=
  let radius : ℚ := min 220 (50 + ((currentWave : ℚ) - 1) * 30)
  let x := basePosition.x + env.cos i count * radius
  let z := basePosition.z + env.sin i count * radius
  let height := 2 + env.height i
  let isBoss := isBossWave && i == 0
  let position : Vector3 :=
    if isBoss && g.bossModel then ⟨x, 3, z⟩ else ⟨x, height / 2, z⟩
  let baseHealth : ℚ := if isBoss then 140 else 30
  let healthPerWave : ℚ := if isBoss then 40 else 8
  let enemyHealth := baseHealth + ((currentWave : ℚ) - 1) * healthPerWave
  let baseProjectileDamage : ℚ := if isBoss then 8 else 4
  let damagePerWave : ℚ := if isBoss then 1.5 else 1.0
  let enemyProjectileDamage := baseProjectileDamage + ((currentWave : ℚ) - 1) * damagePerWave
  let baseCooldown : ℚ := if isBoss then 2.5 else 3.5
  let cooldownReduction : ℚ := 0.15 * ((currentWave : ℚ) - 1)
  let minCooldown : ℚ := if isBoss then 1.2 else 1.8
  let fireCooldown := max minCooldown (baseCooldown - cooldownReduction)
  { id := g.nextEnemyId + i
    position := position
    health := enemyHealth
    isBoss := isBoss
    lastShotTime := 0
    fireCooldown := fireCooldown + env.jitter i * 0.8
    projectileDamage := enemyProjectileDamage }

/-- The method `spawnEnemies(count, isBossWave)` (lines 2433-2571). -/
def spawnEnemies (g : Game) (env : SpawnEnv) (count : ℕ) (isBossWave : Bool) : Game :=
  match g.camera with
  | none => g
  | some basePosition =>
    if !g.scene || g.enemyTextures == 0 then g
    else
      let count := min count 24
      let currentWave := if g.waveManager.waveNumber = 0 then 1 else g.waveManager.waveNumber
      let spawned := (List.range count).map
        (spawnEnemy g env basePosition currentWave count isBossWave)
      WaveManager.onEnemyKilled
        { g with enemies := g.enemies ++ spawned, nextEnemyId := g.nextEnemyId + count }

/-- The method `WaveManager.startNextWave` (lines 35-61). -/
def WaveManager.startNextWave (env : SpawnEnv) (g : Game) : Game :=
  let waveNumber := g.waveManager.waveNumber + 1
  let g := { g with waveManager := { g.waveManager with waveNumber := waveNumber } }
  let enemiesToSpawn := 3 + (waveNumber - 1) * 2
  let isBossWave := waveNumber % 5 == 0
  spawnEnemies g env enemiesToSpawn isBossWave

/-- The method `WaveManager.activate` (lines 15-33). -/
def WaveManager.activate (env : SpawnEnv) (g : Game) : Game :=
  if g.waveManager.active then g
  else
    WaveManager.startNextWave env
      { g with
        waveManager := { g.waveManager with active := true }
        isSurvivalModeActive := true }

/-- The method `WaveManager.deactivate` (lines 122-147). -/
def WaveManager.deactivate (g : Game) : Game :=
  if !g.waveManager.active then g
  else
    { g with
      waveManager := { g.waveManager with active := false }
      isSurvivalModeActive := false
      enemies := [] }

/-- The callback passed to `setTimeout` in `onEnemyKilled` (lines 113-117):
`if (this.active) this.startNextWave()`. -/
def WaveManager.autoAdvanceCallback (env : SpawnEnv) (g : Game) : Game :=
  if g.waveManager.active then WaveManager.startNextWave env g else g

/-- The method `toggleSurvivalMode` (lines 1838-1844). -/
def toggleSurvivalMode (env : SpawnEnv) (g : Game) : Game :=
  if g.isSurvivalModeActive then WaveManager.deactivate g
  else WaveManager.activate env g

/-- The statement `this.enemies.splice(this.enemies.indexOf(enemy), 1)` guarded by
`idx !== -1`: removes the first entry with the identity `id`, if any. -/
def removeEnemy (id : ℕ) : List Enemy → List Enemy
  | [] => []
  | e :: es => if e.id = id then es else e :: removeEnemy id es

/-- The closure `enemy.takeDamage(amount)` (lines 2517-2560).  It returns the
game and the enemy object after the call; a surviving enemy that is in the
registry is updated in place there. -/
def takeDamage (g : Game) (enemy : Enemy) (amount : ℚ) : Game × Enemy :=
  let enemy' := { enemy with health := enemy.health - amount }
  if enemy'.health ≤ 0 then
    let scoreGain : ℤ := if enemy'.isBoss then 300 else 100
    let moneyGain : ℤ := if enemy'.isBoss then 75 else 25
    let g := { g with
      enemies := removeEnemy enemy'.id g.enemies
      stats := { g.stats with
        score := g.stats.score + scoreGain
        money := g.stats.money + moneyGain } }
    (WaveManager.onEnemyKilled g, enemy')
  else
    ({ g with enemies := g.enemies.map fun e => if e.id = enemy'.id then enemy' else e }, enemy')

/-! ## Events of the wave system -/

/-- What can happen to the wave system: the Start Wave button (`activate`),
`deactivate`, the key that toggles survival mode, a player projectile hitting
the enemy at registry index `j` (line 2728), and a pending auto-advance
callback firing. -/
inductive Event where
  | activate (env : SpawnEnv)
  | deactivate
  | toggle (env : SpawnEnv)
  | hit (j : ℕ) (amount : ℚ)
  | autoAdvance (env : SpawnEnv)

/-- One event.  A hit on an index outside the registry and a timer event with
no callback pending do not happen, so they leave the state as it is. -/
def step (g : Game) : Event → Game
  | .activate env => WaveManager.activate env g
  | .deactivate => WaveManager.deactivate g
  | .toggle env => toggleSurvivalMode env g
  | .hit j amount =>
    match g.enemies.get? j with
    | none => g
    | some enemy => (takeDamage g enemy amount).1
  | .autoAdvance env =>
    if g.pendingAdvance = 0 then g
    else WaveManager.autoAdvanceCallback env { g with pendingAdvance := g.pendingAdvance - 1 }

/-- A sequence of events, oldest first. -/
def run (g : Game) (events : List Event) : Game :=
  events.foldl step g

/-! ## Reference definitions and concrete runs -/

/-- Reference definition of `activate` following the words of the
specification: "no-op if already active; else sets active, waveNumber=0, calls
startNextWave()".  The `isSurvivalModeActive` mirror of the flag is set as in
the source, so the reset of `waveNumber` is the only difference. -/
def activateSpec (env : SpawnEnv) (g : Game) : Game :=
  if g.waveManager.active then g
  else
    WaveManager.startNextWave env
      { g with
        waveManager := { active := true, waveNumber := 0 }
        isSurvivalModeActive := true }

/-- The game with `stats.gunLevel` set to `level`. -/
def Game.withGunLevel (g : Game) (level : ℕ) : Game :=
  { g with stats := { g.stats with gunLevel := level } }

/-- Start survival mode on a ready game and shoot the three enemies of wave 1
(a level-1 bullet deals 40, an enemy of wave 1 has health 30): the last kill schedules the
auto-advance callback. -/
def clearWaveOne : List Event :=
  [.activate (SpawnEnv.const 0), .hit 0 40, .hit 0 40, .hit 0 40]

/-- After wave 1 is cleared, survival mode is switched off and on again while
the auto-advance callback is still pending. -/
def restartWhilePending : List Event :=
  clearWaveOne ++ [.deactivate, .activate (SpawnEnv.const 0)]

/-- Survival mode switched on and off once on a ready game: the manager is
inactive again and `waveNumber` is 1. -/
def afterFirstToggle : Game :=
  run (Game.ready 1) [.toggle (SpawnEnv.const 0), .toggle (SpawnEnv.const 0)]

/-- A ready game whose current wave is the boss wave 5, with the registry
already emptied by the last kill. -/
def bossWaveCleared : Game :=
  { Game.ready 1 with
    waveManager := { active := true, waveNumber := 5 }
    isSurvivalModeActive := true }

/-- A ready game with the player far from every portal and plenty of money. -/
def richFarAway : Game :=
  { Game.ready 1 with
    camera := some ⟨300, 17 / 10, 300⟩
    stats := { (Game.ready 1).stats with money := 1000000 } }

/-! ## Combat resolver: player projectiles -/

/-- A player projectile (lines 2191-2205): `position`, `velocity`,
`userData.life` and `userData.damage` of the mesh. -/
structure Projectile where
  position : Vector3
  velocity : Vector3
  life : ℚ
  damage : ℚ
deriving DecidableEq

/-- A `THREE.Box3`. -/
structure Box3 where
  min : Vector3
  max : Vector3
deriving DecidableEq

/-- The whole simulator: the game state above together with the projectile
lists, the cached bounding boxes of `this.environmentColliders` (`none` for a
missing mesh, skipped by `if (!mesh) continue`) and the modifier
`this.activeModifiers.noBulletDrop`. -/
structure Simulator extends Game where
  projectiles : List Projectile
  enemyProjectiles : List Projectile
  environmentColliders : List (Option Box3)
  noBulletDrop : Bool
deriving DecidableEq

/-- Why a projectile was removed in a tick: which `splice` of
`updateProjectiles` ran (lines 2705, 2714, and 2737 with `hit` set or not). -/
inductive Retirement where
  | expired
  | blocked
  | hit
  | grounded
deriving DecidableEq

/-- The method `Vector3.addScaledVector`. -/
def Vector3.addScaledVector (a v : Vector3) (s : ℚ) : Vector3 :=
  ⟨a.x + v.x * s, a.y + v.y * s, a.z + v.z * s⟩

/-- The method `Box3.expandByScalar`. -/
def Box3.expandByScalar (b : Box3) (s : ℚ) : Box3 :=
  { min := ⟨b.min.x - s, b.min.y - s, b.min.z - s⟩
    max := ⟨b.max.x + s, b.max.y + s, b.max.z + s⟩ }

/-- The method `Box3.containsPoint` (bounds included). -/
def Box3.containsPoint (b : Box3) (point : Vector3) : Bool :=
  decide (b.min.x ≤ point.x) && decide (point.x ≤ b.max.x) &&
  decide (b.min.y ≤ point.y) && decide (point.y ≤ b.max.y) &&
  decide (b.min.z ≤ point.z) && decide (point.z ≤ b.max.z)

/-- The method `isProjectileBlocked` (lines 1406-1424), margin 0.1. -/
def isProjectileBlocked (colliders : List (Option Box3)) (position : Vector3) : Bool :=
  colliders.any fun mesh =>
    match mesh with
    | none => false
    | some boundingBox => (boundingBox.expandByScalar 0.1).containsPoint position

/-- The scan of lines 2722-2731: `j` runs from the end of the registry to its
start and stops at the first enemy whose squared distance to the projectile is
below `hitRadius * hitRadius`, `hitRadius = 2.0`. -/
def findTarget (enemies : List Enemy) (position : Vector3) : Option Enemy :=
  enemies.reverse.find? fun enemy =>
    decide (position.distanceToSquared enemy.position < 2.0 * 2.0)

/-- The motion part of one loop iteration of `updateProjectiles` (lines
2696-2702): gravity unless `noBulletDrop`, then the position, then the life,
`p.userData.life -= delta` in double arithmetic. -/
def advance (noBulletDrop : Bool) (delta : ℚ) (p : Projectile) : Projectile :=
  let velocity : Vector3 :=
    if !noBulletDrop then { p.velocity with y := p.velocity.y - 9.8 * delta } else p.velocity
  { p with
    velocity := velocity
    position := p.position.addScaledVector velocity delta
    life := toDouble (p.life - delta) }

/-- One iteration of the loop of `updateProjectiles` (lines 2693-2739) for the
projectile `p`: the simulator afterwards, the projectile as mutated, and the
reason of its removal (`none` when it stays in `this.projectiles`). -/
def updateProjectile (s : Simulator) (delta : ℚ) (p : Projectile) :
    Simulator × Projectile × Option Retirement :=
  let p := advance s.noBulletDrop delta p
  if p.life ≤ 0 then (s, p, some .expired)
  else if isProjectileBlocked s.environmentColliders p.position then (s, p, some .blocked)
  else
    match findTarget s.enemies p.position with
    | some enemy =>
      let dmg := if p.damage = 0 then s.gunBaseDamage * s.gunDamageMultiplier else p.damage
      ({ s with toGame := (takeDamage s.toGame enemy dmg).1 }, p, some .hit)
    | none =>
      if p.position.y < 0 then (s, p, some .grounded) else (s, p, none)

/-- The method `updateProjectiles(delta)` (lines 2692-2741): the index runs
from the last projectile to the first, survivors keep their order. -/
def updateProjectiles (s : Simulator) (delta : ℚ) : Simulator :=
  let r := s.projectiles.foldr
    (fun p (acc : Simulator × List Projectile) =>
      match updateProjectile acc.1 delta p with
      | (s', _, some _) => (s', acc.2)
      | (s', p', none) => (s', p' :: acc.2))
    (s, [])
  { r.1 with projectiles := r.2 }

/-- Successive ticks of `updateProjectiles`, oldest first. -/
def ticks (s : Simulator) (deltas : List ℚ) : Simulator :=
  deltas.foldl updateProjectiles s

/-- The value of `userData.life` after successive ticks: each tick stores the
double nearest to the difference. -/
def countdown (life : ℚ) (deltas : List ℚ) : ℚ :=
  deltas.foldl (fun l delta => toDouble (l - delta)) life

/-- The projectile after the motion of successive ticks. -/
def trajectory (noBulletDrop : Bool) (p : Projectile) (deltas : List ℚ) : Projectile :=
  deltas.foldl (fun q delta => advance noBulletDrop delta q) p

/-- The collision loop only visits `this.enemies[j]`: a player projectile that
reaches the enemy object with identity `id` runs its damage handler when the
object is still in the registry and finds nothing to hit otherwise. -/
def projectileReaches (g : Game) (id : ℕ) (damage : ℚ) : Game :=
  match g.enemies.find? (fun enemy => enemy.id = id) with
  | none => g
  | some enemy => (takeDamage g enemy damage).1

/-- The method `resetGame` up to its call of `this.init()` (lines 3067-3109);
`init` then rebuilds scene, camera and systems asynchronously. -/
def resetGame (s : Simulator) : Simulator :=
  { s with
    stats :=
      { health := 100, hunger := 100, energy := 100, money := 500, wantedLevel := 0,
        score := 0, combo := 1, bestCombo := 1, gunLevel := 1 }
    gunDamageMultiplier := 1.0
    projectiles := []
    enemyProjectiles := []
    enemies := []
    camera := none }

/-! ## Progress codes -/

/-- The characters removed by `String.prototype.trim` and skipped by
`parseInt`: ECMAScript white space and line terminators. -/
def isJsWhiteSpace (c : Char) : Bool :=
  let n := c.toNat
  n == 9 || n == 10 || n == 11 || n == 12 || n == 13 || n == 32 || n == 160 ||
  n == 5760 || (8192 ≤ n && n ≤ 8202) || n == 8232 || n == 8233 || n == 8239 ||
  n == 8287 || n == 12288 || n == 65279

/-- The method `String.prototype.trim`. -/
def jsTrim (cs : List Char) : List Char :=
  ((cs.dropWhile isJsWhiteSpace).reverse.dropWhile isJsWhiteSpace).reverse

/-- The method `String.prototype.startsWith`. -/
def startsWith : List Char → List Char → Bool
  | _, [] => true
  | [], _ :: _ => false
  | c :: cs, d :: ds => c == d && startsWith cs ds

/-- The method `String.prototype.split` with a one-character separator. -/
def splitOn (sep : Char) : List Char → List (List Char)
  | [] => [[]]
  | c :: cs =>
    if c = sep then [] :: splitOn sep cs
    else
      match splitOn sep cs with
      | [] => [[c]]
      | part :: parts => (c :: part) :: parts

/-- The value of a character of the base64 alphabet `A-Z a-z 0-9 + /`. -/
def base64Digit (c : Char) : Option ℕ :=
  let n := c.toNat
  if 65 ≤ n ∧ n ≤ 90 then some (n - 65)
  else if 97 ≤ n ∧ n ≤ 122 then some (n - 97 + 26)
  else if 48 ≤ n ∧ n ≤ 57 then some (n - 48 + 52)
  else if n = 43 then some 62
  else if n = 47 then some 63
  else none

/-- Groups of four 6-bit values give three bytes; a final group of three gives
two bytes and a final group of two gives one byte, the spare bits being dropped. -/
def decodeSextets : List ℕ → List Char
  | a :: b :: c :: d :: rest =>
    let n := a * 262144 + b * 4096 + c * 64 + d
    Char.ofNat (n / 65536) :: Char.ofNat (n / 256 % 256) :: Char.ofNat (n % 256)
      :: decodeSextets rest
  | [a, b, c] =>
    let n := (a * 4096 + b * 64 + c) / 4
    [Char.ofNat (n / 256), Char.ofNat (n % 256)]
  | [a, b] => [Char.ofNat ((a * 64 + b) / 16)]
  | _ => []

/-- ASCII white space as removed by `atob`: tab, line feed, form feed, carriage
return, space. -/
def isAsciiWhiteSpace (c : Char) : Bool :=
  let n := c.toNat
  n == 9 || n == 10 || n == 12 || n == 13 || n == 32

/-- The browser function `atob` (forgiving base64 decoding of the HTML
standard); `none` stands for the `InvalidCharacterError` it throws. -/
def atob (data : List Char) : Option (List Char) :=
  let data := data.filter fun c => !isAsciiWhiteSpace c
  let data :=
    if data.length % 4 = 0 then
      let r := data.reverse
      (if startsWith r [Char.ofNat 61, Char.ofNat 61] then r.drop 2
       else if startsWith r [Char.ofNat 61] then r.drop 1
       else r).reverse
    else data
  if data.length % 4 = 1 then none
  else (data.mapM base64Digit).map decodeSextets

/-- The function `parseInt(string, 10)`: leading white space, an optional
sign, then the longest run of decimal digits; `none` stands for `NaN`. -/
def parseInt (cs : List Char) : Option ℤ :=
  let cs := cs.dropWhile isJsWhiteSpace
  let negative := startsWith cs [Char.ofNat 45]
  let cs := if negative || startsWith cs [Char.ofNat 43] then cs.drop 1 else cs
  let digits := cs.takeWhile Char.isDigit
  if digits = [] then none
  else
    let value : ℤ := digits.foldl (fun acc c => acc * 10 + ((c.toNat - 48 : ℕ) : ℤ)) 0
    some (if negative then -value else value)

/-- The method `redeemProgressCode(inputCode)` (lines 2308-2372).  The input
is `none` for a value that is not a string; the second component of the result
is the returned level, `none` for `null`. -/
def redeemProgressCode (g : Game) (inputCode : Option String) : Game × Option ℤ :=
  match inputCode with
  | none => (g, none)
  | some text =>
    if text.data = [] then (g, none)
    else
      let trimmed := jsTrim text.data
      if !startsWith trimmed "ULS-".data then (g, none)
      else
        let encodedPart := trimmed.drop 4
        if encodedPart = [] then (g, none)
        else
          let base := ((encodedPart.map fun c => if c = Char.ofNat 95 then Char.ofNat 61 else c).map
            fun c => if c = Char.ofNat 45 then Char.ofNat 43 else c).map
            fun c => if c = Char.ofNat 46 then Char.ofNat 47 else c
          match atob base with
          | none => (g, none)
          | some decoded =>
            let parts := splitOn (Char.ofNat 124) decoded
            if parts.length ≠ 3 then (g, none)
            else
              let version := parseInt (parts.getD 0 [])
              match parseInt (parts.getD 1 []) with
              | none => (g, none)
              | some level =>
                if version ≠ some 1 then (g, none)
                else if level < 1 ∨ level > 99 then (g, none)
                else
                  let stats := { g.stats with gunLevel := level.toNat }
                  ({ g with
                     stats := stats
                     gunDamageMultiplier := 1 + ((stats.gunLevel : ℚ) - 1) * 0.2 },
                   some level)

/-- The three replacements of `redeemProgressCode` (lines 2327-2330):
`_` to `=`, then `-` to `+`, then `.` to `/`. -/
def unscramble (cs : List Char) : List Char :=
  ((cs.map fun c => if c = Char.ofNat 95 then Char.ofNat 61 else c).map
    fun c => if c = Char.ofNat 45 then Char.ofNat 43 else c).map
    fun c => if c = Char.ofNat 46 then Char.ofNat 47 else c

/-- The three replacements of `generateProgressCode` (lines 2290-2293):
`=` to `_`, then `+` to `-`, then `/` to `.`. -/
def scramble (cs : List Char) : List Char :=
  ((cs.map fun c => if c = Char.ofNat 61 then Char.ofNat 95 else c).map
    fun c => if c = Char.ofNat 43 then Char.ofNat 45 else c).map
    fun c => if c = Char.ofNat 47 then Char.ofNat 46 else c

/-! ## Generating progress codes -/

/-- An integer inside a template literal: its decimal digits, with a minus
sign when negative. -/
def jsNumberToString (n : ℤ) : List Char :=
  if n < 0 then Char.ofNat 45 :: Nat.toDigits 10 n.natAbs else Nat.toDigits 10 n.toNat

/-- The character of the base64 alphabet `A-Z a-z 0-9 + /` with value `v`. -/
def base64Char (v : ℕ) : Char :=
  if v < 26 then Char.ofNat (65 + v)
  else if v < 52 then Char.ofNat (97 + (v - 26))
  else if v < 62 then Char.ofNat (48 + (v - 52))
  else if v = 62 then Char.ofNat 43
  else Char.ofNat 47

/-- The 6-bit values of a byte sequence: three bytes give four values, a final
pair of bytes three and a final single byte two, the missing bits being 0. -/
def sextets : List ℕ → List ℕ
  | a :: b :: c :: rest =>
    a / 4 :: (a % 4 * 16 + b / 16) :: (b % 16 * 4 + c / 64) :: c % 64 :: sextets rest
  | [a, b] => [a / 4, a % 4 * 16 + b / 16, b % 16 * 4]
  | [a] => [a / 4, a % 4 * 16]
  | [] => []

/-- The `=` signs that complete the last group of a base64 text. -/
def padding : List ℕ → List Char
  | _ :: _ :: _ :: rest => padding rest
  | [_, _] => [Char.ofNat 61]
  | [_] => [Char.ofNat 61, Char.ofNat 61]
  | [] => []

/-- The browser function `btoa`; `none` stands for the `InvalidCharacterError`
thrown for a character above U+00FF. -/
def btoa (data : List Char) : Option (List Char) :=
  if data.all fun c => decide (c.toNat < 256) then
    some ((sextets (data.map Char.toNat)).map base64Char ++ padding (data.map Char.toNat))
  else none

/-- The method `generateProgressCode(currentUpgradeLevel)` (lines 2278-2304)
for an integer level; `random` is the draw of `Math.random()`.  The returned
code is also what the method stores in `this.lastProgressCode`. -/
def generateProgressCode (currentUpgradeLevel : ℤ) (random : ℚ) : String :=
  let level : ℤ := max 1 (min 99 (if currentUpgradeLevel = 0 then 1 else currentUpgradeLevel))
  let version : ℤ := 1
  let nonce : ℤ := ⌊random * 9000⌋ + 1000
  let payload := jsNumberToString version ++ [Char.ofNat 124] ++ jsNumberToString level
    ++ [Char.ofNat 124] ++ jsNumberToString nonce
  match btoa payload with
  | none => "ULS-ERROR"
  | some base =>
    let scrambled := ((base.map fun c => if c = Char.ofNat 61 then Char.ofNat 95 else c).map
      fun c => if c = Char.ofNat 43 then Char.ofNat 45 else c).map
      fun c => if c = Char.ofNat 47 then Char.ofNat 46 else c
    String.mk ("ULS-".data ++ scrambled)

/-! ## Invariants and further concrete states -/

/-- The economy invariant of the data model: `money ≥ 0`, `gunLevel ≥ 1` and
`gunDamageMultiplier = 1 + (gunLevel - 1) * 0.2`. -/
def EconomyInvariant (g : Game) : Prop :=
  0 ≤ g.stats.money ∧ 1 ≤ g.stats.gunLevel ∧
  g.gunDamageMultiplier = 1 + ((g.stats.gunLevel : ℚ) - 1) * 0.2

/-- The flag of the game mirrors the flag of the manager, and an inactive
manager has an empty registry. -/
def Consistent (g : Game) : Prop :=
  g.isSurvivalModeActive = g.waveManager.active ∧
  (g.waveManager.active = false → g.enemies = [])

/-- The events by which the player starts survival mode by hand: the Start
Wave button and the toggle key. -/
def Event.startsManually : Event → Bool
  | .activate _ => true
  | .toggle _ => true
  | _ => false

/-- An enemy of wave 1 (health 30, bounty 100 / $25) standing at `(0, 1, 10)`. -/
def lastEnemy : Enemy :=
  { id := 2, position := ⟨0, 1, 10⟩, health := 30, isBoss := false, lastShotTime := 0,
    fireCooldown := 7 / 2, projectileDamage := 4 }

/-- Wave 1 of a ready game with only `lastEnemy` left in the registry. -/
def lastStand : Game :=
  { Game.ready 1 with
    waveManager := { active := true, waveNumber := 1 }
    isSurvivalModeActive := true
    enemies := [lastEnemy]
    nextEnemyId := 3 }

/-- A level-1 bullet (damage 40, life 3) one metre in front of `lastEnemy`,
flying towards it at speed 60. -/
def bullet : Projectile :=
  { position := ⟨0, 17 / 10, 9⟩, velocity := ⟨0, 0, 60⟩, life := 3, damage := 40 }

/-- The simulator in `lastStand` with two such bullets in flight, no colliders
and gravity on. -/
def twoBullets : Simulator :=
  { lastStand with
    projectiles := [bullet, bullet]
    enemyProjectiles := []
    environmentColliders := []
    noBulletDrop := false }

/-- An empty firing range: no enemies, no colliders, the `noBulletDrop`
modifier set, and one bullet of life 3 flying level at height 1.7. -/
def firingRange : Simulator :=
  { Game.ready 1 with
    projectiles := [bullet]
    enemyProjectiles := []
    environmentColliders := []
    noBulletDrop := true }

/-- The projectiles that reach the enemy object `id` one after the other, with
their damages, oldest first. -/
def shots (g : Game) (id : ℕ) (damages : List ℚ) : Game :=
  damages.foldl (fun state damage => projectileReaches state id damage) g

/-- A bullet already below the ground plane but within reach of `lastEnemy`. -/
def lowBullet : Projectile :=
  { position := ⟨0, -1 / 2, 99 / 10⟩, velocity := ⟨0, 0, 0⟩, life := 3, damage := 40 }

/-- The projectile `q` (taken after its motion) is not inside an expanded
collider box, is within reach of no enemy and is not below the ground plane. -/
def unobstructed (s : Simulator) (q : Projectile) : Bool :=
  !isProjectileBlocked s.environmentColliders q.position &&
  (findTarget s.enemies q.position).isNone && decide (0 ≤ q.position.y)

/-! ## Combat resolver: enemy projectiles and the player -/

/-- The method `playerTakeDamage(amount)` (lines 2827-2870), without the camera
rumble and the screen flash; `gameOver()` only builds the game-over screen. -/
def playerTakeDamage (g : Game) (amount : ℚ) : Game :=
  if g.stats.health ≤ 0 then g
  else
    let amount := if g.stats.hunger < 20 then amount * 1.5 else amount
    let health := g.stats.health - amount
    { g with stats := { g.stats with health := max 0 health } }

/-- Why an enemy projectile was removed in a tick: which `splice` of
`updateEnemyProjectiles` ran (lines 2751, 2758, 2768, 2775). -/
inductive EnemyShotEnd where
  | expired
  | blocked
  | hitPlayer
  | grounded
deriving DecidableEq

/-- The motion part of one loop iteration of `updateEnemyProjectiles` (lines
2746-2748): the position, then the life (`p.userData.life -= delta` in double
arithmetic); the velocity is not touched. -/
def advanceEnemyShot (delta : ℚ) (p : Projectile) : Projectile :=
  { p with
    position := p.position.addScaledVector p.velocity delta
    life := toDouble (p.life - delta) }

/-- One iteration of the loop of `updateEnemyProjectiles` (lines 2744-2777).
The result is `none` when `this.camera` is missing at the player test, which
throws in the source. -/
def updateEnemyProjectile (s : Simulator) (delta : ℚ) (p : Projectile) :
    Option (Simulator × Projectile × Option EnemyShotEnd) :=
  let p := advanceEnemyShot delta p
  if p.life ≤ 0 then some (s, p, some .expired)
  else if isProjectileBlocked s.environmentColliders p.position then some (s, p, some .blocked)
  else
    match s.camera with
    | none => none
    | some player =>
      if p.position.distanceToSquared player < 1.0 * 1.0 then
        let damage := if p.damage = 0 then 6 else p.damage
        some ({ s with toGame := playerTakeDamage s.toGame damage }, p, some .hitPlayer)
      else if p.position.y < 0 then some (s, p, some .grounded)
      else some (s, p, none)

/-- The method `updateEnemyProjectiles(delta)` (lines 2743-2778). -/
def updateEnemyProjectiles (s : Simulator) (delta : ℚ) : Option Simulator :=
  (s.enemyProjectiles.foldr
    (fun p (acc : Option (Simulator × List Projectile)) =>
      match acc with
      | none => none
      | some (state, kept) =>
        match updateEnemyProjectile state delta p with
        | none => none
        | some (next, _, some _) => some (next, kept)
        | some (next, q, none) => some (next, q :: kept))
    (some (s, []))).map fun r => { r.1 with enemyProjectiles := r.2 }

/-! ## Player stats -/

/-- The method `updateStats(delta)` (lines 2976-2996). -/
def updateStats (g : Game) (delta : ℚ) : Game :=
  let hunger := max 0 (g.stats.hunger - delta * 0.15)
  let energy := max 0 (g.stats.energy - delta * 0.1)
  let health := if hunger < 20 then max 0 (g.stats.health - delta * 0.2) else g.stats.health
  { g with stats := { g.stats with hunger := hunger, energy := energy, health := health } }

/-- The method `applyPowerup(powerType)` (lines 3173-3202) on the game and on
`this.activeModifiers.speedBoostTime`. -/
def applyPowerup (g : Game) (speedBoostTime : ℚ) (powerType : String) : Game × ℚ :=
  if powerType = "health" then
    ({ g with stats := { g.stats with health := min 100 (g.stats.health + 35) } }, speedBoostTime)
  else if powerType = "energy" then
    ({ g with stats := { g.stats with energy := min 100 (g.stats.energy + 40) } },
      max speedBoostTime 10)
  else if powerType = "hunger" then
    ({ g with stats := { g.stats with hunger := min 100 (g.stats.hunger + 40) } }, speedBoostTime)
  else (g, speedBoostTime)

/-- The method `useItem(itemName)` (lines 1938-1975); `inventory` gives the
count stored in `this.inventory` for each item name, 0 for a name without an
entry. -/
def useItem (g : Game) (inventory : String → ℕ) (itemName : String) : Game × (String → ℕ) :=
  if inventory itemName = 0 then (g, inventory)
  else
    let spend : String → ℕ := fun name => if name = itemName then inventory name - 1 else inventory name
    if itemName = "Food Can" then
      ({ g with stats := { g.stats with hunger := min 100 (g.stats.hunger + 30) } }, spend)
    else if itemName = "Water Bottle" then
      ({ g with stats := { g.stats with
          health := min 100 (g.stats.health + 10)
          hunger := min 100 (g.stats.hunger + 5) } }, spend)
    else if itemName = "Energy Drink" then
      ({ g with stats := { g.stats with energy := min 100 (g.stats.energy + 40) } }, spend)
    else (g, inventory)

/-- The effect of choice B of `LivingHellMode.buildChoices` (lines 200-204 of
`living-hell-module.js`): +25 health. -/
def LivingHell.choiceB (g : Game) : Game :=
  { g with stats := { g.stats with health := min 100 (g.stats.health + 25) } }

/-- The effect of choice D of `LivingHellMode.buildChoices` (lines 220-227 of
`living-hell-module.js`): -20 health. -/
def LivingHell.choiceD (g : Game) : Game :=
  { g with stats := { g.stats with health := max 0 (g.stats.health - 20) } }

/-- The player's health is within `[0, 100]`. -/
def HealthBounds (g : Game) : Prop :=
  0 ≤ g.stats.health ∧ g.stats.health ≤ 100

/-- The ready game with the player's health at 0: the game-over screen is up. -/
def fallen : Game :=
  { Game.ready 1 with stats := { (Game.ready 1).stats with health := 0 } }

/-- An enemy shot (damage 4, life 4) half a metre in front of the player of
`Game.ready`, flying towards the player. -/
def enemyShot : Projectile :=
  { position := ⟨0, 17 / 10, 1 / 2⟩, velocity := ⟨0, 0, -15⟩, life := 4, damage := 4 }

/-- A ready simulator with `enemyShot` in flight and nothing else. -/
def underFire : Simulator :=
  { Game.ready 1 with
    projectiles := []
    enemyProjectiles := [enemyShot]
    environmentColliders := []
    noBulletDrop := false }

/-! ## Basic facts about the operations -/

theorem onEnemyKilled_of_ne_nil (g : Game) (h : g.enemies ≠ []) :
    WaveManager.onEnemyKilled g = g := by
  have hlen : g.enemies.length ≠ 0 := by
    intro h0
    exact h (List.length_eq_zero.mp h0)
  simp [WaveManager.onEnemyKilled, hlen]

theorem onEnemyKilled_inactive (g : Game) (h : g.waveManager.active = false) :
    WaveManager.onEnemyKilled g = g := by
  simp [WaveManager.onEnemyKilled, h]

theorem onEnemyKilled_boss (g : Game) (hempty : g.enemies = [])
    (hactive : g.waveManager.active = true) (hboss : g.waveManager.waveNumber % 5 = 0) :
    WaveManager.onEnemyKilled g =
      { g with
        stats := { g.stats with money := integerToDouble (g.stats.money + bossRunReward g) }
        waveManager := { g.waveManager with active := false }
        isSurvivalModeActive := false } := by
  simp [WaveManager.onEnemyKilled, hempty, hactive, hboss]

theorem integerToDouble_of_safe (n : ℤ) (h : |n| ≤ 2 ^ 53) : integerToDouble n = n := by
  have h53 : (2 : ℤ) ^ 53 = 9007199254740992 := by norm_num
  rw [h53] at h
  unfold integerToDouble
  rw [if_pos h]

theorem integerToDouble_nonneg (n : ℤ) (h : 0 ≤ n) : 0 ≤ integerToDouble n := by
  unfold integerToDouble
  simp only []
  split
  · exact h
  · rw [if_neg (not_lt.mpr h)]
    exact Int.natCast_nonneg _

theorem spawnEnemies_ready (g : Game) (env : SpawnEnv) (count : ℕ) (isBossWave : Bool)
    (pos : Vector3) (hscene : g.scene = true) (hcam : g.camera = some pos)
    (htex : 0 < g.enemyTextures) (hcount : 0 < count) :
    spawnEnemies g env count isBossWave =
      { g with
        enemies := g.enemies ++ (List.range (min count 24)).map
          (spawnEnemy g env pos
            (if g.waveManager.waveNumber = 0 then 1 else g.waveManager.waveNumber)
            (min count 24) isBossWave)
        nextEnemyId := g.nextEnemyId + min count 24 } := by
  have htex0 : g.enemyTextures ≠ 0 := Nat.pos_iff_ne_zero.mp htex
  have hmin : 0 < min count 24 := lt_min hcount (by norm_num)
  unfold spawnEnemies
  simp only [hcam, hscene, htex0, Bool.not_true, beq_iff_eq, Bool.false_or, decide_False,
    Bool.false_eq_true, if_false]
  apply onEnemyKilled_of_ne_nil
  intro hnil
  have hlen := congrArg List.length hnil
  simp at hlen
  omega

theorem spawnEnemies_not_ready (g : Game) (env : SpawnEnv) (count : ℕ) (isBossWave : Bool)
    (h : g.scene = false ∨ g.camera = none ∨ g.enemyTextures = 0) :
    spawnEnemies g env count isBossWave = g := by
  unfold spawnEnemies
  rcases h with h | h | h
  · cases hc : g.camera <;> simp [h]
  · simp [h]
  · cases hc : g.camera <;> simp [h]

theorem onEnemyKilled_waveNumber (g : Game) :
    (WaveManager.onEnemyKilled g).waveManager.waveNumber = g.waveManager.waveNumber := by
  unfold WaveManager.onEnemyKilled
  simp only []
  split_ifs <;> rfl

theorem spawnEnemies_waveNumber (g : Game) (env : SpawnEnv) (count : ℕ) (isBossWave : Bool) :
    (spawnEnemies g env count isBossWave).waveManager.waveNumber = g.waveManager.waveNumber := by
  unfold spawnEnemies
  cases hc : g.camera with
  | none => rfl
  | some pos =>
    simp only []
    split_ifs
    · rfl
    · exact onEnemyKilled_waveNumber _
    · exact onEnemyKilled_waveNumber _

theorem startNextWave_waveNumber (env : SpawnEnv) (g : Game) :
    (WaveManager.startNextWave env g).waveManager.waveNumber = g.waveManager.waveNumber + 1 := by
  unfold WaveManager.startNextWave
  simp only []
  rw [spawnEnemies_waveNumber]

/-- The state in which `startNextWave` calls `spawnEnemies`: `waveNumber += 1`. -/
theorem startNextWave_ready (env : SpawnEnv) (g : Game) (pos : Vector3)
    (hscene : g.scene = true) (hcam : g.camera = some pos) (htex : 0 < g.enemyTextures) :
    ∃ spawned : List Enemy,
      spawned.length = min 24 (3 + g.waveManager.waveNumber * 2) ∧
      WaveManager.startNextWave env g =
        { g with
          waveManager := { g.waveManager with waveNumber := g.waveManager.waveNumber + 1 }
          enemies := g.enemies ++ spawned
          nextEnemyId := g.nextEnemyId + min 24 (3 + g.waveManager.waveNumber * 2) } := by
  have key := spawnEnemies_ready
    { g with waveManager := { g.waveManager with waveNumber := g.waveManager.waveNumber + 1 } }
    env (3 + (g.waveManager.waveNumber + 1 - 1) * 2) ((g.waveManager.waveNumber + 1) % 5 == 0)
    pos hscene hcam htex (by omega)
  unfold WaveManager.startNextWave
  simp only []
  rw [key]
  simp only [Nat.add_sub_cancel, min_comm]
  exact ⟨_, by simp, rfl⟩

theorem startNextWave_not_ready (env : SpawnEnv) (g : Game)
    (h : g.scene = false ∨ g.camera = none ∨ g.enemyTextures = 0) :
    WaveManager.startNextWave env g =
      { g with
        waveManager := { g.waveManager with waveNumber := g.waveManager.waveNumber + 1 } } := by
  unfold WaveManager.startNextWave
  simp only []
  exact spawnEnemies_not_ready _ _ _ _ h

theorem ready_or_not (g : Game) :
    (g.scene = true ∧ (∃ pos, g.camera = some pos) ∧ 0 < g.enemyTextures) ∨
    (g.scene = false ∨ g.camera = none ∨ g.enemyTextures = 0) := by
  cases hs : g.scene
  · exact Or.inr (Or.inl rfl)
  · cases hc : g.camera with
    | none => exact Or.inr (Or.inr (Or.inl rfl))
    | some pos =>
      rcases Nat.eq_zero_or_pos g.enemyTextures with h0 | h0
      · exact Or.inr (Or.inr (Or.inr h0))
      · exact Or.inl ⟨rfl, ⟨pos, rfl⟩, h0⟩

theorem startNextWave_active (env : SpawnEnv) (g : Game) :
    (WaveManager.startNextWave env g).waveManager.active = g.waveManager.active := by
  rcases ready_or_not g with ⟨hscene, ⟨pos, hcam⟩, htex⟩ | h
  · obtain ⟨spawned, -, heq⟩ := startNextWave_ready env g pos hscene hcam htex
    rw [heq]
  · rw [startNextWave_not_ready env g h]

/-! ## C1: size of a standard wave -/

/-- C1: for every wave number `w ≥ 1`, when `startNextWave` brings `waveNumber`
to `w` and the spawner is ready (scene and camera set, at least one enemy
texture loaded), the registry is extended by exactly `min(24, 3 + (w-1)*2)`
new enemies and the enemies already present are kept. -/
theorem startNextWave_spawns_min_24 (env : SpawnEnv) (g : Game) (w : ℕ) (pos : Vector3)
    (hw : 1 ≤ w) (hwave : g.waveManager.waveNumber + 1 = w)
    (hscene : g.scene = true) (hcam : g.camera = some pos) (htex : 0 < g.enemyTextures) :
    (WaveManager.startNextWave env g).waveManager.waveNumber = w ∧
    (∃ spawned : List Enemy,
      (WaveManager.startNextWave env g).enemies = g.enemies ++ spawned ∧
      spawned.length = min 24 (3 + (w - 1) * 2)) ∧
    (WaveManager.startNextWave env g).enemies.length
      = g.enemies.length + min 24 (3 + (w - 1) * 2) := by
  have hw' : w - 1 = g.waveManager.waveNumber := by omega
  obtain ⟨spawned, hlen, heq⟩ := startNextWave_ready env g pos hscene hcam htex
  refine ⟨by rw [startNextWave_waveNumber, hwave], ⟨spawned, ?_, ?_⟩, ?_⟩
  · rw [heq]
  · rw [hlen, hw']
  · rw [heq]
    simp [hlen, hw']

/-- Witness of C1: bringing a ready game from wave 11 to wave 12 asks for 25
enemies and 24 are spawned. -/
theorem startNextWave_spawns_min_24_witness :
    (WaveManager.startNextWave (SpawnEnv.const 0)
        { Game.ready 1 with waveManager := { active := true, waveNumber := 11 } }).enemies.length
      = 0 + min 24 (3 + (12 - 1) * 2) :=
  (startNextWave_spawns_min_24 (SpawnEnv.const 0)
    { Game.ready 1 with waveManager := { active := true, waveNumber := 11 } }
    12 ⟨0, 17 / 10, 0⟩ (by decide) rfl rfl rfl (by decide)).2.2

/-! ## C2, C3: the pending auto-advance callback -/

set_option maxRecDepth 100000

theorem autoAdvanceCallback_inactive (env : SpawnEnv) (g : Game)
    (h : g.waveManager.active = false) :
    WaveManager.autoAdvanceCallback env g = g := by
  simp [WaveManager.autoAdvanceCallback, h]

/-- C2: the run `restartWhilePending` (wave 1 cleared, then deactivate and
activate before the 2-second callback fires) reaches a state with the five
enemies of wave 2 in the registry and one callback pending; the callback then
invokes `startNextWave` on that non-empty registry, which ends up holding the
five enemies of wave 2 (health 38) together with the seven of wave 3 (health 46). -/
theorem stale_callback_overlaps_waves :
    (run (Game.ready 1) restartWhilePending).waveManager = { active := true, waveNumber := 2 } ∧
    (run (Game.ready 1) restartWhilePending).enemies.length = 5 ∧
    (run (Game.ready 1) restartWhilePending).pendingAdvance = 1 ∧
    step (run (Game.ready 1) restartWhilePending) (.autoAdvance (SpawnEnv.const 0)) =
      WaveManager.startNextWave (SpawnEnv.const 0)
        { run (Game.ready 1) restartWhilePending with pendingAdvance := 0 } ∧
    (step (run (Game.ready 1) restartWhilePending) (.autoAdvance (SpawnEnv.const 0))).waveManager
      = { active := true, waveNumber := 3 } ∧
    (step (run (Game.ready 1) restartWhilePending) (.autoAdvance (SpawnEnv.const 0))).enemies.map
        (fun e => e.health)
      = List.replicate 5 38 ++ List.replicate 7 46 := by
  with_unfolding_all decide

/-- C3: after wave 1 is cleared one callback is pending; `deactivate` leaves it
pending, and while the manager stays inactive the callback changes nothing; but
once `activate` has run again the same callback finds `active` set, calls
`startNextWave` (wave 2 becomes wave 3) and seven more enemies are spawned. -/
theorem pending_callback_fires_after_reactivation :
    (run (Game.ready 1) clearWaveOne).pendingAdvance = 1 ∧
    (WaveManager.deactivate (run (Game.ready 1) clearWaveOne)).waveManager.active = false ∧
    (WaveManager.deactivate (run (Game.ready 1) clearWaveOne)).pendingAdvance = 1 ∧
    WaveManager.autoAdvanceCallback (SpawnEnv.const 0)
        (WaveManager.deactivate (run (Game.ready 1) clearWaveOne))
      = WaveManager.deactivate (run (Game.ready 1) clearWaveOne) ∧
    (WaveManager.activate (SpawnEnv.const 0)
        (WaveManager.deactivate (run (Game.ready 1) clearWaveOne))).enemies.length = 5 ∧
    (WaveManager.autoAdvanceCallback (SpawnEnv.const 0)
        (WaveManager.activate (SpawnEnv.const 0)
          (WaveManager.deactivate (run (Game.ready 1) clearWaveOne)))).waveManager.waveNumber = 3 ∧
    (WaveManager.autoAdvanceCallback (SpawnEnv.const 0)
        (WaveManager.activate (SpawnEnv.const 0)
          (WaveManager.deactivate (run (Game.ready 1) clearWaveOne)))).enemies.length = 12 := by
  with_unfolding_all decide

/-! ## C4: activation -/

/-- C4, counterexample: in the state reached by switching survival mode on and
off once the manager is inactive with `waveNumber = 1`; `activate` then starts
wave 2, whereas the reference definition resets the counter and starts wave 1. -/
theorem activate_differs_from_activateSpec :
    afterFirstToggle.waveManager = { active := false, waveNumber := 1 } ∧
    (WaveManager.activate (SpawnEnv.const 0) afterFirstToggle).waveManager.waveNumber = 2 ∧
    (activateSpec (SpawnEnv.const 0) afterFirstToggle).waveManager.waveNumber = 1 ∧
    WaveManager.activate (SpawnEnv.const 0) afterFirstToggle
      ≠ activateSpec (SpawnEnv.const 0) afterFirstToggle := by
  with_unfolding_all decide

/-- C4, amended: `activate` leaves the whole state unchanged when the manager is
already active; otherwise it sets `active` (and `isSurvivalModeActive`) and
calls `startNextWave` without touching `waveNumber` first, so that afterwards
the manager is active with `waveNumber` one above its previous value; it agrees
with the reference definition exactly when the previous value was 0. -/
theorem activate_continues_wave_count (env : SpawnEnv) (g : Game) :
    (g.waveManager.active = true → WaveManager.activate env g = g) ∧
    (g.waveManager.active = false →
      WaveManager.activate env g =
        WaveManager.startNextWave env
          { g with
            waveManager := { g.waveManager with active := true }
            isSurvivalModeActive := true } ∧
      (WaveManager.activate env g).waveManager.active = true ∧
      (WaveManager.activate env g).waveManager.waveNumber = g.waveManager.waveNumber + 1 ∧
      (g.waveManager.waveNumber = 0 → WaveManager.activate env g = activateSpec env g)) := by
  constructor
  · intro h
    simp [WaveManager.activate, h]
  · intro h
    have hdef : WaveManager.activate env g =
        WaveManager.startNextWave env
          { g with
            waveManager := { g.waveManager with active := true }
            isSurvivalModeActive := true } := by
      simp [WaveManager.activate, h]
    refine ⟨hdef, ?_, ?_, ?_⟩
    · rw [hdef, startNextWave_active]
    · rw [hdef, startNextWave_waveNumber]
    · intro h0
      rw [hdef]
      simp only [activateSpec, h, Bool.false_eq_true, if_false]
      rw [← h0]

/-- Witness of C4 (amended): activating from the inactive state with
`waveNumber = 1` gives an active manager on wave 2. -/
theorem activate_continues_wave_count_witness :
    afterFirstToggle.waveManager.active = false ∧
    (WaveManager.activate (SpawnEnv.const 0) afterFirstToggle).waveManager.active = true ∧
    (WaveManager.activate (SpawnEnv.const 0) afterFirstToggle).waveManager.waveNumber
      = afterFirstToggle.waveManager.waveNumber + 1 :=
  have h : afterFirstToggle.waveManager.active = false := by with_unfolding_all decide
  ⟨h, ((activate_continues_wave_count (SpawnEnv.const 0) afterFirstToggle).2 h).2.1,
    ((activate_continues_wave_count (SpawnEnv.const 0) afterFirstToggle).2 h).2.2.1⟩

/-! ## C5, C6: the upgrade cost curve -/

theorem getGunUpgradeCost_eq (g : Game) :
    getGunUpgradeCost g = 250 * 2 ^ g.stats.gunLevel := by
  simp [getGunUpgradeCost]

/-- C5, counterexample: at `gunLevel = 1` (upgrade to level 2) the cost is 500,
not 250, so the triple 250, 500, 1000 is not what `getGunUpgradeCost` returns
at levels 1, 2, 3. -/
theorem getGunUpgradeCost_level_one_is_500 :
    getGunUpgradeCost (Game.initial.withGunLevel 1) = 500 ∧
    ¬ (getGunUpgradeCost (Game.initial.withGunLevel 1) = 250 ∧
       getGunUpgradeCost (Game.initial.withGunLevel 2) = 500 ∧
       getGunUpgradeCost (Game.initial.withGunLevel 3) = 1000) := by
  decide

/-- C5, amended: `getGunUpgradeCost` returns 500, 1000 and 2000 when the
current `gunLevel` is 1, 2 and 3, i.e. upgrading to level 2, 3, 4 costs $500,
$1000, $2000 (`Cost_n = 250 * 2^(n-1)` for the target level `n`). -/
theorem getGunUpgradeCost_first_levels (g : Game) :
    getGunUpgradeCost (g.withGunLevel 1) = 500 ∧
    getGunUpgradeCost (g.withGunLevel 2) = 1000 ∧
    getGunUpgradeCost (g.withGunLevel 3) = 2000 := by
  simp [getGunUpgradeCost, Game.withGunLevel]

/-- C6: for every current gun level `L ≥ 1`, `getGunUpgradeCost` returns
`250 * 2^L`, which is `Cost_n = 250 * 2^(n-1)` for the target level `n = L + 1`. -/
theorem getGunUpgradeCost_eq_pow (g : Game) (L n : ℕ) (hL : 1 ≤ L)
    (hlevel : g.stats.gunLevel = L) (hn : n = L + 1) :
    getGunUpgradeCost g = 250 * 2 ^ L ∧ getGunUpgradeCost g = 250 * 2 ^ (n - 1) := by
  subst hn
  subst hlevel
  simp [getGunUpgradeCost]

/-- Witness of C6: at level 4 the next upgrade (to level 5) costs `250 * 2^4`. -/
theorem getGunUpgradeCost_eq_pow_witness :
    getGunUpgradeCost (Game.initial.withGunLevel 4) = 250 * 2 ^ 4 ∧
    getGunUpgradeCost (Game.initial.withGunLevel 4) = 250 * 2 ^ (5 - 1) :=
  getGunUpgradeCost_eq_pow (Game.initial.withGunLevel 4) 4 5 (by decide) rfl rfl

/-! ## C7, C8: the boss-run reward -/

theorem bossRunReward_eq (g : Game) (hL : 1 ≤ g.stats.gunLevel) :
    bossRunReward g = 250 * 2 ^ g.stats.gunLevel := by
  have h0 : g.stats.gunLevel ≠ 0 := by omega
  simp [bossRunReward, h0]

/-- C7, counterexample: boss wave 5 is cleared at gun level 48 with $500.  The
reward is `250 * 2^48 = 70368744177664000`, the exact sum ends in `...500`, and
the double that is stored is `70368744177664496`: money grows by `250 * 2^48 - 4`. -/
theorem boss_reward_is_rounded_at_level_48 :
    (bossWaveCleared.withGunLevel 48).stats.money = 500 ∧
    (bossWaveCleared.withGunLevel 48).stats.gunLevel = 48 ∧
    (250 : ℤ) * 2 ^ 48 = 70368744177664000 ∧
    (WaveManager.onEnemyKilled (bossWaveCleared.withGunLevel 48)).stats.money
      = 70368744177664496 ∧
    (WaveManager.onEnemyKilled (bossWaveCleared.withGunLevel 48)).stats.money
      ≠ (bossWaveCleared.withGunLevel 48).stats.money + 250 * 2 ^ 48 := by
  decide!

/-- C7, amended: when `onEnemyKilled` finds the registry empty on a boss wave
(`waveNumber mod 5 = 0`) while the manager is active, `stats.money` becomes the
double nearest to `money + 250 * 2^L`, where `L ≥ 1` is `stats.gunLevel` at
that moment; it grows by exactly `250 * 2^L` whenever that sum is at most
`2^53` in magnitude, and for `L = 1` that is $500. -/
theorem onEnemyKilled_boss_pays_rounded_reward (g : Game) (L : ℕ)
    (hempty : g.enemies = []) (hactive : g.waveManager.active = true)
    (hboss : g.waveManager.waveNumber % 5 = 0)
    (hlevel : g.stats.gunLevel = L) (hL : 1 ≤ L) :
    (WaveManager.onEnemyKilled g).stats.money
      = integerToDouble (g.stats.money + 250 * 2 ^ L) ∧
    (|g.stats.money + 250 * 2 ^ L| ≤ 2 ^ 53 →
      (WaveManager.onEnemyKilled g).stats.money = g.stats.money + 250 * 2 ^ L) ∧
    (L = 1 → |g.stats.money + 500| ≤ 2 ^ 53 →
      (WaveManager.onEnemyKilled g).stats.money = g.stats.money + 500) := by
  subst hlevel
  have hmoney : (WaveManager.onEnemyKilled g).stats.money
      = integerToDouble (g.stats.money + 250 * 2 ^ g.stats.gunLevel) := by
    rw [onEnemyKilled_boss g hempty hactive hboss]
    simp only []
    rw [bossRunReward_eq g hL]
  refine ⟨hmoney, ?_, ?_⟩
  · intro hsafe
    rw [hmoney, integerToDouble_of_safe _ hsafe]
  · intro h1 hsafe
    have h500 : (250 : ℤ) * 2 ^ g.stats.gunLevel = 500 := by
      rw [h1]
      norm_num
    rw [hmoney, h500, integerToDouble_of_safe _ hsafe]

/-- Witness of C7: clearing boss wave 5 at gun level 1 with $500 leaves $1000. -/
theorem onEnemyKilled_boss_pays_rounded_reward_witness :
    |bossWaveCleared.stats.money + 250 * 2 ^ 1| ≤ 2 ^ 53 ∧
    (WaveManager.onEnemyKilled bossWaveCleared).stats.money
      = bossWaveCleared.stats.money + 250 * 2 ^ 1 ∧
    (WaveManager.onEnemyKilled bossWaveCleared).stats.money = 1000 :=
  ⟨by decide!,
   (onEnemyKilled_boss_pays_rounded_reward bossWaveCleared 1 rfl rfl (by decide) rfl
    (by decide)).2.1 (by decide!),
   by decide!⟩

/-- C8: for every state with `gunLevel ≥ 1` the boss-run reward computed by
`onEnemyKilled` equals `getGunUpgradeCost()` in the same state, and when the
reward is paid (registry empty, manager active, boss wave) the money becomes
the double nearest to `money + getGunUpgradeCost()`: it grows by exactly the
price of the next weapon upgrade whenever that sum is at most `2^53`. -/
theorem bossRunReward_eq_upgrade_cost (g : Game) (hL : 1 ≤ g.stats.gunLevel) :
    bossRunReward g = getGunUpgradeCost g ∧
    (g.enemies = [] → g.waveManager.active = true → g.waveManager.waveNumber % 5 = 0 →
      (WaveManager.onEnemyKilled g).stats.money
        = integerToDouble (g.stats.money + getGunUpgradeCost g) ∧
      (|g.stats.money + getGunUpgradeCost g| ≤ 2 ^ 53 →
        (WaveManager.onEnemyKilled g).stats.money = g.stats.money + getGunUpgradeCost g)) := by
  have heq : bossRunReward g = getGunUpgradeCost g := by
    rw [bossRunReward_eq g hL, getGunUpgradeCost_eq]
  refine ⟨heq, ?_⟩
  intro hempty hactive hboss
  have hmoney : (WaveManager.onEnemyKilled g).stats.money
      = integerToDouble (g.stats.money + getGunUpgradeCost g) := by
    rw [onEnemyKilled_boss g hempty hactive hboss]
    simp only []
    rw [heq]
  refine ⟨hmoney, ?_⟩
  intro hsafe
  rw [hmoney, integerToDouble_of_safe _ hsafe]

/-- Witness of C8: on the cleared boss wave 5 the payment is the upgrade cost. -/
theorem bossRunReward_eq_upgrade_cost_witness :
    bossRunReward bossWaveCleared = getGunUpgradeCost bossWaveCleared ∧
    (WaveManager.onEnemyKilled bossWaveCleared).stats.money
      = bossWaveCleared.stats.money + getGunUpgradeCost bossWaveCleared :=
  ⟨(bossRunReward_eq_upgrade_cost bossWaveCleared (by decide)).1,
    ((bossRunReward_eq_upgrade_cost bossWaveCleared (by decide)).2 rfl rfl (by decide)).2
      (by decide!)⟩

/-! ## C9, C10: buying an upgrade -/

theorem distanceToLt_ten (a b : Vector3) :
    a.distanceToLt b 10 = true ↔ a.distanceToSquared b < 10 ^ 2 := by
  simp only [Vector3.distanceToLt, Bool.and_eq_true, decide_eq_true_eq]
  constructor
  · rintro ⟨-, h⟩
    linarith
  · intro h
    exact ⟨by norm_num, by linarith⟩

theorem isNearTeleportPortal_iff (g : Game) :
    isNearTeleportPortal g 10 = true ↔
      ∃ pos loc p, g.camera = some pos ∧ loc ∈ g.locations ∧ loc.position = some p ∧
        pos.distanceToSquared p < 10 ^ 2 := by
  unfold isNearTeleportPortal
  cases hc : g.camera with
  | none => simp
  | some pos =>
    simp only [List.any_eq_true, Option.some.injEq]
    constructor
    · rintro ⟨loc, hmem, hloc⟩
      cases hp : loc.position with
      | none => simp [hp] at hloc
      | some p =>
        simp only [hp] at hloc
        exact ⟨pos, loc, p, rfl, hmem, hp, (distanceToLt_ten pos p).mp hloc⟩
    · rintro ⟨q, loc, p, hpos, hmem, hp, hd⟩
      subst hpos
      refine ⟨loc, hmem, ?_⟩
      simp only [hp]
      exact (distanceToLt_ten _ p).mpr hd

/-- C9: in every state in which the player (the camera) is at distance strictly
below 10 from some portal location and `money ≥ getGunUpgradeCost()`,
`upgradeGun()` yields `money' = money - cost`, `gunLevel' = gunLevel + 1` and
`gunDamageMultiplier' = 1 + (gunLevel' - 1) * 0.2`. -/
theorem upgradeGun_success (g : Game) (pos p : Vector3) (loc : Location)
    (hcam : g.camera = some pos) (hmem : loc ∈ g.locations) (hp : loc.position = some p)
    (hdist : pos.distanceToSquared p < 10 ^ 2)
    (hmoney : getGunUpgradeCost g ≤ g.stats.money) :
    (upgradeGun g).stats.money = g.stats.money - getGunUpgradeCost g ∧
    (upgradeGun g).stats.gunLevel = g.stats.gunLevel + 1 ∧
    (upgradeGun g).gunDamageMultiplier
      = 1 + (((upgradeGun g).stats.gunLevel : ℚ) - 1) * 0.2 := by
  have hnear : isNearTeleportPortal g 10 = true :=
    (isNearTeleportPortal_iff g).mpr ⟨pos, loc, p, hcam, hmem, hp, hdist⟩
  have hnot : ¬ g.stats.money < getGunUpgradeCost g := not_lt.mpr hmoney
  simp [upgradeGun, hnear, hnot]

/-- Witness of C9: the ready game stands at the Downtown portal (squared
distance 2.89) with $500, the price of level 2. -/
theorem upgradeGun_success_witness :
    (upgradeGun (Game.ready 1)).stats.money
      = (Game.ready 1).stats.money - getGunUpgradeCost (Game.ready 1) ∧
    (upgradeGun (Game.ready 1)).stats.gunLevel = (Game.ready 1).stats.gunLevel + 1 ∧
    (upgradeGun (Game.ready 1)).gunDamageMultiplier
      = 1 + (((upgradeGun (Game.ready 1)).stats.gunLevel : ℚ) - 1) * 0.2 :=
  upgradeGun_success (Game.ready 1) ⟨0, 17 / 10, 0⟩ ⟨0, 0, 0⟩ ⟨"Downtown", some ⟨0, 0, 0⟩⟩
    rfl (by simp [Game.ready, Game.initial, defaultLocations]) rfl
    (by norm_num [Vector3.distanceToSquared]) (by decide)

/-- C10: in every state in which the player is not at distance below 10 from
any portal location (whatever the money), or in which
`money < getGunUpgradeCost()`, `upgradeGun()` returns normally and leaves the
whole state, in particular `money`, `gunLevel` and `gunDamageMultiplier`,
unchanged. -/
theorem upgradeGun_rejected (g : Game)
    (h : (∀ pos loc p, g.camera = some pos → loc ∈ g.locations → loc.position = some p →
            ¬ pos.distanceToSquared p < 10 ^ 2) ∨
         g.stats.money < getGunUpgradeCost g) :
    upgradeGun g = g ∧
    (upgradeGun g).stats.money = g.stats.money ∧
    (upgradeGun g).stats.gunLevel = g.stats.gunLevel ∧
    (upgradeGun g).gunDamageMultiplier = g.gunDamageMultiplier := by
  have heq : upgradeGun g = g := by
    rcases h with hfar | hpoor
    · have hnear : isNearTeleportPortal g 10 = false := by
        rw [Bool.eq_false_iff]
        intro hn
        obtain ⟨pos, loc, p, hcam, hmem, hp, hd⟩ := (isNearTeleportPortal_iff g).mp hn
        exact hfar pos loc p hcam hmem hp hd
      simp [upgradeGun, hnear]
    · simp [upgradeGun, hpoor]
  refine ⟨heq, ?_, ?_, ?_⟩ <;> rw [heq]

/-- Witness of C10: far from every portal, even $1,000,000 buys nothing. -/
theorem upgradeGun_rejected_witness :
    upgradeGun richFarAway = richFarAway ∧
    ¬ richFarAway.stats.money < getGunUpgradeCost richFarAway :=
  ⟨(upgradeGun_rejected richFarAway (Or.inl (by
      intro pos loc p hcam hmem hp
      simp only [richFarAway, Game.ready, Game.initial, Option.some.injEq] at hcam
      subst hcam
      simp only [richFarAway, Game.ready, Game.initial, defaultLocations, List.mem_cons,
        List.mem_singleton, List.not_mem_nil, or_false] at hmem
      rcases hmem with rfl | rfl | rfl | rfl | rfl | rfl <;>
        simp only [Option.some.injEq] at hp <;> subst hp <;>
        norm_num [Vector3.distanceToSquared]))).1,
    by decide⟩

/-! ## Consistency of the wave flags -/

theorem startNextWave_isSurvivalModeActive (env : SpawnEnv) (g : Game) :
    (WaveManager.startNextWave env g).isSurvivalModeActive = g.isSurvivalModeActive := by
  rcases ready_or_not g with ⟨hscene, ⟨pos, hcam⟩, htex⟩ | h
  · obtain ⟨spawned, -, heq⟩ := startNextWave_ready env g pos hscene hcam htex
    rw [heq]
  · rw [startNextWave_not_ready env g h]

theorem startNextWave_consistent (env : SpawnEnv) (g : Game)
    (hactive : g.waveManager.active = true) (hflag : g.isSurvivalModeActive = true) :
    Consistent (WaveManager.startNextWave env g) := by
  have h1 := startNextWave_active env g
  have h2 := startNextWave_isSurvivalModeActive env g
  refine ⟨by rw [h1, h2, hactive, hflag], ?_⟩
  intro hfalse
  rw [h1, hactive] at hfalse
  cases hfalse

theorem onEnemyKilled_consistent (g : Game) (h : Consistent g) :
    Consistent (WaveManager.onEnemyKilled g) := by
  obtain ⟨hflag, hreg⟩ := h
  unfold WaveManager.onEnemyKilled
  simp only []
  split_ifs with h1 h2 h3
  · refine ⟨rfl, ?_⟩
    intro _
    simp only [Bool.and_eq_true, beq_iff_eq] at h1
    exact List.length_eq_zero.mp h1.1
  · exact ⟨hflag, hreg⟩
  · exact ⟨hflag, hreg⟩
  · exact ⟨hflag, hreg⟩

theorem removeEnemy_nil (id : ℕ) : removeEnemy id [] = [] := rfl

theorem takeDamage_kill (g : Game) (enemy : Enemy) (amount : ℚ)
    (h : enemy.health - amount ≤ 0) :
    (takeDamage g enemy amount).1 =
      WaveManager.onEnemyKilled
        { g with
          enemies := removeEnemy enemy.id g.enemies
          stats := { g.stats with
            score := g.stats.score + (if enemy.isBoss then 300 else 100)
            money := g.stats.money + (if enemy.isBoss then 75 else 25) } } := by
  simp only [takeDamage, h, if_true]

theorem takeDamage_survive (g : Game) (enemy : Enemy) (amount : ℚ)
    (h : ¬ enemy.health - amount ≤ 0) :
    (takeDamage g enemy amount).1 =
      { g with
        enemies := g.enemies.map fun e =>
          if e.id = enemy.id then { enemy with health := enemy.health - amount } else e } := by
  simp only [takeDamage, h, if_false]

theorem takeDamage_consistent (g : Game) (enemy : Enemy) (amount : ℚ) (h : Consistent g) :
    Consistent (takeDamage g enemy amount).1 := by
  obtain ⟨hflag, hreg⟩ := h
  by_cases hdead : enemy.health - amount ≤ 0
  · rw [takeDamage_kill g enemy amount hdead]
    apply onEnemyKilled_consistent
    refine ⟨hflag, ?_⟩
    intro hfalse
    show removeEnemy _ g.enemies = []
    rw [hreg hfalse]
    rfl
  · rw [takeDamage_survive g enemy amount hdead]
    refine ⟨hflag, ?_⟩
    intro hfalse
    show List.map _ g.enemies = []
    rw [hreg hfalse]
    rfl

theorem activate_consistent (env : SpawnEnv) (g : Game) (h : Consistent g) :
    Consistent (WaveManager.activate env g) := by
  unfold WaveManager.activate
  split_ifs with hactive
  · exact h
  · exact startNextWave_consistent env _ rfl rfl

theorem deactivate_consistent (g : Game) (h : Consistent g) :
    Consistent (WaveManager.deactivate g) := by
  unfold WaveManager.deactivate
  split_ifs with hactive
  · exact h
  · exact ⟨rfl, fun _ => rfl⟩

theorem autoAdvanceCallback_consistent (env : SpawnEnv) (g : Game) (h : Consistent g) :
    Consistent (WaveManager.autoAdvanceCallback env g) := by
  unfold WaveManager.autoAdvanceCallback
  split_ifs with hactive
  · exact startNextWave_consistent env g hactive (by rw [h.1, hactive])
  · exact h

theorem step_consistent (g : Game) (ev : Event) (h : Consistent g) :
    Consistent (step g ev) := by
  cases ev with
  | activate env => exact activate_consistent env g h
  | deactivate => exact deactivate_consistent g h
  | toggle env =>
    show Consistent (toggleSurvivalMode env g)
    unfold toggleSurvivalMode
    split_ifs
    · exact deactivate_consistent g h
    · exact activate_consistent env g h
  | hit j amount =>
    show Consistent (match g.enemies.get? j with
      | none => g
      | some enemy => (takeDamage g enemy amount).1)
    cases g.enemies.get? j with
    | none => exact h
    | some enemy => exact takeDamage_consistent g enemy amount h
  | autoAdvance env =>
    show Consistent (if g.pendingAdvance = 0 then g
      else WaveManager.autoAdvanceCallback env { g with pendingAdvance := g.pendingAdvance - 1 })
    split_ifs
    · exact h
    · exact autoAdvanceCallback_consistent env _ h

theorem run_consistent (events : List Event) (g : Game) (h : Consistent g) :
    Consistent (run g events) := by
  induction events generalizing g with
  | nil => exact h
  | cons ev rest ih => exact ih (step g ev) (step_consistent g ev h)

/-! ## C12 to C15: clearing a wave, deactivation -/

theorem onEnemyKilled_nonboss (g : Game) (hempty : g.enemies = [])
    (hactive : g.waveManager.active = true) (hnb : g.waveManager.waveNumber % 5 ≠ 0) :
    WaveManager.onEnemyKilled g = { g with pendingAdvance := g.pendingAdvance + 1 } := by
  simp [WaveManager.onEnemyKilled, hempty, hactive, hnb]

theorem step_idle (g : Game) (ev : Event) (hactive : g.waveManager.active = false)
    (hempty : g.enemies = []) (hev : ev.startsManually = false) :
    ∃ n, step g ev = { g with pendingAdvance := n } := by
  cases ev with
  | activate env => simp [Event.startsManually] at hev
  | toggle env => simp [Event.startsManually] at hev
  | deactivate =>
    refine ⟨g.pendingAdvance, ?_⟩
    simp [step, WaveManager.deactivate, hactive]
  | hit j amount =>
    refine ⟨g.pendingAdvance, ?_⟩
    have hstep : step g (.hit j amount) = g := by simp [step, hempty]
    rw [hstep]
  | autoAdvance env =>
    by_cases h0 : g.pendingAdvance = 0
    · refine ⟨g.pendingAdvance, ?_⟩
      have hstep : step g (.autoAdvance env) = g := by simp [step, h0]
      rw [hstep]
    · refine ⟨g.pendingAdvance - 1, ?_⟩
      simp [step, h0, WaveManager.autoAdvanceCallback, hactive]

theorem run_idle (events : List Event) (g : Game) (hactive : g.waveManager.active = false)
    (hempty : g.enemies = []) (hev : ∀ ev ∈ events, ev.startsManually = false) :
    ∃ n, run g events = { g with pendingAdvance := n } := by
  induction events generalizing g with
  | nil => exact ⟨g.pendingAdvance, rfl⟩
  | cons ev rest ih =>
    obtain ⟨n, hn⟩ := step_idle g ev hactive hempty (hev ev (List.mem_cons_self _ _))
    have hrest : ∀ e ∈ rest, e.startsManually = false :=
      fun e he => hev e (List.mem_cons_of_mem _ he)
    obtain ⟨m, hm⟩ := ih { g with pendingAdvance := n } hactive hempty hrest
    refine ⟨m, ?_⟩
    show run (step g ev) rest = _
    rw [hn, hm]

/-- C12: when `onEnemyKilled` finds the registry empty on a boss wave while the
manager is active, the wave system is switched off (`active` and
`isSurvivalModeActive` false), no auto-advance callback is scheduled and
`waveNumber` is unchanged; whatever happens afterwards short of a manual start
(deactivate, hits, pending callbacks firing), no wave starts: the manager stays
inactive on the same `waveNumber` with an empty registry. -/
theorem onEnemyKilled_boss_stops_waves (g : Game) (hempty : g.enemies = [])
    (hactive : g.waveManager.active = true) (hboss : g.waveManager.waveNumber % 5 = 0) :
    (WaveManager.onEnemyKilled g).waveManager.active = false ∧
    (WaveManager.onEnemyKilled g).isSurvivalModeActive = false ∧
    (WaveManager.onEnemyKilled g).pendingAdvance = g.pendingAdvance ∧
    (WaveManager.onEnemyKilled g).waveManager.waveNumber = g.waveManager.waveNumber ∧
    ∀ events : List Event, (∀ ev ∈ events, ev.startsManually = false) →
      (run (WaveManager.onEnemyKilled g) events).waveManager
        = { active := false, waveNumber := g.waveManager.waveNumber } ∧
      (run (WaveManager.onEnemyKilled g) events).enemies = [] ∧
      (run (WaveManager.onEnemyKilled g) events).isSurvivalModeActive = false := by
  have heq := onEnemyKilled_boss g hempty hactive hboss
  refine ⟨by rw [heq], by rw [heq], by rw [heq], by rw [heq], ?_⟩
  intro events hev
  obtain ⟨n, hn⟩ := run_idle events (WaveManager.onEnemyKilled g) (by rw [heq])
    (by rw [heq]; exact hempty) hev
  rw [hn, heq]
  exact ⟨rfl, hempty, rfl⟩

/-- Witness of C12: after boss wave 5 is cleared, a deactivate, a stray hit and
a timer event leave the manager inactive on wave 5. -/
theorem onEnemyKilled_boss_stops_waves_witness :
    (run (WaveManager.onEnemyKilled bossWaveCleared)
        [.deactivate, .hit 0 40, .autoAdvance (SpawnEnv.const 0)]).waveManager
      = { active := false, waveNumber := 5 } :=
  ((onEnemyKilled_boss_stops_waves bossWaveCleared rfl rfl (by decide)).2.2.2.2
    [.deactivate, .hit 0 40, .autoAdvance (SpawnEnv.const 0)]
    (by simp [Event.startsManually])).1

/-- C13: when `onEnemyKilled` finds the registry empty on a non-boss wave `w`
while the manager is active, it pays no money and schedules exactly one
auto-advance callback; when that callback fires with the manager still active
(on wave `w`), it runs `startNextWave` and `waveNumber` becomes `w + 1`. -/
theorem onEnemyKilled_nonboss_advances (g : Game) (w : ℕ) (hempty : g.enemies = [])
    (hactive : g.waveManager.active = true) (hw : g.waveManager.waveNumber = w)
    (hnb : w % 5 ≠ 0) :
    (WaveManager.onEnemyKilled g).stats = g.stats ∧
    (WaveManager.onEnemyKilled g).pendingAdvance = g.pendingAdvance + 1 ∧
    (WaveManager.onEnemyKilled g).waveManager = g.waveManager ∧
    (∀ env, step (WaveManager.onEnemyKilled g) (.autoAdvance env)
        = WaveManager.startNextWave env g) ∧
    (∀ env (later : Game), later.waveManager = { active := true, waveNumber := w } →
      WaveManager.autoAdvanceCallback env later = WaveManager.startNextWave env later ∧
      (WaveManager.autoAdvanceCallback env later).waveManager.waveNumber = w + 1) := by
  subst hw
  have heq := onEnemyKilled_nonboss g hempty hactive hnb
  refine ⟨by rw [heq], by rw [heq], by rw [heq], ?_, ?_⟩
  · intro env
    rw [heq]
    simp [step, WaveManager.autoAdvanceCallback, hactive]
  · intro env later hlater
    have hact : later.waveManager.active = true := by rw [hlater]
    have hcb : WaveManager.autoAdvanceCallback env later = WaveManager.startNextWave env later := by
      simp [WaveManager.autoAdvanceCallback, hact]
    refine ⟨hcb, ?_⟩
    rw [hcb, startNextWave_waveNumber, hlater]

/-- Witness of C13: the last enemy of wave 1 is gone; wave 2 follows. -/
theorem onEnemyKilled_nonboss_advances_witness :
    (WaveManager.onEnemyKilled { lastStand with enemies := [] }).pendingAdvance
      = ({ lastStand with enemies := [] } : Game).pendingAdvance + 1 ∧
    step (WaveManager.onEnemyKilled { lastStand with enemies := [] })
        (.autoAdvance (SpawnEnv.const 0))
      = WaveManager.startNextWave (SpawnEnv.const 0) { lastStand with enemies := [] } :=
  ⟨(onEnemyKilled_nonboss_advances { lastStand with enemies := [] } 1 rfl rfl rfl
      (by decide)).2.1,
   (onEnemyKilled_nonboss_advances { lastStand with enemies := [] } 1 rfl rfl rfl
      (by decide)).2.2.2.1 (SpawnEnv.const 0)⟩

/-- C14: in every state reached from a freshly constructed game (manager
inactive, registry empty, flag off; anything loaded or not) by activate,
deactivate, toggle, hits and timer events, `deactivate()` leaves the enemy
registry empty, `active` false and `game.isSurvivalModeActive` false. -/
theorem deactivate_clears_everything (g₀ : Game) (events : List Event)
    (hactive : g₀.waveManager.active = false) (hempty : g₀.enemies = [])
    (hflag : g₀.isSurvivalModeActive = false) :
    (WaveManager.deactivate (run g₀ events)).enemies = [] ∧
    (WaveManager.deactivate (run g₀ events)).waveManager.active = false ∧
    (WaveManager.deactivate (run g₀ events)).isSurvivalModeActive = false := by
  have hcons : Consistent (run g₀ events) :=
    run_consistent events g₀ ⟨by rw [hflag, hactive], fun _ => hempty⟩
  obtain ⟨h1, h2⟩ := hcons
  unfold WaveManager.deactivate
  cases hact : (run g₀ events).waveManager.active with
  | true => simp
  | false =>
    simp only [Bool.not_false, if_true]
    exact ⟨h2 hact, hact, by rw [h1, hact]⟩

/-- Witness of C14: deactivating in the middle of wave 2 (five enemies alive,
a stale callback pending). -/
theorem deactivate_clears_everything_witness :
    (run (Game.ready 1) restartWhilePending).enemies.length = 5 ∧
    (WaveManager.deactivate (run (Game.ready 1) restartWhilePending)).enemies = [] ∧
    (WaveManager.deactivate (run (Game.ready 1) restartWhilePending)).waveManager.active = false ∧
    (WaveManager.deactivate (run (Game.ready 1) restartWhilePending)).isSurvivalModeActive
      = false :=
  ⟨by with_unfolding_all decide,
    deactivate_clears_everything (Game.ready 1) restartWhilePending rfl rfl rfl⟩

/-- C15: when the wave manager is not active, `onEnemyKilled` changes nothing
in the game state, whatever the size of the enemy registry: `waveNumber`,
`active`, money and `gunLevel` are as before, no reward is paid and no
auto-advance callback is scheduled. -/
theorem onEnemyKilled_inactive_noop (g : Game) (h : g.waveManager.active = false) :
    WaveManager.onEnemyKilled g = g ∧
    (WaveManager.onEnemyKilled g).waveManager = g.waveManager ∧
    (WaveManager.onEnemyKilled g).stats.money = g.stats.money ∧
    (WaveManager.onEnemyKilled g).stats.gunLevel = g.stats.gunLevel ∧
    (WaveManager.onEnemyKilled g).pendingAdvance = g.pendingAdvance := by
  have heq := onEnemyKilled_inactive g h
  refine ⟨heq, ?_, ?_, ?_, ?_⟩ <;> rw [heq]

/-- Witness of C15: an inactive manager on boss wave 5 with an empty registry
pays nothing. -/
theorem onEnemyKilled_inactive_noop_witness :
    WaveManager.onEnemyKilled
        { bossWaveCleared with waveManager := { active := false, waveNumber := 5 } }
      = { bossWaveCleared with waveManager := { active := false, waveNumber := 5 } } :=
  (onEnemyKilled_inactive_noop
    { bossWaveCleared with waveManager := { active := false, waveNumber := 5 } } rfl).1

/-! ## C20: the boss of a batch -/

theorem spawnEnemy_isBoss (g : Game) (env : SpawnEnv) (pos : Vector3) (currentWave count : ℕ)
    (isBossWave : Bool) (i : ℕ) :
    (spawnEnemy g env pos currentWave count isBossWave i).isBoss = (isBossWave && i == 0) := rfl

theorem startNextWave_enemies (env : SpawnEnv) (g : Game) (pos : Vector3)
    (hscene : g.scene = true) (hcam : g.camera = some pos) (htex : 0 < g.enemyTextures) :
    (WaveManager.startNextWave env g).enemies =
      g.enemies ++ (List.range (min (3 + g.waveManager.waveNumber * 2) 24)).map
        (spawnEnemy
          { g with waveManager := { g.waveManager with waveNumber := g.waveManager.waveNumber + 1 } }
          env pos (g.waveManager.waveNumber + 1) (min (3 + g.waveManager.waveNumber * 2) 24)
          ((g.waveManager.waveNumber + 1) % 5 == 0)) := by
  have key := spawnEnemies_ready
    { g with waveManager := { g.waveManager with waveNumber := g.waveManager.waveNumber + 1 } }
    env (3 + (g.waveManager.waveNumber + 1 - 1) * 2) ((g.waveManager.waveNumber + 1) % 5 == 0)
    pos hscene hcam htex (by omega)
  unfold WaveManager.startNextWave
  simp only []
  rw [key]
  simp only [Nat.add_sub_cancel, Nat.succ_ne_zero, if_false]

theorem range_map_eq_cons (n : ℕ) (f : ℕ → Enemy) (hn : 0 < n) :
    (List.range n).map f = f 0 :: (List.range (n - 1)).map (fun i => f (i + 1)) := by
  obtain ⟨m, rfl⟩ : ∃ m, n = m + 1 := ⟨n - 1, by omega⟩
  rw [List.range_succ_eq_map]
  simp [List.map_map, Function.comp]

/-- C20: for every batch spawned by `startNextWave` at wave number `w ≥ 1`
(spawner ready), the number of enemies flagged `isBoss` is 1 when
`w mod 5 = 0`, and that enemy is the first of the batch, and 0 otherwise. -/
theorem startNextWave_boss_count (env : SpawnEnv) (g : Game) (w : ℕ) (pos : Vector3)
    (hw : 1 ≤ w) (hwave : g.waveManager.waveNumber + 1 = w)
    (hscene : g.scene = true) (hcam : g.camera = some pos) (htex : 0 < g.enemyTextures) :
    ∃ first rest,
      (WaveManager.startNextWave env g).enemies = g.enemies ++ first :: rest ∧
      ((first :: rest).filter fun e => e.isBoss).length = (if w % 5 = 0 then 1 else 0) ∧
      first.isBoss = decide (w % 5 = 0) ∧
      ∀ e ∈ rest, e.isBoss = false := by
  have hw1 : 1 ≤ w := hw
  have henemies := startNextWave_enemies env g pos hscene hcam htex
  have hn : 0 < min (3 + g.waveManager.waveNumber * 2) 24 := lt_min (by omega) (by norm_num)
  rw [range_map_eq_cons _ _ hn, hwave] at henemies
  refine ⟨_, _, henemies, ?_, ?_, ?_⟩
  · have hrest : ∀ l : List ℕ, ((l.map fun i =>
          spawnEnemy
            { g with
              waveManager := { g.waveManager with waveNumber := g.waveManager.waveNumber + 1 } }
            env pos w (min (3 + g.waveManager.waveNumber * 2) 24) (w % 5 == 0) (i + 1)).filter
          fun e => e.isBoss) = [] := by
      intro l
      rw [List.filter_eq_nil_iff]
      intro e he
      obtain ⟨i, -, rfl⟩ := List.mem_map.mp he
      simp [spawnEnemy_isBoss]
    by_cases hb : w % 5 = 0
    · simp [List.filter_cons, spawnEnemy_isBoss, hb, hrest]
    · simp [List.filter_cons, spawnEnemy_isBoss, hb, hrest]
  · by_cases hb : w % 5 = 0 <;> simp [spawnEnemy_isBoss, hb]
  · intro e he
    obtain ⟨i, -, rfl⟩ := List.mem_map.mp he
    simp [spawnEnemy_isBoss]

/-- Witness of C20: wave 5 of a ready game is a batch of 11 with one boss, in
front. -/
theorem startNextWave_boss_count_witness :
    ∃ first rest,
      (WaveManager.startNextWave (SpawnEnv.const 0)
          { Game.ready 1 with waveManager := { active := true, waveNumber := 4 } }).enemies
        = [] ++ first :: rest ∧
      ((first :: rest).filter fun e => e.isBoss).length = (if 5 % 5 = 0 then 1 else 0) ∧
      first.isBoss = decide (5 % 5 = 0) ∧
      ∀ e ∈ rest, e.isBoss = false :=
  startNextWave_boss_count (SpawnEnv.const 0)
    { Game.ready 1 with waveManager := { active := true, waveNumber := 4 } }
    5 ⟨0, 17 / 10, 0⟩ (by decide) rfl rfl rfl (by decide)

/-! ## C11: the economy invariant -/

theorem bossRunReward_nonneg (g : Game) : 0 ≤ bossRunReward g := by
  unfold bossRunReward
  positivity

theorem onEnemyKilled_economy (g : Game) (h : EconomyInvariant g) :
    EconomyInvariant (WaveManager.onEnemyKilled g) := by
  obtain ⟨hm, hl, hd⟩ := h
  by_cases hclear : g.enemies = [] ∧ g.waveManager.active = true
  · by_cases hboss : g.waveManager.waveNumber % 5 = 0
    · rw [onEnemyKilled_boss g hclear.1 hclear.2 hboss]
      exact ⟨integerToDouble_nonneg _ (add_nonneg hm (bossRunReward_nonneg g)), hl, hd⟩
    · rw [onEnemyKilled_nonboss g hclear.1 hclear.2 hboss]
      exact ⟨hm, hl, hd⟩
  · have hsame : WaveManager.onEnemyKilled g = g := by
      by_cases hne : g.enemies = []
      · have hact : g.waveManager.active = false := by
          cases hb : g.waveManager.active with
          | false => rfl
          | true => exact absurd ⟨hne, hb⟩ hclear
        exact onEnemyKilled_inactive g hact
      · exact onEnemyKilled_of_ne_nil g hne
    rw [hsame]
    exact ⟨hm, hl, hd⟩

theorem takeDamage_economy (g : Game) (enemy : Enemy) (amount : ℚ) (h : EconomyInvariant g) :
    EconomyInvariant (takeDamage g enemy amount).1 := by
  obtain ⟨hm, hl, hd⟩ := h
  by_cases hdead : enemy.health - amount ≤ 0
  · rw [takeDamage_kill g enemy amount hdead]
    apply onEnemyKilled_economy
    refine ⟨?_, hl, hd⟩
    show 0 ≤ g.stats.money + (if enemy.isBoss then 75 else 25)
    split_ifs <;> omega
  · rw [takeDamage_survive g enemy amount hdead]
    exact ⟨hm, hl, hd⟩

theorem upgradeGun_economy (g : Game) (h : EconomyInvariant g) :
    EconomyInvariant (upgradeGun g) := by
  obtain ⟨hm, hl, hd⟩ := h
  unfold upgradeGun
  simp only []
  split_ifs with h1 h2
  · exact ⟨hm, hl, hd⟩
  · exact ⟨hm, hl, hd⟩
  · refine ⟨?_, ?_, rfl⟩
    · show 0 ≤ g.stats.money - getGunUpgradeCost g
      omega
    · show 1 ≤ g.stats.gunLevel + 1
      omega

theorem redeemProgressCode_cases (g : Game) (inputCode : Option String) :
    redeemProgressCode g inputCode = (g, none) ∨
    ∃ level : ℤ, 1 ≤ level ∧ level ≤ 99 ∧
      redeemProgressCode g inputCode =
        ({ g with
           stats := { g.stats with gunLevel := level.toNat }
           gunDamageMultiplier := 1 + ((level.toNat : ℚ) - 1) * 0.2 },
         some level) := by
  unfold redeemProgressCode
  cases inputCode with
  | none => exact Or.inl rfl
  | some text =>
    simp only []
    repeat' split
    all_goals first
      | exact Or.inl rfl
      | (right; refine ⟨_, ?_, ?_, rfl⟩ <;> omega)

theorem redeemProgressCode_economy (g : Game) (inputCode : Option String)
    (h : EconomyInvariant g) : EconomyInvariant (redeemProgressCode g inputCode).1 := by
  obtain ⟨hm, hl, hd⟩ := h
  rcases redeemProgressCode_cases g inputCode with hnone | ⟨level, h1, h99, hsome⟩
  · rw [hnone]
    exact ⟨hm, hl, hd⟩
  · rw [hsome]
    refine ⟨hm, ?_, rfl⟩
    show 1 ≤ level.toNat
    omega

/-- C11: the economy invariant (`money ≥ 0`, `gunLevel ≥ 1`,
`gunDamageMultiplier = 1 + (gunLevel - 1) * 0.2`) holds in the constructor
state and is preserved by `upgradeGun`, by a hit on an enemy (kill bounty
included), by the boss-run reward of `onEnemyKilled`, by `redeemProgressCode`
on every input and by `resetGame`. -/
theorem economy_invariant_preserved :
    EconomyInvariant Game.initial ∧
    (∀ g, EconomyInvariant g → EconomyInvariant (upgradeGun g)) ∧
    (∀ g enemy amount, EconomyInvariant g → EconomyInvariant (takeDamage g enemy amount).1) ∧
    (∀ g, EconomyInvariant g → EconomyInvariant (WaveManager.onEnemyKilled g)) ∧
    (∀ g inputCode, EconomyInvariant g → EconomyInvariant (redeemProgressCode g inputCode).1) ∧
    (∀ s : Simulator, EconomyInvariant (resetGame s).toGame) := by
  refine ⟨?_, upgradeGun_economy, takeDamage_economy, onEnemyKilled_economy,
    redeemProgressCode_economy, ?_⟩
  · refine ⟨by decide, by decide, ?_⟩
    show (1 : ℚ) = 1 + (((1 : ℕ) : ℚ) - 1) * 0.2
    norm_num
  · intro s
    refine ⟨?_, ?_, ?_⟩
    · show (0 : ℤ) ≤ 500
      decide
    · show 1 ≤ 1
      decide
    · show (1.0 : ℚ) = 1 + (((1 : ℕ) : ℚ) - 1) * 0.2
      norm_num

/-- Witness of C11: the invariant survives an upgrade bought at the Downtown
portal, a redeemed code for level 5 and the boss-run reward of wave 5. -/
theorem economy_invariant_preserved_witness :
    EconomyInvariant (upgradeGun (Game.ready 1)) ∧
    EconomyInvariant (redeemProgressCode Game.initial (some "ULS-MXw1fDEyMzQ_")).1 ∧
    EconomyInvariant (WaveManager.onEnemyKilled bossWaveCleared) :=
  have h0 : EconomyInvariant Game.initial := economy_invariant_preserved.1
  have hr : EconomyInvariant (Game.ready 1) := h0
  have hb : EconomyInvariant bossWaveCleared := h0
  ⟨economy_invariant_preserved.2.1 _ hr,
   economy_invariant_preserved.2.2.2.2.1 _ _ h0,
   economy_invariant_preserved.2.2.2.1 _ hb⟩

/-! ## The damage handler called directly on a removed enemy -/

/-- The closure `takeDamage` has no guard of its own.  `lastEnemy` (health 30)
is killed by a first call with 40 (health -10, registry empty, score 100, $525,
one callback scheduled); a second call on the removed object, which the program
never makes since its only call site is the scan of `this.enemies` (line 2728),
would leave the registry alone but add the bounty again (score 200, $550) and
run `onEnemyKilled` again. -/
theorem second_kill_pays_again :
    (takeDamage lastStand lastEnemy 40).2.health = -10 ∧
    (takeDamage lastStand lastEnemy 40).1.enemies = [] ∧
    (takeDamage lastStand lastEnemy 40).1.stats.score = 100 ∧
    (takeDamage lastStand lastEnemy 40).1.stats.money = 525 ∧
    (takeDamage lastStand lastEnemy 40).1.pendingAdvance = 1 ∧
    (takeDamage (takeDamage lastStand lastEnemy 40).1
        (takeDamage lastStand lastEnemy 40).2 40).1.enemies = [] ∧
    (takeDamage (takeDamage lastStand lastEnemy 40).1
        (takeDamage lastStand lastEnemy 40).2 40).1.stats.score = 200 ∧
    (takeDamage (takeDamage lastStand lastEnemy 40).1
        (takeDamage lastStand lastEnemy 40).2 40).1.stats.money = 550 ∧
    (takeDamage (takeDamage lastStand lastEnemy 40).1
        (takeDamage lastStand lastEnemy 40).2 40).1.pendingAdvance = 2 := by
  with_unfolding_all decide

/-! ## C18: order of the retirement checks -/

theorem onEnemyKilled_enemies (g : Game) :
    (WaveManager.onEnemyKilled g).enemies = g.enemies := by
  unfold WaveManager.onEnemyKilled
  simp only []
  split_ifs <;> rfl

theorem mem_removeEnemy_of_ne (id : ℕ) (e : Enemy) (es : List Enemy) (hmem : e ∈ es)
    (hne : e.id ≠ id) : e ∈ removeEnemy id es := by
  induction es with
  | nil => cases hmem
  | cons x xs ih =>
    unfold removeEnemy
    rcases List.mem_cons.mp hmem with rfl | hxs
    · rw [if_neg hne]
      exact List.mem_cons_self _ _
    · split_ifs
      · exact hxs
      · exact List.mem_cons_of_mem _ (ih hxs)

theorem takeDamage_others (g : Game) (enemy : Enemy) (amount : ℚ) (other : Enemy)
    (hmem : other ∈ g.enemies) (hne : other.id ≠ enemy.id) :
    other ∈ (takeDamage g enemy amount).1.enemies := by
  by_cases hdead : enemy.health - amount ≤ 0
  · rw [takeDamage_kill g enemy amount hdead, onEnemyKilled_enemies]
    exact mem_removeEnemy_of_ne enemy.id other g.enemies hmem hne
  · rw [takeDamage_survive g enemy amount hdead]
    show other ∈ g.enemies.map _
    refine List.mem_map.mpr ⟨other, hmem, ?_⟩
    rw [if_neg hne]

theorem findTarget_some (enemies : List Enemy) (position : Vector3) (target : Enemy)
    (h : findTarget enemies position = some target) :
    target ∈ enemies ∧ position.distanceToSquared target.position < 2.0 * 2.0 := by
  unfold findTarget at h
  have hmem := List.mem_of_find?_eq_some h
  have hp := List.find?_some h
  exact ⟨List.mem_reverse.mp hmem, of_decide_eq_true hp⟩

theorem findTarget_eq_none (enemies : List Enemy) (position : Vector3) :
    findTarget enemies position = none ↔
      ∀ e ∈ enemies, ¬ position.distanceToSquared e.position < 2.0 * 2.0 := by
  unfold findTarget
  rw [List.find?_eq_none]
  constructor
  · intro h e he
    simpa using h e (List.mem_reverse.mpr he)
  · intro h e he
    simpa using h e (List.mem_reverse.mp he)

theorem updateProjectiles_length_le (s : Simulator) (delta : ℚ) :
    (updateProjectiles s delta).projectiles.length ≤ s.projectiles.length := by
  unfold updateProjectiles
  simp only []
  generalize s.projectiles = ps
  induction ps with
  | nil => simp
  | cons p ps ih =>
    simp only [List.foldr_cons, List.length_cons]
    split
    · exact Nat.le_succ_of_le ih
    · simpa using ih

/-- C18: one loop iteration of `updateProjectiles`, with `q` the projectile
after its motion.  The checks run in the order lifetime, environment, enemy,
ground and the first match wins: an expired or a blocked projectile leaves the
simulator (hence every enemy) untouched; otherwise a projectile within hit
radius 2.0 of some enemy is retired as a hit after the damage handler of
exactly one enemy of the registry ran, every other enemy staying as it was,
whatever the height of the projectile; otherwise it is retired when below the
ground plane and stays in flight when not.  No tick adds a projectile. -/
theorem updateProjectile_first_match_wins (s : Simulator) (delta : ℚ) (p q : Projectile)
    (hq : q = advance s.noBulletDrop delta p) :
    (q.life ≤ 0 → updateProjectile s delta p = (s, q, some .expired)) ∧
    (0 < q.life → isProjectileBlocked s.environmentColliders q.position = true →
      updateProjectile s delta p = (s, q, some .blocked)) ∧
    (0 < q.life → isProjectileBlocked s.environmentColliders q.position = false →
      (∃ e ∈ s.enemies, q.position.distanceToSquared e.position < 2.0 * 2.0) →
      ∃ target ∈ s.enemies,
        q.position.distanceToSquared target.position < 2.0 * 2.0 ∧
        updateProjectile s delta p =
          ({ s with toGame := (takeDamage s.toGame target
              (if q.damage = 0 then s.gunBaseDamage * s.gunDamageMultiplier else q.damage)).1 },
            q, some .hit) ∧
        ∀ other ∈ s.enemies, other.id ≠ target.id →
          other ∈ (updateProjectile s delta p).1.enemies) ∧
    (0 < q.life → isProjectileBlocked s.environmentColliders q.position = false →
      (∀ e ∈ s.enemies, ¬ q.position.distanceToSquared e.position < 2.0 * 2.0) →
      q.position.y < 0 → updateProjectile s delta p = (s, q, some .grounded)) ∧
    (0 < q.life → isProjectileBlocked s.environmentColliders q.position = false →
      (∀ e ∈ s.enemies, ¬ q.position.distanceToSquared e.position < 2.0 * 2.0) →
      0 ≤ q.position.y → updateProjectile s delta p = (s, q, none)) ∧
    (updateProjectiles s delta).projectiles.length ≤ s.projectiles.length := by
  subst hq
  refine ⟨?_, ?_, ?_, ?_, ?_, updateProjectiles_length_le s delta⟩
  · intro hlife
    simp only [updateProjectile, hlife, if_true]
  · intro hlife hblocked
    simp only [updateProjectile, not_le.mpr hlife, if_false, hblocked, if_true]
  · intro hlife hblocked hnear
    cases hfind : findTarget s.enemies (advance s.noBulletDrop delta p).position with
    | none =>
      obtain ⟨e, he, hd⟩ := hnear
      exact absurd hd ((findTarget_eq_none _ _).mp hfind e he)
    | some target =>
      obtain ⟨hmem, hd⟩ := findTarget_some _ _ _ hfind
      have heq : updateProjectile s delta p =
          ({ s with toGame := (takeDamage s.toGame target
              (if (advance s.noBulletDrop delta p).damage = 0
                then s.gunBaseDamage * s.gunDamageMultiplier
                else (advance s.noBulletDrop delta p).damage)).1 },
            advance s.noBulletDrop delta p, some .hit) := by
        simp only [updateProjectile, not_le.mpr hlife, if_false, hblocked, Bool.false_eq_true,
          hfind]
      refine ⟨target, hmem, hd, heq, ?_⟩
      intro other hother hne
      rw [heq]
      exact takeDamage_others s.toGame target _ other hother hne
  · intro hlife hblocked hfar hy
    have hfind := (findTarget_eq_none _ _).mpr hfar
    simp only [updateProjectile, not_le.mpr hlife, if_false, hblocked, Bool.false_eq_true,
      hfind, hy, if_true]
  · intro hlife hblocked hfar hy
    have hfind := (findTarget_eq_none _ _).mpr hfar
    simp only [updateProjectile, not_le.mpr hlife, if_false, hblocked, Bool.false_eq_true,
      hfind, not_lt.mpr hy]

/-- Witness of C18: `lowBullet` ends the tick below the ground plane and within
reach of `lastEnemy`; it is retired as a hit on that enemy. -/
theorem updateProjectile_first_match_wins_witness :
    (advance twoBullets.noBulletDrop (1 / 50) lowBullet).position.y < 0 ∧
    ∃ target ∈ twoBullets.enemies,
      (advance twoBullets.noBulletDrop (1 / 50) lowBullet).position.distanceToSquared
          target.position < 2.0 * 2.0 ∧
      updateProjectile twoBullets (1 / 50) lowBullet =
        ({ twoBullets with toGame := (takeDamage twoBullets.toGame target
            (if (advance twoBullets.noBulletDrop (1 / 50) lowBullet).damage = 0
              then twoBullets.gunBaseDamage * twoBullets.gunDamageMultiplier
              else (advance twoBullets.noBulletDrop (1 / 50) lowBullet).damage)).1 },
          advance twoBullets.noBulletDrop (1 / 50) lowBullet, some .hit) ∧
      ∀ other ∈ twoBullets.enemies, other.id ≠ target.id →
        other ∈ (updateProjectile twoBullets (1 / 50) lowBullet).1.enemies :=
  ⟨by with_unfolding_all decide,
   (updateProjectile_first_match_wins twoBullets (1 / 50) lowBullet _ rfl).2.2.1
    (by with_unfolding_all decide) (by with_unfolding_all decide)
    ⟨lastEnemy, by simp [twoBullets, lastStand], by with_unfolding_all decide⟩⟩

/-! ## C17: an enemy is killed once -/

theorem find_by_id (es : List Enemy) (enemy : Enemy) (hmem : enemy ∈ es)
    (hnodup : (es.map fun e => e.id).Nodup) :
    es.find? (fun e => e.id = enemy.id) = some enemy := by
  induction es with
  | nil => cases hmem
  | cons x xs ih =>
    rw [List.map_cons, List.nodup_cons] at hnodup
    rcases List.mem_cons.mp hmem with rfl | hxs
    · simp [List.find?_cons]
    · have hne : x.id ≠ enemy.id := by
        intro heq
        exact hnodup.1 (List.mem_map.mpr ⟨enemy, hxs, heq.symm⟩)
      simp [List.find?_cons, hne, ih hxs hnodup.2]

theorem removeEnemy_no_id (id : ℕ) (es : List Enemy)
    (hnodup : (es.map fun e => e.id).Nodup) :
    ∀ e ∈ removeEnemy id es, e.id ≠ id := by
  induction es with
  | nil =>
    intro e he
    cases he
  | cons x xs ih =>
    rw [List.map_cons, List.nodup_cons] at hnodup
    intro e he
    unfold removeEnemy at he
    split_ifs at he with hx
    · intro heq
      exact hnodup.1 (List.mem_map.mpr ⟨e, he, by rw [heq, hx]⟩)
    · rcases List.mem_cons.mp he with rfl | hrest
      · exact hx
      · exact ih hnodup.2 e hrest

theorem removeEnemy_map_update (id : ℕ) (updated : Enemy) (hid : updated.id = id)
    (es : List Enemy) (hnodup : (es.map fun e => e.id).Nodup) :
    removeEnemy id (es.map fun e => if e.id = id then updated else e) = removeEnemy id es := by
  induction es with
  | nil => rfl
  | cons x xs ih =>
    rw [List.map_cons, List.nodup_cons] at hnodup
    rw [List.map_cons]
    by_cases hx : x.id = id
    · rw [if_pos hx]
      unfold removeEnemy
      rw [if_pos hid, if_pos hx]
      have hsame : ∀ e ∈ xs, (if e.id = id then updated else e) = e := by
        intro e he
        have hne : e.id ≠ id := by
          intro heq
          exact hnodup.1 (List.mem_map.mpr ⟨e, he, by rw [heq, hx]⟩)
        rw [if_neg hne]
      have hmap : xs.map (fun e => if e.id = id then updated else e) = xs.map fun e => e :=
        List.map_congr_left hsame
      rw [hmap]
      simp
    · rw [if_neg hx]
      unfold removeEnemy
      rw [if_neg hx, if_neg hx, ih hnodup.2]

theorem map_update_ids (id : ℕ) (updated : Enemy) (hid : updated.id = id) (es : List Enemy) :
    ((es.map fun e => if e.id = id then updated else e).map fun e => e.id)
      = es.map fun e => e.id := by
  rw [List.map_map]
  apply List.map_congr_left
  intro e _
  show (if e.id = id then updated else e).id = e.id
  split_ifs with h
  · rw [hid, h]
  · rfl

theorem projectileReaches_gone (g : Game) (id : ℕ) (damage : ℚ)
    (hgone : ∀ e ∈ g.enemies, e.id ≠ id) : projectileReaches g id damage = g := by
  have hfind : g.enemies.find? (fun e => e.id = id) = none := by
    rw [List.find?_eq_none]
    intro e he
    simpa using hgone e he
  simp only [projectileReaches, hfind]

theorem shots_gone (damages : List ℚ) (g : Game) (id : ℕ)
    (hgone : ∀ e ∈ g.enemies, e.id ≠ id) : shots g id damages = g := by
  induction damages with
  | nil => rfl
  | cons d ds ih =>
    show shots (projectileReaches g id d) id ds = g
    rw [projectileReaches_gone g id d hgone]
    exact ih

theorem eq_of_same_id (es : List Enemy) (a b : Enemy) (ha : a ∈ es) (hb : b ∈ es)
    (hid : a.id = b.id) (hnodup : (es.map fun e => e.id).Nodup) : a = b := by
  induction es with
  | nil => cases ha
  | cons x xs ih =>
    rw [List.map_cons, List.nodup_cons] at hnodup
    rcases List.mem_cons.mp ha with rfl | hax
    · rcases List.mem_cons.mp hb with rfl | hbx
      · rfl
      · exact absurd (List.mem_map.mpr ⟨b, hbx, hid.symm⟩) hnodup.1
    · rcases List.mem_cons.mp hb with rfl | hbx
      · exact absurd (List.mem_map.mpr ⟨a, hax, hid⟩) hnodup.1
      · exact ih hax hbx hnodup.2

theorem projectileReaches_survive (g : Game) (enemy : Enemy) (damage : ℚ)
    (hmem : enemy ∈ g.enemies) (hnodup : (g.enemies.map fun e => e.id).Nodup)
    (h : ¬ enemy.health - damage ≤ 0) :
    projectileReaches g enemy.id damage =
      { g with
        enemies := g.enemies.map fun e =>
          if e.id = enemy.id then { enemy with health := enemy.health - damage } else e } := by
  simp only [projectileReaches, find_by_id g.enemies enemy hmem hnodup]
  exact takeDamage_survive g enemy damage h

theorem projectileReaches_kill (g : Game) (enemy : Enemy) (damage : ℚ)
    (hmem : enemy ∈ g.enemies) (hnodup : (g.enemies.map fun e => e.id).Nodup)
    (h : enemy.health - damage ≤ 0) :
    projectileReaches g enemy.id damage =
      WaveManager.onEnemyKilled
        { g with
          enemies := removeEnemy enemy.id g.enemies
          stats := { g.stats with
            score := g.stats.score + (if enemy.isBoss then 300 else 100)
            money := g.stats.money + (if enemy.isBoss then 75 else 25) } } := by
  simp only [projectileReaches, find_by_id g.enemies enemy hmem hnodup]
  exact takeDamage_kill g enemy damage h

theorem shots_survive (pre : List ℚ) (g : Game) (enemy : Enemy)
    (hmem : enemy ∈ g.enemies) (hnodup : (g.enemies.map fun e => e.id).Nodup)
    (hpre : ∀ d ∈ pre, 0 ≤ d) (hlt : pre.sum < enemy.health) :
    shots g enemy.id pre =
      { g with
        enemies := g.enemies.map fun e =>
          if e.id = enemy.id then { enemy with health := enemy.health - pre.sum } else e } := by
  induction pre generalizing g enemy with
  | nil =>
    have hsame : ∀ e ∈ g.enemies,
        (if e.id = enemy.id then { enemy with health := enemy.health - ([] : List ℚ).sum } else e)
          = e := by
      intro e he
      split_ifs with hid
      · rw [eq_of_same_id g.enemies e enemy he hmem hid hnodup]
        simp
      · rfl
    have hmap : (g.enemies.map fun e =>
        if e.id = enemy.id then { enemy with health := enemy.health - ([] : List ℚ).sum } else e)
          = g.enemies.map fun e => e := List.map_congr_left hsame
    rw [hmap]
    simp [shots]
  | cons d ds ih =>
    have hd : 0 ≤ d := hpre d (List.mem_cons_self _ _)
    have hds : ∀ x ∈ ds, 0 ≤ x := fun x hx => hpre x (List.mem_cons_of_mem _ hx)
    have hsum : 0 ≤ ds.sum := List.sum_nonneg hds
    rw [List.sum_cons] at hlt
    have hsurv : ¬ enemy.health - d ≤ 0 := by
      intro hle
      linarith
    show shots (projectileReaches g enemy.id d) enemy.id ds = _
    rw [projectileReaches_survive g enemy d hmem hnodup hsurv]
    have hmem1 : ({ enemy with health := enemy.health - d } : Enemy) ∈
        (g.enemies.map fun e =>
          if e.id = enemy.id then { enemy with health := enemy.health - d } else e) :=
      List.mem_map.mpr ⟨enemy, hmem, by simp⟩
    have hnodup1 : ((g.enemies.map fun e =>
          if e.id = enemy.id then ({ enemy with health := enemy.health - d } : Enemy) else e).map
        fun e => e.id).Nodup := by
      rw [map_update_ids enemy.id { enemy with health := enemy.health - d } rfl g.enemies]
      exact hnodup
    have step1 := ih
      { g with
        enemies := g.enemies.map fun e =>
          if e.id = enemy.id then { enemy with health := enemy.health - d } else e }
      { enemy with health := enemy.health - d } hmem1 hnodup1 hds
      (by show ds.sum < enemy.health - d; linarith)
    rw [step1]
    have hcomp : ∀ e ∈ g.enemies,
        (if (if e.id = enemy.id then ({ enemy with health := enemy.health - d } : Enemy)
              else e).id = enemy.id
          then ({ enemy with health := enemy.health - d - ds.sum } : Enemy)
          else (if e.id = enemy.id then ({ enemy with health := enemy.health - d } : Enemy)
              else e))
        = if e.id = enemy.id then { enemy with health := enemy.health - (d + ds.sum) } else e := by
      intro e _
      by_cases hid : e.id = enemy.id
      · simp only [hid, if_true]
        congr 1
        ring
      · simp only [hid, if_false]
    show ({ g with enemies := List.map _ (List.map _ g.enemies) } : Game) = _
    rw [List.map_map, List.sum_cons]
    congr 1
    exact List.map_congr_left hcomp

/-- The hit branch of `updateProjectile` is `projectileReaches` for the enemy
selected by the collision scan. -/
theorem updateProjectile_hit_reaches (s : Simulator) (delta : ℚ) (p : Projectile)
    (target : Enemy) (hnodup : (s.enemies.map fun e => e.id).Nodup)
    (hlife : 0 < (advance s.noBulletDrop delta p).life)
    (hblocked : isProjectileBlocked s.environmentColliders
      (advance s.noBulletDrop delta p).position = false)
    (hfind : findTarget s.enemies (advance s.noBulletDrop delta p).position = some target) :
    (updateProjectile s delta p).1.toGame =
      projectileReaches s.toGame target.id
        (if (advance s.noBulletDrop delta p).damage = 0
          then s.gunBaseDamage * s.gunDamageMultiplier
          else (advance s.noBulletDrop delta p).damage) := by
  have hmem := (findTarget_some _ _ _ hfind).1
  simp only [updateProjectile, not_le.mpr hlife, if_false, hblocked, Bool.false_eq_true, hfind,
    projectileReaches, find_by_id s.enemies target hmem hnodup]

theorem onEnemyKilled_score (g : Game) :
    (WaveManager.onEnemyKilled g).stats.score = g.stats.score := by
  unfold WaveManager.onEnemyKilled
  simp only []
  split_ifs <;> rfl

theorem onEnemyKilled_money_of_not_boss_clear (g : Game)
    (h : g.waveManager.waveNumber % 5 ≠ 0 ∨ g.enemies ≠ [] ∨ g.waveManager.active = false) :
    (WaveManager.onEnemyKilled g).stats.money = g.stats.money := by
  rcases h with h | h | h
  · unfold WaveManager.onEnemyKilled
    simp only [beq_iff_eq, h, Bool.false_eq_true, if_false]
    split_ifs <;> rfl
  · rw [onEnemyKilled_of_ne_nil g h]
  · rw [onEnemyKilled_inactive g h]

/-- C17: let `enemy` be in the registry (identities distinct) and let
projectiles reach it with damages `pre`, then `a`, then `post`, where the
damages `pre` leave its health positive and `a` brings it to 0 or below.
Before `a` the enemy is still registered with its health reduced; `a` removes
it, and the state after all projectiles is the state after one single kill:
the registry without the enemy, score and money raised once by (300, 75) for a
boss or (100, 25) otherwise, and `onEnemyKilled` run once.  The projectiles of
`post` change nothing, and no collision scan can select the enemy again. -/
theorem enemy_killed_exactly_once (g : Game) (enemy : Enemy) (pre post : List ℚ) (a : ℚ)
    (hmem : enemy ∈ g.enemies) (hnodup : (g.enemies.map fun e => e.id).Nodup)
    (hpre : ∀ d ∈ pre, 0 ≤ d) (hlt : pre.sum < enemy.health)
    (hge : enemy.health ≤ pre.sum + a) :
    ({ enemy with health := enemy.health - pre.sum } : Enemy) ∈ (shots g enemy.id pre).enemies ∧
    shots g enemy.id (pre ++ a :: post) =
      WaveManager.onEnemyKilled
        { g with
          enemies := removeEnemy enemy.id g.enemies
          stats := { g.stats with
            score := g.stats.score + (if enemy.isBoss then 300 else 100)
            money := g.stats.money + (if enemy.isBoss then 75 else 25) } } ∧
    shots g enemy.id (pre ++ a :: post) = shots g enemy.id (pre ++ [a]) ∧
    (∀ e ∈ (shots g enemy.id (pre ++ a :: post)).enemies, e.id ≠ enemy.id) ∧
    (∀ position target,
      findTarget (shots g enemy.id (pre ++ a :: post)).enemies position = some target →
      target.id ≠ enemy.id) ∧
    (shots g enemy.id (pre ++ a :: post)).stats.score
      = g.stats.score + (if enemy.isBoss then 300 else 100) ∧
    ((g.waveManager.waveNumber % 5 ≠ 0 ∨ removeEnemy enemy.id g.enemies ≠ [] ∨
        g.waveManager.active = false) →
      (shots g enemy.id (pre ++ a :: post)).stats.money
        = g.stats.money + (if enemy.isBoss then 75 else 25)) := by
  have hbefore := shots_survive pre g enemy hmem hnodup hpre hlt
  have hmem1 : ({ enemy with health := enemy.health - pre.sum } : Enemy) ∈
      (g.enemies.map fun e =>
        if e.id = enemy.id then { enemy with health := enemy.health - pre.sum } else e) :=
    List.mem_map.mpr ⟨enemy, hmem, by simp⟩
  have hnodup1 : ((g.enemies.map fun e =>
        if e.id = enemy.id then ({ enemy with health := enemy.health - pre.sum } : Enemy)
        else e).map fun e => e.id).Nodup := by
    rw [map_update_ids enemy.id { enemy with health := enemy.health - pre.sum } rfl g.enemies]
    exact hnodup
  have hkill : ∀ rest : List ℚ, shots g enemy.id (pre ++ a :: rest) =
      WaveManager.onEnemyKilled
        { g with
          enemies := removeEnemy enemy.id g.enemies
          stats := { g.stats with
            score := g.stats.score + (if enemy.isBoss then 300 else 100)
            money := g.stats.money + (if enemy.isBoss then 75 else 25) } } := by
    intro rest
    have hsplit : shots g enemy.id (pre ++ a :: rest)
        = shots (projectileReaches (shots g enemy.id pre) enemy.id a) enemy.id rest := by
      simp [shots, List.foldl_append]
    rw [hsplit, hbefore]
    have hk := projectileReaches_kill
      { g with
        enemies := g.enemies.map fun e =>
          if e.id = enemy.id then { enemy with health := enemy.health - pre.sum } else e }
      { enemy with health := enemy.health - pre.sum } a hmem1 hnodup1
      (by show enemy.health - pre.sum - a ≤ 0; linarith)
    have hremove := removeEnemy_map_update enemy.id
      { enemy with health := enemy.health - pre.sum } rfl g.enemies hnodup
    have hk2 : projectileReaches
        { g with
          enemies := g.enemies.map fun e =>
            if e.id = enemy.id then { enemy with health := enemy.health - pre.sum } else e }
        enemy.id a =
        WaveManager.onEnemyKilled
          { g with
            enemies := removeEnemy enemy.id g.enemies
            stats := { g.stats with
              score := g.stats.score + (if enemy.isBoss then 300 else 100)
              money := g.stats.money + (if enemy.isBoss then 75 else 25) } } := by
      rw [← hremove]
      exact hk
    rw [hk2]
    apply shots_gone
    intro e he
    rw [onEnemyKilled_enemies] at he
    exact removeEnemy_no_id enemy.id g.enemies hnodup e he
  have hgone : ∀ e ∈ (shots g enemy.id (pre ++ a :: post)).enemies, e.id ≠ enemy.id := by
    intro e he
    rw [hkill post, onEnemyKilled_enemies] at he
    exact removeEnemy_no_id enemy.id g.enemies hnodup e he
  refine ⟨?_, hkill post, ?_, hgone, ?_, ?_, ?_⟩
  · rw [hbefore]
    exact hmem1
  · rw [hkill post, hkill []]
  · intro position target hfind
    exact hgone target (findTarget_some _ _ _ hfind).1
  · rw [hkill post, onEnemyKilled_score]
  · intro hcond
    rw [hkill post]
    exact onEnemyKilled_money_of_not_boss_clear
      { g with
        enemies := removeEnemy enemy.id g.enemies
        stats := { g.stats with
          score := g.stats.score + (if enemy.isBoss then 300 else 100)
          money := g.stats.money + (if enemy.isBoss then 75 else 25) } } hcond

/-- Witness of C17: `lastEnemy` has health 30 and two projectiles of damage 40
reach it; it is killed once.  In the tick of `twoBullets` the same happens
inside `updateProjectiles`: the registry is emptied, the score is 100, the
money $525, `onEnemyKilled` scheduled one callback and the second bullet, which
finds nothing to hit, flies on. -/
theorem enemy_killed_exactly_once_witness :
    shots lastStand lastEnemy.id ([] ++ 40 :: [40]) = shots lastStand lastEnemy.id ([] ++ [40]) ∧
    (shots lastStand lastEnemy.id ([] ++ 40 :: [40])).stats.score
      = lastStand.stats.score + (if lastEnemy.isBoss then 300 else 100) ∧
    (updateProjectiles twoBullets (1 / 50)).enemies = [] ∧
    (updateProjectiles twoBullets (1 / 50)).stats.score = 100 ∧
    (updateProjectiles twoBullets (1 / 50)).stats.money = 525 ∧
    (updateProjectiles twoBullets (1 / 50)).pendingAdvance = 1 ∧
    (updateProjectiles twoBullets (1 / 50)).projectiles.length = 1 :=
  have key := enemy_killed_exactly_once lastStand lastEnemy [] [40] 40
    (by simp [lastStand]) (by simp [lastStand]) (by simp)
    (by with_unfolding_all decide) (by with_unfolding_all decide)
  ⟨key.2.2.1, key.2.2.2.2.2.1, by with_unfolding_all decide, by with_unfolding_all decide,
    by with_unfolding_all decide, by with_unfolding_all decide, by with_unfolding_all decide⟩

/-! ## C16: a removed enemy is not hit again -/

/-- The state after one loop iteration of `updateProjectiles` is either the
state before or the state after the damage handler of the enemy selected by
the collision scan. -/
theorem updateProjectile_state (s : Simulator) (delta : ℚ) (p : Projectile) :
    (updateProjectile s delta p).1 = s ∨
    ∃ target dmg,
      findTarget s.enemies (advance s.noBulletDrop delta p).position = some target ∧
      (updateProjectile s delta p).1 = { s with toGame := (takeDamage s.toGame target dmg).1 } := by
  simp only [updateProjectile]
  repeat' split
  all_goals first
    | exact Or.inl rfl
    | (right; refine ⟨_, _, ?_, rfl⟩; assumption)

theorem updateProjectile_no_target (s : Simulator) (delta : ℚ) (p : Projectile)
    (hnone : findTarget s.enemies (advance s.noBulletDrop delta p).position = none) :
    (updateProjectile s delta p).1 = s := by
  rcases updateProjectile_state s delta p with h | ⟨target, dmg, hfind, -⟩
  · exact h
  · rw [hnone] at hfind
    cases hfind

/-- C16: a double kill is ignored.  When the damage handler brings the health
of a registered enemy to `≤ 0`, the enemy leaves the registry.  From then on, as
long as it is not registered, a projectile that reaches for it finds nothing to
hit and leaves the whole state (score, money, registry, wave state, pending
callbacks) as it is; every loop iteration of `updateProjectiles` either changes
nothing or runs the handler of another, registered enemy, and it changes
nothing when no registered enemy is within the hit radius: the handler of the
removed enemy is not invoked and `onEnemyKilled` is not signalled for it
again. -/
theorem double_kill_is_ignored (s : Simulator) (enemy : Enemy) (amount : ℚ)
    (hmem : enemy ∈ s.enemies) (hnodup : (s.enemies.map fun e => e.id).Nodup)
    (hkill : enemy.health - amount ≤ 0) :
    (∀ e ∈ (takeDamage s.toGame enemy amount).1.enemies, e.id ≠ enemy.id) ∧
    (∀ damage, projectileReaches (takeDamage s.toGame enemy amount).1 enemy.id damage
      = (takeDamage s.toGame enemy amount).1) ∧
    (∀ (later : Simulator) (delta : ℚ) (p : Projectile),
      (∀ e ∈ later.enemies, e.id ≠ enemy.id) →
        ((updateProjectile later delta p).1 = later ∨
          ∃ target dmg, target ∈ later.enemies ∧ target.id ≠ enemy.id ∧
            (updateProjectile later delta p).1
              = { later with toGame := (takeDamage later.toGame target dmg).1 }) ∧
        ((∀ e ∈ later.enemies,
            ¬ (advance later.noBulletDrop delta p).position.distanceToSquared e.position
              < 2.0 * 2.0) →
          (updateProjectile later delta p).1 = later)) := by
  have hgone : ∀ e ∈ (takeDamage s.toGame enemy amount).1.enemies, e.id ≠ enemy.id := by
    intro e he
    rw [takeDamage_kill s.toGame enemy amount hkill, onEnemyKilled_enemies] at he
    exact removeEnemy_no_id enemy.id s.enemies hnodup e he
  refine ⟨hgone, ?_, ?_⟩
  · intro damage
    exact projectileReaches_gone _ enemy.id damage hgone
  · intro later delta p hlater
    refine ⟨?_, ?_⟩
    · rcases updateProjectile_state later delta p with h | ⟨target, dmg, hfind, h⟩
      · exact Or.inl h
      · have htarget := (findTarget_some _ _ _ hfind).1
        exact Or.inr ⟨target, dmg, htarget, hlater target htarget, h⟩
    · intro hfar
      exact updateProjectile_no_target later delta p
        ((findTarget_eq_none later.enemies _).mpr hfar)

/-- Witness of C16: the first bullet of `twoBullets` kills `lastEnemy` (health
30, damage 40); the registry is then empty, and the second bullet, one metre
from where the enemy stood, changes nothing. -/
theorem double_kill_is_ignored_witness :
    lastEnemy.health - 40 ≤ 0 ∧
    (takeDamage twoBullets.toGame lastEnemy 40).1.enemies = [] ∧
    projectileReaches (takeDamage twoBullets.toGame lastEnemy 40).1 lastEnemy.id 40
      = (takeDamage twoBullets.toGame lastEnemy 40).1 ∧
    (updateProjectile
        { twoBullets with toGame := (takeDamage twoBullets.toGame lastEnemy 40).1 }
        (1 / 50) bullet).1
      = { twoBullets with toGame := (takeDamage twoBullets.toGame lastEnemy 40).1 } :=
  have key := double_kill_is_ignored twoBullets lastEnemy 40
    (by simp [twoBullets, lastStand]) (by simp [twoBullets, lastStand]) (by decide!)
  ⟨by decide!, by decide!, key.2.1 40,
   (key.2.2 { twoBullets with toGame := (takeDamage twoBullets.toGame lastEnemy 40).1 }
      (1 / 50) bullet (by decide!)).2 (by decide!)⟩

/-! ## C19: lifetime of a projectile -/

theorem updateProjectiles_single (s : Simulator) (delta : ℚ) (p : Projectile)
    (hs : s.projectiles = [p]) :
    updateProjectiles s delta =
      match updateProjectile s delta p with
      | (s', _, some _) => { s' with projectiles := [] }
      | (s', q, none) => { s' with projectiles := [q] } := by
  unfold updateProjectiles
  simp only [hs, List.foldr_cons, List.foldr_nil]
  split <;> rfl

theorem updateProjectiles_in_flight (s : Simulator) (delta : ℚ) (p : Projectile)
    (hs : s.projectiles = [p]) (hlife : 0 < (advance s.noBulletDrop delta p).life)
    (hfree : unobstructed s (advance s.noBulletDrop delta p) = true) :
    updateProjectiles s delta = { s with projectiles := [advance s.noBulletDrop delta p] } := by
  simp only [unobstructed, Bool.and_eq_true, Bool.not_eq_true', Option.isNone_iff_eq_none,
    decide_eq_true_eq] at hfree
  obtain ⟨⟨hblocked, hfind⟩, hy⟩ := hfree
  rw [updateProjectiles_single s delta p hs]
  simp only [updateProjectile, not_le.mpr hlife, if_false, hblocked, Bool.false_eq_true, hfind,
    not_lt.mpr hy]

theorem updateProjectile_expired (s : Simulator) (delta : ℚ) (p : Projectile)
    (hlife : (advance s.noBulletDrop delta p).life ≤ 0) :
    updateProjectile s delta p = (s, advance s.noBulletDrop delta p, some .expired) := by
  simp only [updateProjectile, hlife, if_true]

theorem pow2_pos (k : ℤ) : 0 < pow2 k := by
  unfold pow2
  split <;> positivity

theorem roundHalfEven_nonneg (m : ℚ) (h : 0 ≤ m) : 0 ≤ roundHalfEven m := by
  have hf : (0 : ℤ) ≤ m.num / (m.den : ℤ) :=
    Int.ediv_nonneg (Rat.num_nonneg.mpr h) (Int.natCast_nonneg _)
  unfold roundHalfEven
  simp only []
  split <;> omega

theorem toDouble_nonpos (x : ℚ) (h : x ≤ 0) : toDouble x ≤ 0 := by
  unfold toDouble
  simp only []
  split
  · exact le_refl 0
  · rename_i hx
    have hneg : x < 0 := lt_of_le_of_ne h hx
    rw [if_pos hneg]
    have hq := pow2_pos (max (binade |x|) (-1022) - 52)
    have hm : (0 : ℚ) ≤ (roundHalfEven (|x| / pow2 (max (binade |x|) (-1022) - 52)) : ℤ) := by
      exact_mod_cast roundHalfEven_nonneg _ (div_nonneg (abs_nonneg x) (le_of_lt hq))
    have := mul_nonneg hm (le_of_lt hq)
    linarith

theorem trajectory_life (noBulletDrop : Bool) (deltas : List ℚ) (p : Projectile) :
    (trajectory noBulletDrop p deltas).life = countdown p.life deltas := by
  induction deltas generalizing p with
  | nil => rfl
  | cons d ds ih =>
    show (trajectory noBulletDrop (advance noBulletDrop d p) ds).life = _
    rw [ih]
    rfl

theorem ticks_in_flight (deltas : List ℚ) (s : Simulator) (p : Projectile)
    (hs : s.projectiles = [p])
    (hlive : ∀ k < deltas.length, 0 < countdown p.life (deltas.take (k + 1)))
    (hfree : ∀ k < deltas.length,
      unobstructed s (trajectory s.noBulletDrop p (deltas.take (k + 1))) = true) :
    ticks s deltas = { s with projectiles := [trajectory s.noBulletDrop p deltas] } := by
  induction deltas generalizing s p with
  | nil =>
    show s = { s with projectiles := [p] }
    rw [← hs]
  | cons d ds ih =>
    have hlife : 0 < (advance s.noBulletDrop d p).life := hlive 0 (by simp)
    have hfirst := hfree 0 (by simp)
    have hstep := updateProjectiles_in_flight s d p hs hlife hfirst
    show ticks (updateProjectiles s d) ds = _
    rw [hstep]
    have hrest := ih { s with projectiles := [advance s.noBulletDrop d p] }
      (advance s.noBulletDrop d p) rfl
      (by
        intro k hk
        have := hlive (k + 1) (by simpa using hk)
        exact this)
      (by
        intro k hk
        have := hfree (k + 1) (by simpa using hk)
        exact this)
    rw [hrest]
    rfl

theorem sum_take_le (deltas : List ℚ) (k : ℕ) (hpos : ∀ d ∈ deltas, 0 < d) :
    (deltas.take k).sum ≤ deltas.sum := by
  have hsplit := List.sum_take_add_sum_drop deltas k
  have hdrop : 0 ≤ (deltas.drop k).sum :=
    List.sum_nonneg fun x hx => le_of_lt (hpos x (List.mem_of_mem_drop hx))
  linarith

/-- When every running difference is a double, the countdown is the initial
lifetime minus the accumulated tick time. -/
theorem countdown_exact (deltas : List ℚ) (life : ℚ)
    (hexact : ∀ k, k ≤ deltas.length →
      toDouble (life - (deltas.take k).sum) = life - (deltas.take k).sum) :
    countdown life deltas = life - deltas.sum := by
  induction deltas generalizing life with
  | nil => simp [countdown]
  | cons d ds ih =>
    have h1 : toDouble (life - d) = life - d := by
      have := hexact 1 (by simp)
      simpa using this
    show countdown (toDouble (life - d)) ds = _
    rw [h1, ih (life - d), List.sum_cons]
    · ring
    · intro k hk
      have := hexact (k + 1) (by simpa using hk)
      rw [List.take_succ_cons, List.sum_cons] at this
      have hsub : life - (d + (ds.take k).sum) = life - d - (ds.take k).sum := by ring
      rw [hsub] at this
      exact this

theorem countdown_take_exact (deltas : List ℚ) (life : ℚ) (k : ℕ)
    (hexact : ∀ j, j ≤ deltas.length →
      toDouble (life - (deltas.take j).sum) = life - (deltas.take j).sum) :
    countdown life (deltas.take k) = life - (deltas.take k).sum := by
  apply countdown_exact
  intro j hj
  rw [List.length_take] at hj
  rw [List.take_take, min_eq_left (by omega)]
  exact hexact j (by omega)

/-- C19, counterexample: the bullet of `firingRange` has lifetime 3.  Ticked
with the double nearest to 0.05, the accumulated tick time is below 3 after 59
ticks and at least 3 after 60 ticks, but the countdown in doubles leaves
`165 / 2^56` (about `2.29e-15`) after 60 ticks: the bullet is still in flight
after tick 60 and is retired in tick 61.  Ticked with the double nearest to
0.015, the accumulated tick time is still below 3 after 200 ticks, but the
countdown has reached 0: the bullet is in flight after tick 199 and is retired
in tick 200, one tick early. -/
theorem countdown_lags_accumulated_time :
    toDouble (1 / 20) = 3602879701896397 / 72057594037927936 ∧
    (List.replicate 59 (3602879701896397 / 72057594037927936 : ℚ)).sum < bullet.life ∧
    bullet.life ≤ (List.replicate 60 (3602879701896397 / 72057594037927936 : ℚ)).sum ∧
    countdown bullet.life (List.replicate 60 (3602879701896397 / 72057594037927936))
      = 165 / 72057594037927936 ∧
    (ticks firingRange
      (List.replicate 60 (3602879701896397 / 72057594037927936))).projectiles.length = 1 ∧
    (ticks firingRange
      (List.replicate 61 (3602879701896397 / 72057594037927936))).projectiles = [] ∧
    toDouble (3 / 200) = 1080863910568919 / 72057594037927936 ∧
    (List.replicate 200 (1080863910568919 / 72057594037927936 : ℚ)).sum < bullet.life ∧
    countdown bullet.life (List.replicate 200 (1080863910568919 / 72057594037927936)) ≤ 0 ∧
    (ticks firingRange
      (List.replicate 199 (1080863910568919 / 72057594037927936))).projectiles.length = 1 ∧
    (ticks firingRange
      (List.replicate 200 (1080863910568919 / 72057594037927936))).projectiles = [] := by
  decide!

/-- C19, amended: a single projectile `p` with lifetime `L = p.life > 0` is
ticked with positive tick sizes `deltas` and then `delta`, the accumulated time
staying below `L` during `deltas` and reaching `L` with `delta`; `L` and every
running difference `L - (dt₁ + ... + dt_k)` are doubles, so that the countdown
`life -= dt` is exact; after each of the earlier ticks the projectile is
neither blocked, nor within reach of an enemy, nor below the ground.  Then it
is still in flight after every earlier tick and it is retired, as expired,
exactly in the tick of `delta`. -/
theorem projectile_expires_on_time_if_exact (s : Simulator) (p : Projectile) (deltas : List ℚ)
    (delta : ℚ)
    (hs : s.projectiles = [p]) (hL : 0 < p.life)
    (hpos : ∀ d ∈ deltas, 0 < d) (hdelta : 0 < delta)
    (hfree : ∀ k < deltas.length,
      unobstructed s (trajectory s.noBulletDrop p (deltas.take (k + 1))) = true)
    (hexact : ∀ k, k ≤ deltas.length →
      toDouble (p.life - (deltas.take k).sum) = p.life - (deltas.take k).sum)
    (hlt : deltas.sum < p.life) (hge : p.life ≤ deltas.sum + delta) :
    (∀ k ≤ deltas.length,
      (ticks s (deltas.take k)).projectiles = [trajectory s.noBulletDrop p (deltas.take k)]) ∧
    (updateProjectile (ticks s deltas) delta (trajectory s.noBulletDrop p deltas)).2.2
      = some .expired ∧
    (ticks s (deltas ++ [delta])).projectiles = [] := by
  have hL0 : 0 < p.life := hL
  have hd0 : 0 < delta := hdelta
  have hlive : ∀ k < deltas.length, 0 < countdown p.life (deltas.take (k + 1)) := by
    intro k _
    rw [countdown_take_exact deltas p.life (k + 1) hexact]
    have := sum_take_le deltas (k + 1) hpos
    linarith
  have hall := ticks_in_flight deltas s p hs hlive hfree
  have hexp : (advance s.noBulletDrop delta (trajectory s.noBulletDrop p deltas)).life ≤ 0 := by
    show toDouble ((trajectory s.noBulletDrop p deltas).life - delta) ≤ 0
    rw [trajectory_life, countdown_exact deltas p.life hexact]
    apply toDouble_nonpos
    linarith
  refine ⟨?_, ?_, ?_⟩
  · intro k hk
    have hlivek : ∀ j < (deltas.take k).length,
        0 < countdown p.life ((deltas.take k).take (j + 1)) := by
      intro j hj
      rw [List.length_take] at hj
      rw [List.take_take, min_eq_left (by omega)]
      exact hlive j (by omega)
    have hfreek : ∀ j < (deltas.take k).length,
        unobstructed s (trajectory s.noBulletDrop p ((deltas.take k).take (j + 1))) = true := by
      intro j hj
      rw [List.length_take] at hj
      rw [List.take_take, min_eq_left (by omega)]
      exact hfree j (by omega)
    rw [ticks_in_flight (deltas.take k) s p hs hlivek hfreek]
  · rw [hall]
    exact congrArg (fun r => r.2.2)
      (updateProjectile_expired { s with projectiles := [trajectory s.noBulletDrop p deltas] }
        delta (trajectory s.noBulletDrop p deltas) hexp)
  · have hsplit : ticks s (deltas ++ [delta]) = updateProjectiles (ticks s deltas) delta := by
      simp [ticks, List.foldl_append]
    rw [hsplit, hall,
      updateProjectiles_single { s with projectiles := [trajectory s.noBulletDrop p deltas] }
        delta (trajectory s.noBulletDrop p deltas) rfl,
      updateProjectile_expired { s with projectiles := [trajectory s.noBulletDrop p deltas] }
        delta (trajectory s.noBulletDrop p deltas) hexp]

/-- Witness of C19: on the firing range a bullet of lifetime 3 ticked with
`dt = 1/16`, for which every subtraction is exact, is in flight after 47 ticks
and retired, as expired, in tick 48, when the accumulated time reaches 3. -/
theorem projectile_expires_on_time_if_exact_witness :
    (List.replicate 47 (1 / 16 : ℚ)).sum < bullet.life ∧
    bullet.life ≤ (List.replicate 47 (1 / 16 : ℚ)).sum + 1 / 16 ∧
    (ticks firingRange (List.replicate 47 (1 / 16))).projectiles
      = [trajectory firingRange.noBulletDrop bullet (List.replicate 47 (1 / 16))] ∧
    (updateProjectile (ticks firingRange (List.replicate 47 (1 / 16))) (1 / 16)
        (trajectory firingRange.noBulletDrop bullet (List.replicate 47 (1 / 16)))).2.2
      = some .expired ∧
    (ticks firingRange (List.replicate 47 (1 / 16) ++ [1 / 16])).projectiles = [] :=
  have key := projectile_expires_on_time_if_exact firingRange bullet
    (List.replicate 47 (1 / 16)) (1 / 16)
    rfl (by decide!)
    (by
      intro d hd
      rw [List.eq_of_mem_replicate hd]
      norm_num)
    (by norm_num)
    (by decide!) (by decide!) (by decide!) (by decide!)
  ⟨by decide!, by decide!, by simpa using key.1 47 (by simp), key.2.1, key.2.2⟩

/-! ## C21: stats of a spawned enemy -/

theorem spawnEnemy_stats (g : Game) (env : SpawnEnv) (pos : Vector3) (currentWave count : ℕ)
    (isBossWave : Bool) (i : ℕ) :
    ((spawnEnemy g env pos currentWave count isBossWave i).isBoss = true →
      (spawnEnemy g env pos currentWave count isBossWave i).health
        = 140 + 40 * ((currentWave : ℚ) - 1) ∧
      (spawnEnemy g env pos currentWave count isBossWave i).projectileDamage
        = 8 + 1.5 * ((currentWave : ℚ) - 1) ∧
      (spawnEnemy g env pos currentWave count isBossWave i).fireCooldown
        = max 1.2 (2.5 - 0.15 * ((currentWave : ℚ) - 1)) + env.jitter i * 0.8) ∧
    ((spawnEnemy g env pos currentWave count isBossWave i).isBoss = false →
      (spawnEnemy g env pos currentWave count isBossWave i).health
        = 30 + 8 * ((currentWave : ℚ) - 1) ∧
      (spawnEnemy g env pos currentWave count isBossWave i).projectileDamage
        = 4 + ((currentWave : ℚ) - 1) ∧
      (spawnEnemy g env pos currentWave count isBossWave i).fireCooldown
        = max 1.8 (3.5 - 0.15 * ((currentWave : ℚ) - 1)) + env.jitter i * 0.8) := by
  have hboss := spawnEnemy_isBoss g env pos currentWave count isBossWave i
  cases hb : (isBossWave && i == 0)
  · rw [hb] at hboss
    refine ⟨fun h => (by rw [hboss] at h; cases h), fun _ => ?_⟩
    simp only [spawnEnemy, hb, Bool.false_eq_true, if_false]
    exact ⟨by ring, by ring, trivial⟩
  · rw [hb] at hboss
    refine ⟨fun _ => ?_, fun h => (by rw [hboss] at h; cases h)⟩
    simp only [spawnEnemy, hb, if_true]
    exact ⟨by ring, by ring, trivial⟩

/-- C21: for every wave number `w ≥ 1` (spawner ready, `Math.random()` in
`[0, 1)`) and every enemy of the batch spawned by `startNextWave`: the boss has
health `140 + 40(w-1)` and projectile damage `8 + 1.5(w-1)`, any other enemy
has health `30 + 8(w-1)` and projectile damage `4 + (w-1)`, and the fire
cooldown is `max(min, base - 0.15(w-1)) + j` with a jitter `0 ≤ j < 0.8` and
`(base, min) = (2.5, 1.2)` for the boss, `(3.5, 1.8)` otherwise. -/
theorem startNextWave_enemy_stats (env : SpawnEnv) (g : Game) (w : ℕ) (pos : Vector3)
    (hw : 1 ≤ w) (hwave : g.waveManager.waveNumber + 1 = w)
    (hscene : g.scene = true) (hcam : g.camera = some pos) (htex : 0 < g.enemyTextures)
    (hrandom : ∀ i, 0 ≤ env.jitter i ∧ env.jitter i < 1) :
    ∃ spawned : List Enemy,
      (WaveManager.startNextWave env g).enemies = g.enemies ++ spawned ∧
      ∀ e ∈ spawned, ∃ j : ℚ, 0 ≤ j ∧ j < 0.8 ∧
        (e.isBoss = true →
          e.health = 140 + 40 * ((w : ℚ) - 1) ∧
          e.projectileDamage = 8 + 1.5 * ((w : ℚ) - 1) ∧
          e.fireCooldown = max 1.2 (2.5 - 0.15 * ((w : ℚ) - 1)) + j) ∧
        (e.isBoss = false →
          e.health = 30 + 8 * ((w : ℚ) - 1) ∧
          e.projectileDamage = 4 + ((w : ℚ) - 1) ∧
          e.fireCooldown = max 1.8 (3.5 - 0.15 * ((w : ℚ) - 1)) + j) := by
  have hw1 : 1 ≤ w := hw
  have henemies := startNextWave_enemies env g pos hscene hcam htex
  rw [hwave] at henemies
  refine ⟨_, henemies, ?_⟩
  intro e he
  obtain ⟨i, -, rfl⟩ := List.mem_map.mp he
  refine ⟨env.jitter i * 0.8, ?_, ?_, ?_⟩
  · have := (hrandom i).1
    positivity
  · have := (hrandom i).2
    norm_num
    linarith
  · exact spawnEnemy_stats _ env pos w _ _ i

/-- Witness of C21: the batch of wave 5 on a ready game. -/
theorem startNextWave_enemy_stats_witness :
    ∃ spawned : List Enemy,
      (WaveManager.startNextWave (SpawnEnv.const (1 / 2))
          { Game.ready 1 with waveManager := { active := true, waveNumber := 4 } }).enemies
        = [] ++ spawned ∧
      ∀ e ∈ spawned, ∃ j : ℚ, 0 ≤ j ∧ j < 0.8 ∧
        (e.isBoss = true →
          e.health = 140 + 40 * (((5 : ℕ) : ℚ) - 1) ∧
          e.projectileDamage = 8 + 1.5 * (((5 : ℕ) : ℚ) - 1) ∧
          e.fireCooldown = max 1.2 (2.5 - 0.15 * (((5 : ℕ) : ℚ) - 1)) + j) ∧
        (e.isBoss = false →
          e.health = 30 + 8 * (((5 : ℕ) : ℚ) - 1) ∧
          e.projectileDamage = 4 + (((5 : ℕ) : ℚ) - 1) ∧
          e.fireCooldown = max 1.8 (3.5 - 0.15 * (((5 : ℕ) : ℚ) - 1)) + j) :=
  startNextWave_enemy_stats (SpawnEnv.const (1 / 2))
    { Game.ready 1 with waveManager := { active := true, waveNumber := 4 } }
    5 ⟨0, 17 / 10, 0⟩ (by decide) rfl rfl rfl (by decide)
    (fun _ => ⟨by norm_num [SpawnEnv.const], by norm_num [SpawnEnv.const]⟩)

/-! ## C22: an enemy projectile hits the player -/

theorem playerTakeDamage_alive (g : Game) (amount : ℚ) (h : 0 < g.stats.health) :
    playerTakeDamage g amount =
      { g with stats := { g.stats with
          health := max 0 (g.stats.health - (if g.stats.hunger < 20 then amount * 1.5 else amount)) } } := by
  simp only [playerTakeDamage, not_le.mpr h, if_false]

theorem playerTakeDamage_dead (g : Game) (amount : ℚ) (h : g.stats.health ≤ 0) :
    playerTakeDamage g amount = g := by
  simp only [playerTakeDamage, h, if_true]

theorem updateEnemyProjectiles_single (s : Simulator) (delta : ℚ) (p : Projectile)
    (hs : s.enemyProjectiles = [p]) :
    updateEnemyProjectiles s delta =
      match updateEnemyProjectile s delta p with
      | none => none
      | some (next, _, some _) => some { next with enemyProjectiles := [] }
      | some (next, q, none) => some { next with enemyProjectiles := [q] } := by
  unfold updateEnemyProjectiles
  simp only [hs, List.foldr_cons, List.foldr_nil]
  split <;> simp_all

/-- C22: an enemy projectile (with its damage `d` set, `d ≠ 0`) that after
advancing has life left, is not blocked and is at squared distance below 1.0
from the player is retired as a hit on the player, and the only change is
`playerTakeDamage(d)`: a living player's health becomes `max(0, health - m * d)`
with `m = 1.5` when `hunger < 20` and `m = 1` otherwise, and nothing changes
when the player's health is already `≤ 0`. -/
theorem enemy_shot_hits_player (s : Simulator) (delta : ℚ) (p q : Projectile) (player : Vector3)
    (hq : q = advanceEnemyShot delta p) (hcam : s.camera = some player)
    (hlife : 0 < q.life)
    (hblocked : isProjectileBlocked s.environmentColliders q.position = false)
    (hnear : q.position.distanceToSquared player < 1.0 * 1.0)
    (hdamage : p.damage ≠ 0) :
    updateEnemyProjectile s delta p =
      some ({ s with toGame := playerTakeDamage s.toGame p.damage }, q, some .hitPlayer) ∧
    (s.enemyProjectiles = [p] →
      updateEnemyProjectiles s delta =
        some { s with toGame := playerTakeDamage s.toGame p.damage, enemyProjectiles := [] }) ∧
    (0 < s.stats.health →
      (playerTakeDamage s.toGame p.damage).stats.health
        = max 0 (s.stats.health - (if s.stats.hunger < 20 then 1.5 else 1) * p.damage)) ∧
    (s.stats.health ≤ 0 → playerTakeDamage s.toGame p.damage = s.toGame) := by
  subst hq
  have hd : (advanceEnemyShot delta p).damage ≠ 0 := hdamage
  have hstep : updateEnemyProjectile s delta p =
      some ({ s with toGame := playerTakeDamage s.toGame p.damage },
        advanceEnemyShot delta p, some .hitPlayer) := by
    simp only [updateEnemyProjectile, not_le.mpr hlife, if_false, hblocked, Bool.false_eq_true,
      hcam, hnear, if_true, hd]
    rfl
  refine ⟨hstep, ?_, ?_, ?_⟩
  · intro hs
    rw [updateEnemyProjectiles_single s delta p hs, hstep]
  · intro halive
    rw [playerTakeDamage_alive s.toGame p.damage halive]
    show max 0 (s.stats.health - (if s.stats.hunger < 20 then p.damage * 1.5 else p.damage)) = _
    split_ifs <;> ring_nf
  · intro hdead
    exact playerTakeDamage_dead s.toGame p.damage hdead

/-- Witness of C22: `enemyShot` (damage 4) reaches the player of `underFire`,
who is at full health and not hungry: health 96, projectile gone. -/
theorem enemy_shot_hits_player_witness :
    updateEnemyProjectiles underFire (1 / 50) =
      some { underFire with
        toGame := playerTakeDamage underFire.toGame enemyShot.damage
        enemyProjectiles := [] } ∧
    (playerTakeDamage underFire.toGame enemyShot.damage).stats.health
      = max 0 (underFire.stats.health
          - (if underFire.stats.hunger < 20 then 1.5 else 1) * enemyShot.damage) ∧
    (playerTakeDamage underFire.toGame enemyShot.damage).stats.health = 96 :=
  have key := enemy_shot_hits_player underFire (1 / 50) enemyShot _ ⟨0, 17 / 10, 0⟩ rfl rfl
    (by with_unfolding_all decide) (by with_unfolding_all decide)
    (by with_unfolding_all decide) (by with_unfolding_all decide)
  ⟨key.2.1 rfl, key.2.2.1 (by with_unfolding_all decide), by with_unfolding_all decide⟩

/-! ## C24, C25: gravity -/

theorem updateProjectile_projectile (s : Simulator) (delta : ℚ) (p : Projectile) :
    (updateProjectile s delta p).2.1 = advance s.noBulletDrop delta p := by
  simp only [updateProjectile]
  repeat' split
  all_goals rfl

theorem updateEnemyProjectile_projectile (s : Simulator) (delta : ℚ) (p : Projectile)
    (r : Simulator × Projectile × Option EnemyShotEnd)
    (h : updateEnemyProjectile s delta p = some r) : r.2.1 = advanceEnemyShot delta p := by
  simp only [updateEnemyProjectile] at h
  repeat' split at h
  all_goals first
    | (cases h; rfl)
    | cases h

theorem updateEnemyProjectile_returns (s : Simulator) (delta : ℚ) (p : Projectile)
    (player : Vector3) (hcam : s.camera = some player) :
    ∃ r, updateEnemyProjectile s delta p = some r := by
  simp only [updateEnemyProjectile, hcam]
  repeat' split
  all_goals exact ⟨_, rfl⟩

/-- C24: in a tick of size `dt`, a player-fired projectile's vertical velocity
decreases by exactly `9.8 * dt` (the other components staying) when
`noBulletDrop` is unset and its velocity is unchanged when the modifier is set;
an enemy-fired projectile's velocity is never changed, whatever the modifier
(the enemy update returns whenever the camera exists, and whenever it returns
the velocity is the old one); in both cases the position then advances by (the
new) velocity times `dt`. -/
theorem gravity_on_player_shots_only (s : Simulator) (dt : ℚ) (p : Projectile) :
    (s.noBulletDrop = false →
      (updateProjectile s dt p).2.1.velocity
        = ⟨p.velocity.x, p.velocity.y - 9.8 * dt, p.velocity.z⟩) ∧
    (s.noBulletDrop = true → (updateProjectile s dt p).2.1.velocity = p.velocity) ∧
    (updateProjectile s dt p).2.1.position
      = p.position.addScaledVector (updateProjectile s dt p).2.1.velocity dt ∧
    (∀ player, s.camera = some player →
      ∃ r, updateEnemyProjectile s dt p = some r ∧
        r.2.1.velocity = p.velocity ∧
        r.2.1.position = p.position.addScaledVector p.velocity dt) ∧
    (∀ r, updateEnemyProjectile s dt p = some r →
      r.2.1.velocity = p.velocity ∧
      r.2.1.position = p.position.addScaledVector p.velocity dt) := by
  rw [updateProjectile_projectile]
  refine ⟨?_, ?_, ?_, ?_, ?_⟩
  · intro h
    simp [advance, h]
  · intro h
    simp [advance, h]
  · rfl
  · intro player hcam
    obtain ⟨r, hr⟩ := updateEnemyProjectile_returns s dt p player hcam
    refine ⟨r, hr, ?_⟩
    rw [updateEnemyProjectile_projectile s dt p r hr]
    exact ⟨rfl, rfl⟩
  · intro r hr
    rw [updateEnemyProjectile_projectile s dt p r hr]
    exact ⟨rfl, rfl⟩

/-- Witness of C24: a bullet of `twoBullets` (gravity on) against `enemyShot`
of `underFire`, tick 1/50. -/
theorem gravity_on_player_shots_only_witness :
    (updateProjectile twoBullets (1 / 50) bullet).2.1.velocity
      = ⟨bullet.velocity.x, bullet.velocity.y - 9.8 * (1 / 50), bullet.velocity.z⟩ ∧
    ∃ r, updateEnemyProjectile underFire (1 / 50) enemyShot = some r ∧
      r.2.1.velocity = enemyShot.velocity ∧
      r.2.1.position = enemyShot.position.addScaledVector enemyShot.velocity (1 / 50) :=
  ⟨(gravity_on_player_shots_only twoBullets (1 / 50) bullet).1 rfl,
   (gravity_on_player_shots_only underFire (1 / 50) enemyShot).2.2.2.1 _ rfl⟩

/-- C25, counterexample: with `noBulletDrop` unset and a tick of 1/50, the
same velocity `(0, 0, 60)` becomes `(0, -0.196, 60)` for a player-fired
projectile and stays `(0, 0, 60)` for an enemy-fired one. -/
theorem gravity_differs_between_owners :
    (advance false (1 / 50) bullet).velocity = ⟨0, -49 / 250, 60⟩ ∧
    (advanceEnemyShot (1 / 50) bullet).velocity = ⟨0, 0, 60⟩ ∧
    (advance false (1 / 50) bullet).velocity ≠ (advanceEnemyShot (1 / 50) bullet).velocity := by
  with_unfolding_all decide

/-- C25, amended: the `noBulletDrop` flag is consulted for player-fired
projectiles only.  For every projectile, tick size `dt` and value of the flag,
the enemy-fired update keeps the velocity, the player-fired update differs from
it by `9.8 * dt` on the vertical component when the flag is unset, and the two
updates agree exactly when the flag is set or `dt = 0`. -/
theorem gravity_flag_is_player_only (noBulletDrop : Bool) (dt : ℚ) (p : Projectile) :
    (advanceEnemyShot dt p).velocity = p.velocity ∧
    (advance noBulletDrop dt p).velocity.x = (advanceEnemyShot dt p).velocity.x ∧
    (advance noBulletDrop dt p).velocity.z = (advanceEnemyShot dt p).velocity.z ∧
    (advance noBulletDrop dt p).velocity.y
      = (advanceEnemyShot dt p).velocity.y - (if noBulletDrop then 0 else 9.8 * dt) ∧
    ((advance noBulletDrop dt p).velocity = (advanceEnemyShot dt p).velocity ↔
      (noBulletDrop = true ∨ dt = 0)) := by
  cases noBulletDrop
  · refine ⟨rfl, rfl, rfl, ?_, ?_⟩
    · simp [advance, advanceEnemyShot]
    · simp only [advance, advanceEnemyShot, Bool.not_false, if_true, Bool.false_eq_true,
        false_or]
      constructor
      · intro h
        have hy := congrArg Vector3.y h
        simp only [] at hy
        have : (9.8 : ℚ) * dt = 0 := by linarith
        rcases mul_eq_zero.mp this with h98 | h0
        · norm_num at h98
        · exact h0
      · intro h0
        rw [h0]
        simp
  · refine ⟨rfl, rfl, rfl, ?_, ?_⟩
    · simp [advance, advanceEnemyShot]
    · simp [advance, advanceEnemyShot]

/-! ## C26: the wave counter never decreases -/

theorem onEnemyKilled_active_of (g : Game)
    (h : (WaveManager.onEnemyKilled g).waveManager.active = true) :
    g.waveManager.active = true := by
  cases hact : g.waveManager.active with
  | true => rfl
  | false =>
    rw [onEnemyKilled_inactive g hact, hact] at h
    exact h

theorem deactivate_active (g : Game) : (WaveManager.deactivate g).waveManager.active = false := by
  cases hact : g.waveManager.active with
  | true => simp [WaveManager.deactivate, hact]
  | false => simp [WaveManager.deactivate, hact]

theorem takeDamage_waveNumber (g : Game) (enemy : Enemy) (amount : ℚ) :
    (takeDamage g enemy amount).1.waveManager.waveNumber = g.waveManager.waveNumber := by
  by_cases hdead : enemy.health - amount ≤ 0
  · rw [takeDamage_kill g enemy amount hdead, onEnemyKilled_waveNumber]
  · rw [takeDamage_survive g enemy amount hdead]

theorem takeDamage_active_of (g : Game) (enemy : Enemy) (amount : ℚ)
    (h : (takeDamage g enemy amount).1.waveManager.active = true) :
    g.waveManager.active = true := by
  by_cases hdead : enemy.health - amount ≤ 0
  · rw [takeDamage_kill g enemy amount hdead] at h
    have hbefore := onEnemyKilled_active_of _ h
    exact hbefore
  · rw [takeDamage_survive g enemy amount hdead] at h
    exact h

theorem activate_waveNumber_le (env : SpawnEnv) (g : Game) :
    g.waveManager.waveNumber ≤ (WaveManager.activate env g).waveManager.waveNumber := by
  unfold WaveManager.activate
  split_ifs
  · exact le_refl _
  · rw [startNextWave_waveNumber]
    exact Nat.le_succ _

theorem deactivate_waveNumber (g : Game) :
    (WaveManager.deactivate g).waveManager.waveNumber = g.waveManager.waveNumber := by
  unfold WaveManager.deactivate
  split_ifs <;> rfl

theorem autoAdvanceCallback_waveNumber_le (env : SpawnEnv) (g : Game) :
    g.waveManager.waveNumber
      ≤ (WaveManager.autoAdvanceCallback env g).waveManager.waveNumber := by
  unfold WaveManager.autoAdvanceCallback
  split_ifs
  · rw [startNextWave_waveNumber]
    exact Nat.le_succ _
  · exact le_refl _

theorem step_waveNumber_le (g : Game) (ev : Event) :
    g.waveManager.waveNumber ≤ (step g ev).waveManager.waveNumber := by
  cases ev with
  | activate env => exact activate_waveNumber_le env g
  | deactivate => exact le_of_eq (deactivate_waveNumber g).symm
  | toggle env =>
    show _ ≤ (toggleSurvivalMode env g).waveManager.waveNumber
    unfold toggleSurvivalMode
    split_ifs
    · exact le_of_eq (deactivate_waveNumber g).symm
    · exact activate_waveNumber_le env g
  | hit j amount =>
    show _ ≤ (match g.enemies.get? j with
      | none => g
      | some enemy => (takeDamage g enemy amount).1).waveManager.waveNumber
    cases g.enemies.get? j with
    | none => exact le_refl _
    | some enemy => exact le_of_eq (takeDamage_waveNumber g enemy amount).symm
  | autoAdvance env =>
    show _ ≤ (if g.pendingAdvance = 0 then g
      else WaveManager.autoAdvanceCallback env
        { g with pendingAdvance := g.pendingAdvance - 1 }).waveManager.waveNumber
    split_ifs
    · exact le_refl _
    · exact autoAdvanceCallback_waveNumber_le env { g with pendingAdvance := g.pendingAdvance - 1 }

theorem step_active_wave (g : Game) (ev : Event)
    (h : g.waveManager.active = true → 1 ≤ g.waveManager.waveNumber) :
    (step g ev).waveManager.active = true → 1 ≤ (step g ev).waveManager.waveNumber := by
  have hmono := step_waveNumber_le g ev
  cases ev with
  | activate env =>
    intro _
    show 1 ≤ (WaveManager.activate env g).waveManager.waveNumber
    unfold WaveManager.activate
    split_ifs with hact
    · exact h hact
    · rw [startNextWave_waveNumber]
      exact Nat.le_add_left 1 _
  | deactivate =>
    intro hafter
    change (WaveManager.deactivate g).waveManager.active = true at hafter
    rw [deactivate_active] at hafter
    cases hafter
  | toggle env =>
    intro hafter
    change (toggleSurvivalMode env g).waveManager.active = true at hafter
    show 1 ≤ (toggleSurvivalMode env g).waveManager.waveNumber
    by_cases hflag : g.isSurvivalModeActive = true
    · have htoggle : toggleSurvivalMode env g = WaveManager.deactivate g := by
        simp [toggleSurvivalMode, hflag]
      rw [htoggle, deactivate_active] at hafter
      cases hafter
    · have htoggle : toggleSurvivalMode env g = WaveManager.activate env g := by
        simp [toggleSurvivalMode, hflag]
      rw [htoggle]
      unfold WaveManager.activate
      split_ifs with hact
      · exact h hact
      · rw [startNextWave_waveNumber]
        exact Nat.le_add_left 1 _
  | hit j amount =>
    intro hafter
    change (match g.enemies.get? j with
      | none => g
      | some enemy => (takeDamage g enemy amount).1).waveManager.active = true at hafter
    have hbefore : g.waveManager.active = true := by
      cases hj : g.enemies.get? j with
      | none =>
        rw [hj] at hafter
        exact hafter
      | some enemy =>
        rw [hj] at hafter
        exact takeDamage_active_of g enemy amount hafter
    exact le_trans (h hbefore) hmono
  | autoAdvance env =>
    intro hafter
    change (if g.pendingAdvance = 0 then g
      else WaveManager.autoAdvanceCallback env
        { g with pendingAdvance := g.pendingAdvance - 1 }).waveManager.active = true at hafter
    have hbefore : g.waveManager.active = true := by
      split_ifs at hafter with h0
      · exact hafter
      · unfold WaveManager.autoAdvanceCallback at hafter
        split_ifs at hafter with hact
        · exact hact
        · exact hafter
    exact le_trans (h hbefore) hmono

theorem run_waveNumber_le (events : List Event) (g : Game) :
    g.waveManager.waveNumber ≤ (run g events).waveManager.waveNumber := by
  induction events generalizing g with
  | nil => exact le_refl _
  | cons ev rest ih => exact le_trans (step_waveNumber_le g ev) (ih (step g ev))

theorem run_active_wave (events : List Event) (g : Game)
    (h : g.waveManager.active = true → 1 ≤ g.waveManager.waveNumber) :
    (run g events).waveManager.active = true → 1 ≤ (run g events).waveManager.waveNumber := by
  induction events generalizing g with
  | nil => exact h
  | cons ev rest ih => exact ih (step g ev) (step_active_wave g ev h)

/-- C26: `waveNumber` is monotonic.  In every state `activate` and the timer
callback do not decrease it, `startNextWave` increases it by exactly 1, and
`onEnemyKilled`, `deactivate` and a hit leave it as it is; along every run of
events it never decreases, and from a game whose manager starts inactive it is
`≥ 1` whenever the manager is active. -/
theorem waveNumber_monotonic (env : SpawnEnv) (g g₀ : Game) (events : List Event)
    (hstart : g₀.waveManager.active = false) :
    g.waveManager.waveNumber ≤ (WaveManager.activate env g).waveManager.waveNumber ∧
    (WaveManager.startNextWave env g).waveManager.waveNumber = g.waveManager.waveNumber + 1 ∧
    (WaveManager.onEnemyKilled g).waveManager.waveNumber = g.waveManager.waveNumber ∧
    (WaveManager.deactivate g).waveManager.waveNumber = g.waveManager.waveNumber ∧
    g.waveManager.waveNumber
      ≤ (WaveManager.autoAdvanceCallback env g).waveManager.waveNumber ∧
    g₀.waveManager.waveNumber ≤ (run g₀ events).waveManager.waveNumber ∧
    ((run g₀ events).waveManager.active = true → 1 ≤ (run g₀ events).waveManager.waveNumber) :=
  ⟨activate_waveNumber_le env g, startNextWave_waveNumber env g, onEnemyKilled_waveNumber g,
    deactivate_waveNumber g, autoAdvanceCallback_waveNumber_le env g,
    run_waveNumber_le events g₀,
    run_active_wave events g₀ (fun h => by rw [hstart] at h; cases h)⟩

/-- Witness of C26: in the run with the stale callback the counter goes 0, 1,
2, 3 and the manager, active at the end, is on wave 3. -/
theorem waveNumber_monotonic_witness :
    (Game.ready 1).waveManager.active = false ∧
    (Game.ready 1).waveManager.waveNumber
      ≤ (run (Game.ready 1)
          (restartWhilePending ++ [.autoAdvance (SpawnEnv.const 0)])).waveManager.waveNumber ∧
    (run (Game.ready 1)
        (restartWhilePending ++ [.autoAdvance (SpawnEnv.const 0)])).waveManager.active = true ∧
    1 ≤ (run (Game.ready 1)
        (restartWhilePending ++ [.autoAdvance (SpawnEnv.const 0)])).waveManager.waveNumber :=
  ⟨rfl,
   (waveNumber_monotonic (SpawnEnv.const 0) (Game.ready 1) (Game.ready 1)
    (restartWhilePending ++ [.autoAdvance (SpawnEnv.const 0)]) rfl).2.2.2.2.2.1,
   by with_unfolding_all decide,
   (waveNumber_monotonic (SpawnEnv.const 0) (Game.ready 1) (Game.ready 1)
    (restartWhilePending ++ [.autoAdvance (SpawnEnv.const 0)]) rfl).2.2.2.2.2.2
      (by with_unfolding_all decide)⟩

/-! ## C29: the wave flags in reachable states -/

/-- C29: in every state reached from a freshly constructed game (manager
inactive, registry empty, flag off) by activate, deactivate, toggle, hits on
enemies and auto-advance callbacks, `game.isSurvivalModeActive` equals
`waveManager.active`, and the registry is empty whenever the manager is not
active; `startNextWave`, which the program only calls with the manager active,
keeps both facts. -/
theorem flags_consistent_in_reachable_states (g₀ : Game) (events : List Event)
    (hactive : g₀.waveManager.active = false) (hempty : g₀.enemies = [])
    (hflag : g₀.isSurvivalModeActive = false) :
    (run g₀ events).isSurvivalModeActive = (run g₀ events).waveManager.active ∧
    ((run g₀ events).waveManager.active = false → (run g₀ events).enemies = []) ∧
    (∀ env, (run g₀ events).waveManager.active = true →
      Consistent (WaveManager.startNextWave env (run g₀ events))) := by
  have hcons : Consistent (run g₀ events) :=
    run_consistent events g₀ ⟨by rw [hflag, hactive], fun _ => hempty⟩
  refine ⟨hcons.1, hcons.2, ?_⟩
  intro env hact
  exact startNextWave_consistent env _ hact (by rw [hcons.1, hact])

/-- Witness of C29: the state after the stale callback fired (two waves in the
registry) still has matching flags. -/
theorem flags_consistent_in_reachable_states_witness :
    (run (Game.ready 1)
        (restartWhilePending ++ [.autoAdvance (SpawnEnv.const 0)])).isSurvivalModeActive
      = (run (Game.ready 1)
          (restartWhilePending ++ [.autoAdvance (SpawnEnv.const 0)])).waveManager.active :=
  (flags_consistent_in_reachable_states (Game.ready 1)
    (restartWhilePending ++ [.autoAdvance (SpawnEnv.const 0)]) rfl rfl rfl).1

/-! ## C30, C23: the player's health -/

theorem playerTakeDamage_bounds (g : Game) (amount : ℚ) (hamount : 0 ≤ amount)
    (h : HealthBounds g) : HealthBounds (playerTakeDamage g amount) := by
  obtain ⟨h0, h100⟩ := h
  by_cases hdead : g.stats.health ≤ 0
  · rw [playerTakeDamage_dead g amount hdead]
    exact ⟨h0, h100⟩
  · rw [playerTakeDamage_alive g amount (not_le.mp hdead)]
    have hscaled : 0 ≤ (if g.stats.hunger < 20 then amount * 1.5 else amount) := by
      split_ifs
      · positivity
      · exact hamount
    refine ⟨le_max_left _ _, max_le (by norm_num) ?_⟩
    show g.stats.health - _ ≤ 100
    linarith

theorem updateStats_bounds (g : Game) (delta : ℚ) (hdelta : 0 ≤ delta) (h : HealthBounds g) :
    HealthBounds (updateStats g delta) := by
  obtain ⟨h0, h100⟩ := h
  unfold updateStats HealthBounds
  simp only []
  split_ifs
  · refine ⟨le_max_left _ _, max_le (by norm_num) ?_⟩
    have : 0 ≤ delta * 0.2 := by positivity
    linarith
  · exact ⟨h0, h100⟩

theorem applyPowerup_bounds (g : Game) (speedBoostTime : ℚ) (powerType : String)
    (h : HealthBounds g) : HealthBounds (applyPowerup g speedBoostTime powerType).1 := by
  obtain ⟨h0, h100⟩ := h
  unfold applyPowerup HealthBounds
  split_ifs
  · exact ⟨le_min (by norm_num) (by linarith), min_le_left _ _⟩
  · exact ⟨h0, h100⟩
  · exact ⟨h0, h100⟩
  · exact ⟨h0, h100⟩

theorem useItem_bounds (g : Game) (inventory : String → ℕ) (itemName : String)
    (h : HealthBounds g) : HealthBounds (useItem g inventory itemName).1 := by
  obtain ⟨h0, h100⟩ := h
  unfold useItem HealthBounds
  simp only []
  split_ifs
  · exact ⟨h0, h100⟩
  · exact ⟨h0, h100⟩
  · exact ⟨le_min (by norm_num) (by linarith), min_le_left _ _⟩
  · exact ⟨h0, h100⟩
  · exact ⟨h0, h100⟩

theorem choiceB_bounds (g : Game) (h : HealthBounds g) : HealthBounds (LivingHell.choiceB g) := by
  obtain ⟨h0, _⟩ := h
  exact ⟨le_min (by norm_num) (by linarith), min_le_left _ _⟩

theorem choiceD_bounds (g : Game) (h : HealthBounds g) : HealthBounds (LivingHell.choiceD g) := by
  obtain ⟨_, h100⟩ := h
  refine ⟨le_max_left _ _, max_le (by norm_num) ?_⟩
  show g.stats.health - 20 ≤ 100
  linarith

/-- C30: the player's health stays within `[0, 100]`.  It is 100 in the
constructor state, and `0 ≤ health ≤ 100` is preserved by `playerTakeDamage`
with a non-negative amount, by `updateStats` with `dt ≥ 0`, by `useItem`, by
`applyPowerup`, by the Living Hell choices B and D and by `resetGame`. -/
theorem health_stays_within_bounds :
    HealthBounds Game.initial ∧
    (∀ g amount, 0 ≤ amount → HealthBounds g → HealthBounds (playerTakeDamage g amount)) ∧
    (∀ g dt, 0 ≤ dt → HealthBounds g → HealthBounds (updateStats g dt)) ∧
    (∀ g inventory itemName, HealthBounds g → HealthBounds (useItem g inventory itemName).1) ∧
    (∀ g boost powerType, HealthBounds g → HealthBounds (applyPowerup g boost powerType).1) ∧
    (∀ g, HealthBounds g → HealthBounds (LivingHell.choiceB g)) ∧
    (∀ g, HealthBounds g → HealthBounds (LivingHell.choiceD g)) ∧
    (∀ s : Simulator, HealthBounds (resetGame s).toGame) := by
  refine ⟨?_, playerTakeDamage_bounds, updateStats_bounds, useItem_bounds, applyPowerup_bounds,
    choiceB_bounds, choiceD_bounds, ?_⟩
  · constructor
    · show (0 : ℚ) ≤ 100
      norm_num
    · show (100 : ℚ) ≤ 100
      norm_num
  · intro s
    constructor
    · show (0 : ℚ) ≤ 100
      norm_num
    · show (100 : ℚ) ≤ 100
      norm_num

/-- Witness of C30: a hit of 4 on the player of `underFire`, and a health
power-up at full health. -/
theorem health_stays_within_bounds_witness :
    HealthBounds (playerTakeDamage underFire.toGame 4) ∧
    HealthBounds (applyPowerup Game.initial 0 "health").1 :=
  ⟨health_stays_within_bounds.2.1 _ 4 (by norm_num) health_stays_within_bounds.1,
   health_stays_within_bounds.2.2.2.2.1 _ 0 "health" health_stays_within_bounds.1⟩

/-- C23: in `fallen` the player's health is 0 (game over).  A tick of
`updateStats`, an enemy hit and the Living Hell choice D leave it at 0, but a
health power-up raises it to 35, a Water Bottle to 10 and the Living Hell
choice B to 25. -/
theorem health_recovers_after_game_over :
    fallen.stats.health = 0 ∧
    (updateStats fallen (1 / 20)).stats.health = 0 ∧
    (playerTakeDamage fallen 4).stats.health = 0 ∧
    (LivingHell.choiceD fallen).stats.health = 0 ∧
    (applyPowerup fallen 0 "health").1.stats.health = 35 ∧
    (useItem fallen (fun _ => 1) "Water Bottle").1.stats.health = 10 ∧
    (LivingHell.choiceB fallen).stats.health = 25 := by
  with_unfolding_all decide

/-! ## C28: redeeming a progress code -/

theorem redeemProgressCode_some_iff (g : Game) (text : String) (level : ℤ) :
    (redeemProgressCode g (some text)).2 = some level ↔
      text.data ≠ [] ∧ startsWith (jsTrim text.data) "ULS-".data = true ∧
      (jsTrim text.data).drop 4 ≠ [] ∧
      ∃ decoded, atob (unscramble ((jsTrim text.data).drop 4)) = some decoded ∧
        (splitOn (Char.ofNat 124) decoded).length = 3 ∧
        parseInt ((splitOn (Char.ofNat 124) decoded).getD 0 []) = some 1 ∧
        parseInt ((splitOn (Char.ofNat 124) decoded).getD 1 []) = some level ∧
        1 ≤ level ∧ level ≤ 99 := by
  by_cases h1 : text.data = []
  · simp [redeemProgressCode, h1]
  by_cases h2 : startsWith (jsTrim text.data) "ULS-".data = true
  swap
  · simp [redeemProgressCode, h1, h2]
  by_cases h3 : (jsTrim text.data).drop 4 = []
  · simp [redeemProgressCode, h1, h2, h3]
  have hform : redeemProgressCode g (some text) =
      match atob (unscramble ((jsTrim text.data).drop 4)) with
      | none => (g, none)
      | some decoded =>
        if (splitOn (Char.ofNat 124) decoded).length ≠ 3 then (g, none)
        else
          match parseInt ((splitOn (Char.ofNat 124) decoded).getD 1 []) with
          | none => (g, none)
          | some parsed =>
            if parseInt ((splitOn (Char.ofNat 124) decoded).getD 0 []) ≠ some 1 then (g, none)
            else if parsed < 1 ∨ parsed > 99 then (g, none)
            else
              ({ g with
                 stats := { g.stats with gunLevel := parsed.toNat }
                 gunDamageMultiplier := 1 + ((parsed.toNat : ℚ) - 1) * 0.2 },
               some parsed) := by
    simp only [redeemProgressCode, unscramble, h1, h2, h3, if_false, Bool.not_true,
      Bool.false_eq_true]
  rw [hform]
  cases h4 : atob (unscramble ((jsTrim text.data).drop 4)) with
  | none =>
    constructor
    · intro h
      cases h
    · rintro ⟨-, -, -, d, hd, -⟩
      cases hd
  | some decoded =>
    have hd_eq : ∀ d, some decoded = some d → d = decoded := by
      intro d hd
      simp only [Option.some.injEq] at hd
      exact hd.symm
    by_cases h5 : (splitOn (Char.ofNat 124) decoded).length = 3
    swap
    · simp only [ne_eq, h5, not_false_eq_true, if_true]
      constructor
      · intro h
        cases h
      · rintro ⟨-, -, -, d, hd, hlen, -⟩
        rw [hd_eq d hd] at hlen
        exact absurd hlen h5
    cases h6 : parseInt ((splitOn (Char.ofNat 124) decoded).getD 1 []) with
    | none =>
      simp only [ne_eq, h5, not_true_eq_false, if_false, h6]
      constructor
      · intro h
        cases h
      · rintro ⟨-, -, -, d, hd, -, -, hlevel, -⟩
        rw [hd_eq d hd, h6] at hlevel
        cases hlevel
    | some parsed =>
      by_cases h7 : parseInt ((splitOn (Char.ofNat 124) decoded).getD 0 []) = some 1
      swap
      · simp only [ne_eq, h5, not_true_eq_false, if_false, h6, h7, not_false_eq_true, if_true]
        constructor
        · intro h
          cases h
        · rintro ⟨-, -, -, d, hd, -, hver, -⟩
          rw [hd_eq d hd] at hver
          exact absurd hver h7
      by_cases h8 : parsed < 1 ∨ parsed > 99
      · simp only [ne_eq, h5, not_true_eq_false, if_false, h6, h7, h8, if_true]
        constructor
        · intro h
          cases h
        · rintro ⟨-, -, -, d, hd, -, -, hlevel, hlo, hhi⟩
          rw [hd_eq d hd, h6] at hlevel
          simp only [Option.some.injEq] at hlevel
          subst hlevel
          omega
      · simp only [ne_eq, h5, not_true_eq_false, if_false, h6, h7, h8]
        constructor
        · intro heq
          simp only [Option.some.injEq] at heq
          subst heq
          exact ⟨h1, h2, h3, decoded, rfl, h5, h7, h6, by omega, by omega⟩
        · rintro ⟨-, -, -, d, hd, -, -, hlevel, -, -⟩
          rw [hd_eq d hd, h6] at hlevel
          exact hlevel

/-- C28: for every input, `redeemProgressCode` either returns `null` and
leaves the whole state (in particular `gunLevel` and `gunDamageMultiplier`) as
it was, or returns an integer level with `1 ≤ level ≤ 99` and then
`gunLevel = level` and `gunDamageMultiplier = 1 + (level - 1) * 0.2`.  It
returns `null` for a non-string, for an empty string, without the prefix
`ULS-`, with an empty body, when `atob` fails, when the decoded text does not
split into exactly three parts at `|`, when the version is not 1 and when the
level is not a number or is outside `1..99`. -/
theorem redeemProgressCode_null_or_level (g : Game) (inputCode : Option String) :
    (((redeemProgressCode g inputCode).2 = none ∧ (redeemProgressCode g inputCode).1 = g) ∨
      ∃ level : ℤ, 1 ≤ level ∧ level ≤ 99 ∧
        (redeemProgressCode g inputCode).2 = some level ∧
        ((redeemProgressCode g inputCode).1.stats.gunLevel : ℤ) = level ∧
        (redeemProgressCode g inputCode).1.gunDamageMultiplier = 1 + ((level : ℚ) - 1) * 0.2 ∧
        (redeemProgressCode g inputCode).1 =
          { g with
            stats := { g.stats with gunLevel := level.toNat }
            gunDamageMultiplier := (redeemProgressCode g inputCode).1.gunDamageMultiplier }) ∧
    (inputCode = none → (redeemProgressCode g inputCode).2 = none) ∧
    (∀ text, inputCode = some text →
      (text.data = [] ∨
       startsWith (jsTrim text.data) "ULS-".data = false ∨
       (jsTrim text.data).drop 4 = [] ∨
       atob (unscramble ((jsTrim text.data).drop 4)) = none ∨
       ∃ decoded, atob (unscramble ((jsTrim text.data).drop 4)) = some decoded ∧
         ((splitOn (Char.ofNat 124) decoded).length ≠ 3 ∨
          parseInt ((splitOn (Char.ofNat 124) decoded).getD 0 []) ≠ some 1 ∨
          parseInt ((splitOn (Char.ofNat 124) decoded).getD 1 []) = none ∨
          ∃ parsed, parseInt ((splitOn (Char.ofNat 124) decoded).getD 1 []) = some parsed ∧
            (parsed < 1 ∨ 99 < parsed))) →
      (redeemProgressCode g inputCode).2 = none) := by
  refine ⟨?_, ?_, ?_⟩
  · rcases redeemProgressCode_cases g inputCode with hnone | ⟨level, h1, h99, hsome⟩
    · left
      rw [hnone]
      exact ⟨rfl, rfl⟩
    · right
      have hcast : ((level.toNat : ℕ) : ℤ) = level := Int.toNat_of_nonneg (by omega)
      have hcastq : ((level.toNat : ℕ) : ℚ) = (level : ℚ) := by
        have hq : (((level.toNat : ℕ) : ℤ) : ℚ) = (level : ℚ) := by rw [hcast]
        rw [← hq, Int.cast_natCast]
      refine ⟨level, h1, h99, ?_, ?_, ?_, ?_⟩
      · rw [hsome]
      · rw [hsome]
        exact hcast
      · rw [hsome]
        show 1 + (((level.toNat : ℕ) : ℚ) - 1) * 0.2 = _
        rw [hcastq]
      · rw [hsome]
  · intro hnone
    rw [hnone]
    rfl
  · intro text htext hcause
    subst htext
    cases hres : (redeemProgressCode g (some text)).2 with
    | none => rfl
    | some level =>
      exfalso
      obtain ⟨h1, h2, h3, decoded, h4, h5, h6, h7, hlo, hhi⟩ :=
        (redeemProgressCode_some_iff g text level).mp hres
      rcases hcause with c | c | c | c | ⟨d, hd, c⟩
      · exact h1 c
      · rw [c] at h2
        cases h2
      · exact h3 c
      · rw [c] at h4
        cases h4
      · rw [h4] at hd
        simp only [Option.some.injEq] at hd
        subst hd
        rcases c with c | c | c | ⟨parsed, hp, c⟩
        · exact c h5
        · exact c h6
        · rw [c] at h7
          cases h7
        · rw [h7] at hp
          simp only [Option.some.injEq] at hp
          subst hp
          omega

/-- Witness of C28: a code without the prefix is refused, the code of level 5
is accepted. -/
theorem redeemProgressCode_null_or_level_witness :
    (redeemProgressCode Game.initial (some "MXw1fDEyMzQ_")).2 = none ∧
    (redeemProgressCode Game.initial (some "ULS-MXw1fDEyMzQ_")).2 = some 5 ∧
    (redeemProgressCode Game.initial (some "ULS-MXw1fDEyMzQ_")).1.stats.gunLevel = 5 :=
  ⟨(redeemProgressCode_null_or_level Game.initial (some "MXw1fDEyMzQ_")).2.2 _ rfl
      (Or.inr (Or.inl (by with_unfolding_all decide))),
   by with_unfolding_all decide, by with_unfolding_all decide⟩

/-! ## C27: progress codes round-trip -/

theorem base64Digit_base64Char : ∀ v, v < 64 → base64Digit (base64Char v) = some v := by
  with_unfolding_all decide

theorem base64Char_not_white : ∀ v, v < 64 →
    isAsciiWhiteSpace (base64Char v) = false ∧ base64Char v ≠ Char.ofNat 61 := by
  with_unfolding_all decide

theorem unscramble_scramble_base64Char : ∀ v, v < 64 →
    unscramble (scramble [base64Char v]) = [base64Char v] ∧
    (∀ c ∈ scramble [base64Char v], isJsWhiteSpace c = false) := by
  with_unfolding_all decide

theorem unscramble_scramble_pad :
    unscramble (scramble [Char.ofNat 61]) = [Char.ofNat 61] ∧
    (∀ c ∈ scramble [Char.ofNat 61], isJsWhiteSpace c = false) := by
  with_unfolding_all decide

theorem sextets_lt (bytes : List ℕ) (h : ∀ b ∈ bytes, b < 256) : ∀ v ∈ sextets bytes, v < 64 := by
  induction bytes using sextets.induct with
  | case1 a b c rest ih =>
    have ha := h a (by simp)
    have hb := h b (by simp)
    have hc := h c (by simp)
    have hrest := ih fun x hx => h x (by simp [hx])
    intro v hv
    simp only [sextets, List.mem_cons] at hv
    rcases hv with rfl | rfl | rfl | rfl | hv
    · omega
    · omega
    · omega
    · omega
    · exact hrest v hv
  | case2 a b =>
    have ha := h a (by simp)
    have hb := h b (by simp)
    intro v hv
    simp only [sextets, List.mem_cons, List.mem_singleton, List.not_mem_nil, or_false] at hv
    rcases hv with rfl | rfl | rfl <;> omega
  | case3 a =>
    have ha := h a (by simp)
    intro v hv
    simp only [sextets, List.mem_cons, List.mem_singleton, List.not_mem_nil, or_false] at hv
    rcases hv with rfl | rfl <;> omega
  | case4 =>
    intro v hv
    simp [sextets] at hv

theorem decodeSextets_sextets (bytes : List ℕ) (h : ∀ b ∈ bytes, b < 256) :
    decodeSextets (sextets bytes) = bytes.map Char.ofNat := by
  induction bytes using sextets.induct with
  | case1 a b c rest ih =>
    have ha := h a (by simp)
    have hb := h b (by simp)
    have hc := h c (by simp)
    have hrest := ih fun x hx => h x (by simp [hx])
    have e1 : (a / 4 * 262144 + (a % 4 * 16 + b / 16) * 4096 + (b % 16 * 4 + c / 64) * 64 + c % 64)
        / 65536 = a := by omega
    have e2 : (a / 4 * 262144 + (a % 4 * 16 + b / 16) * 4096 + (b % 16 * 4 + c / 64) * 64 + c % 64)
        / 256 % 256 = b := by omega
    have e3 : (a / 4 * 262144 + (a % 4 * 16 + b / 16) * 4096 + (b % 16 * 4 + c / 64) * 64 + c % 64)
        % 256 = c := by omega
    simp only [sextets, decodeSextets, List.map_cons, e1, e2, e3, hrest]
  | case2 a b =>
    have ha := h a (by simp)
    have hb := h b (by simp)
    have e1 : (a / 4 * 4096 + (a % 4 * 16 + b / 16) * 64 + b % 16 * 4) / 4 / 256 = a := by omega
    have e2 : (a / 4 * 4096 + (a % 4 * 16 + b / 16) * 64 + b % 16 * 4) / 4 % 256 = b := by omega
    simp only [sextets, decodeSextets, List.map_cons, List.map_nil, e1, e2]
  | case3 a =>
    have ha := h a (by simp)
    have e1 : (a / 4 * 64 + a % 4 * 16) / 16 = a := by omega
    simp only [sextets, decodeSextets, List.map_cons, List.map_nil, e1]
  | case4 => rfl

theorem sextets_padding_length (bytes : List ℕ) :
    (sextets bytes).length % 4 ≠ 1 ∧
    ((sextets bytes).length + (padding bytes).length) % 4 = 0 ∧
    (padding bytes = [] ∨ padding bytes = [Char.ofNat 61] ∨
      padding bytes = [Char.ofNat 61, Char.ofNat 61]) := by
  induction bytes using sextets.induct with
  | case1 a b c rest ih =>
    obtain ⟨h1, h2, h3⟩ := ih
    simp only [sextets, padding, List.length_cons]
    exact ⟨by omega, by omega, h3⟩
  | case2 a b => simp [sextets, padding]
  | case3 a => simp [sextets, padding]
  | case4 => simp [sextets, padding]

theorem sextets_ne_nil (bytes : List ℕ) (h : bytes ≠ []) : sextets bytes ≠ [] := by
  induction bytes using sextets.induct with
  | case1 a b c rest ih => simp [sextets]
  | case2 a b => simp [sextets]
  | case3 a => simp [sextets]
  | case4 => exact absurd rfl h

theorem startsWith_cons_false (l t : List Char) (e : Char) (h : ∀ c ∈ l, c ≠ e) :
    startsWith l (e :: t) = false := by
  cases l with
  | nil => rfl
  | cons c cs =>
    have hc : c ≠ e := h c (by simp)
    simp [startsWith, hc]

theorem mapM_base64Digit (vs : List ℕ) (h : ∀ v ∈ vs, v < 64) :
    (vs.map base64Char).mapM base64Digit = some vs := by
  induction vs with
  | nil => rfl
  | cons v vs ih =>
    have hv := base64Digit_base64Char v (h v (by simp))
    have hrest := ih fun x hx => h x (by simp [hx])
    rw [List.map_cons, List.mapM_cons, hv, hrest]
    rfl

theorem atob_encode (bytes : List ℕ) (h : ∀ b ∈ bytes, b < 256) :
    atob ((sextets bytes).map base64Char ++ padding bytes) = some (bytes.map Char.ofNat) := by
  obtain ⟨hlen1, hlen0, hpad⟩ := sextets_padding_length bytes
  have hlt := sextets_lt bytes h
  have hbody : ∀ c ∈ (sextets bytes).map base64Char,
      isAsciiWhiteSpace c = false ∧ c ≠ Char.ofNat 61 := by
    intro c hc
    obtain ⟨v, hv, rfl⟩ := List.mem_map.1 hc
    exact base64Char_not_white v (hlt v hv)
  have hrev : ∀ c ∈ ((sextets bytes).map base64Char).reverse, c ≠ Char.ofNat 61 :=
    fun c hc => (hbody c (List.mem_reverse.1 hc)).2
  have hfilter : ((sextets bytes).map base64Char ++ padding bytes).filter
      (fun c => !isAsciiWhiteSpace c) = (sextets bytes).map base64Char ++ padding bytes := by
    rw [List.filter_eq_self]
    intro c hc
    rcases List.mem_append.1 hc with hc | hc
    · simp [(hbody c hc).1]
    · rcases hpad with hp | hp | hp <;> rw [hp] at hc <;> simp at hc <;> subst hc <;> decide
  have hlen : ((sextets bytes).map base64Char ++ padding bytes).length % 4 = 0 := by
    simpa using hlen0
  have hstrip : (let r := ((sextets bytes).map base64Char ++ padding bytes).reverse
      (if startsWith r [Char.ofNat 61, Char.ofNat 61] then r.drop 2
       else if startsWith r [Char.ofNat 61] then r.drop 1
       else r).reverse) = (sextets bytes).map base64Char := by
    have h1 := startsWith_cons_false _ [] (Char.ofNat 61) hrev
    have h2 := startsWith_cons_false _ [Char.ofNat 61] (Char.ofNat 61) hrev
    rcases hpad with hp | hp | hp
    · simp only [hp, List.append_nil, h1, h2, Bool.false_eq_true, if_false, List.reverse_reverse]
    · simp [hp, startsWith, h1]
    · simp [hp, startsWith]
  have hlen1b : ((sextets bytes).map base64Char).length % 4 ≠ 1 := by simpa using hlen1
  unfold atob
  simp only [hfilter, hlen, if_true]
  rw [hstrip]
  simp only [hlen1b, if_false, mapM_base64Digit _ hlt, Option.map_some',
    decodeSextets_sextets bytes h]

theorem atob_btoa (data enc : List Char) (h : btoa data = some enc) : atob enc = some data := by
  unfold btoa at h
  split at h
  · rename_i hall
    cases h
    have hb : ∀ b ∈ data.map Char.toNat, b < 256 := by
      intro b hb
      obtain ⟨c, hc, rfl⟩ := List.mem_map.1 hb
      simpa using List.all_eq_true.1 hall c hc
    rw [atob_encode _ hb, List.map_map]
    congr 1
    conv_rhs => rw [← List.map_id data]
    apply List.map_congr_left
    intro c _
    simp [Char.ofNat_toNat]
  · cases h


theorem digitChar_isDigit : ∀ d, d < 10 → (Nat.digitChar d).isDigit = true := by
  decide

theorem toDigitsCore_isDigit (fuel : ℕ) : ∀ (n : ℕ) (ds : List Char),
    (∀ c ∈ ds, c.isDigit = true) → ∀ c ∈ Nat.toDigitsCore 10 fuel n ds, c.isDigit = true := by
  induction fuel with
  | zero => intro n ds h; simpa [Nat.toDigitsCore] using h
  | succ fuel ih =>
    intro n ds h
    have hd : ∀ c ∈ Nat.digitChar (n % 10) :: ds, c.isDigit = true := by
      intro c hc
      rcases List.mem_cons.1 hc with rfl | hc
      · exact digitChar_isDigit _ (Nat.mod_lt _ (by decide))
      · exact h c hc
    unfold Nat.toDigitsCore
    simp only []
    split
    · exact hd
    · exact ih _ _ hd

theorem toDigits_isDigit (n : ℕ) : ∀ c ∈ Nat.toDigits 10 n, c.isDigit = true :=
  toDigitsCore_isDigit _ _ _ (by simp)

theorem isDigit_byte (c : Char) (h : c.isDigit = true) : c.toNat < 256 ∧ c ≠ Char.ofNat 124 := by
  have h1 : 48 ≤ c.toNat ∧ c.toNat ≤ 57 := by
    simpa [Char.isDigit, Char.toNat, UInt32.le_def, Fin.le_def] using h
  refine ⟨by omega, ?_⟩
  rintro rfl
  revert h1
  decide

theorem jsNumberToString_byte (n : ℤ) :
    ∀ c ∈ jsNumberToString n, c.toNat < 256 ∧ c ≠ Char.ofNat 124 := by
  intro c hc
  unfold jsNumberToString at hc
  split at hc
  · rcases List.mem_cons.1 hc with rfl | hc
    · decide
    · exact isDigit_byte c (toDigits_isDigit _ c hc)
  · exact isDigit_byte c (toDigits_isDigit _ c hc)

theorem splitOn_no_sep (sep : Char) (l : List Char) (h : ∀ c ∈ l, c ≠ sep) :
    splitOn sep l = [l] := by
  induction l with
  | nil => rfl
  | cons c cs ih =>
    have hc : c ≠ sep := h c (by simp)
    have hrest := ih fun x hx => h x (by simp [hx])
    simp [splitOn, hc, hrest]

theorem splitOn_append_sep (sep : Char) (l r : List Char) (h : ∀ c ∈ l, c ≠ sep) :
    splitOn sep (l ++ sep :: r) = l :: splitOn sep r := by
  induction l with
  | nil => simp [splitOn]
  | cons c cs ih =>
    have hc : c ≠ sep := h c (by simp)
    have hrest := ih fun x hx => h x (by simp [hx])
    simp [splitOn, hc, hrest]

theorem parseInt_toDigits : ∀ n, n < 100 → parseInt (Nat.toDigits 10 n) = some (n : ℤ) := by
  with_unfolding_all decide

theorem dropWhile_eq_self_of (p : Char → Bool) (l : List Char) (h : ∀ c ∈ l, p c = false) :
    l.dropWhile p = l := by
  cases l with
  | nil => rfl
  | cons c cs => simp [List.dropWhile_cons, h c (by simp)]

theorem jsTrim_eq_self (l : List Char) (h : ∀ c ∈ l, isJsWhiteSpace c = false) :
    jsTrim l = l := by
  unfold jsTrim
  rw [dropWhile_eq_self_of _ l h,
    dropWhile_eq_self_of _ l.reverse (fun c hc => h c (List.mem_reverse.1 hc)),
    List.reverse_reverse]

theorem scramble_cons (c : Char) (cs : List Char) :
    scramble (c :: cs) = scramble [c] ++ scramble cs := rfl

theorem unscramble_append (a b : List Char) :
    unscramble (a ++ b) = unscramble a ++ unscramble b := by
  simp [unscramble]

theorem unscramble_scramble_of (l : List Char) (h : ∀ c ∈ l, unscramble (scramble [c]) = [c]) :
    unscramble (scramble l) = l := by
  induction l with
  | nil => rfl
  | cons c cs ih =>
    rw [scramble_cons, unscramble_append, h c (by simp), ih fun x hx => h x (by simp [hx])]
    rfl

theorem scramble_not_white (l : List Char)
    (h : ∀ c ∈ l, ∀ d ∈ scramble [c], isJsWhiteSpace d = false) :
    ∀ d ∈ scramble l, isJsWhiteSpace d = false := by
  induction l with
  | nil => intro d hd; cases hd
  | cons c cs ih =>
    intro d hd
    rw [scramble_cons] at hd
    rcases List.mem_append.1 hd with hd | hd
    · exact h c (by simp) d hd
    · exact ih (fun x hx => h x (by simp [hx])) d hd

theorem encoded_chars (bytes : List ℕ) (h : ∀ b ∈ bytes, b < 256) :
    ∀ c ∈ (sextets bytes).map base64Char ++ padding bytes,
      unscramble (scramble [c]) = [c] ∧ ∀ d ∈ scramble [c], isJsWhiteSpace d = false := by
  intro c hc
  rcases List.mem_append.1 hc with hc | hc
  · obtain ⟨v, hv, rfl⟩ := List.mem_map.1 hc
    exact unscramble_scramble_base64Char v (sextets_lt bytes h v hv)
  · obtain ⟨-, -, hp | hp | hp⟩ := sextets_padding_length bytes <;> rw [hp] at hc <;>
      simp at hc <;> subst hc <;> exact unscramble_scramble_pad


theorem generateProgressCode_eq (L : ℤ) (random : ℚ) :
    ∃ base, btoa (jsNumberToString 1 ++ [Char.ofNat 124] ++ jsNumberToString (min 99 (max 1 L))
        ++ [Char.ofNat 124] ++ jsNumberToString (⌊random * 9000⌋ + 1000)) = some base ∧
      generateProgressCode L random = String.mk ("ULS-".data ++ scramble base) ∧
      base ≠ [] ∧ unscramble (scramble base) = base ∧
      ∀ d ∈ scramble base, isJsWhiteSpace d = false := by
  have hlevel : max 1 (min 99 (if L = 0 then 1 else L)) = min 99 (max 1 L) := by
    split <;> omega
  have hall : ∀ c ∈ jsNumberToString 1 ++ [Char.ofNat 124] ++ jsNumberToString (min 99 (max 1 L))
      ++ [Char.ofNat 124] ++ jsNumberToString (⌊random * 9000⌋ + 1000), c.toNat < 256 := by
    intro c hc
    simp only [List.mem_append, List.mem_singleton] at hc
    rcases hc with (((hc | rfl) | hc) | rfl) | hc
    · exact (jsNumberToString_byte _ c hc).1
    · decide
    · exact (jsNumberToString_byte _ c hc).1
    · decide
    · exact (jsNumberToString_byte _ c hc).1
  have hbytes : ∀ b ∈ (jsNumberToString 1 ++ [Char.ofNat 124] ++
      jsNumberToString (min 99 (max 1 L)) ++ [Char.ofNat 124] ++
      jsNumberToString (⌊random * 9000⌋ + 1000)).map Char.toNat, b < 256 := by
    intro b hb
    obtain ⟨c, hc, rfl⟩ := List.mem_map.1 hb
    exact hall c hc
  have hbtoa : btoa (jsNumberToString 1 ++ [Char.ofNat 124] ++
      jsNumberToString (min 99 (max 1 L)) ++ [Char.ofNat 124] ++
      jsNumberToString (⌊random * 9000⌋ + 1000)) = some
        ((sextets ((jsNumberToString 1 ++ [Char.ofNat 124] ++
          jsNumberToString (min 99 (max 1 L)) ++ [Char.ofNat 124] ++
          jsNumberToString (⌊random * 9000⌋ + 1000)).map Char.toNat)).map base64Char ++
         padding ((jsNumberToString 1 ++ [Char.ofNat 124] ++
          jsNumberToString (min 99 (max 1 L)) ++ [Char.ofNat 124] ++
          jsNumberToString (⌊random * 9000⌋ + 1000)).map Char.toNat)) := by
    unfold btoa
    rw [if_pos]
    rw [List.all_eq_true]
    intro c hc
    exact decide_eq_true (hall c hc)
  refine ⟨_, hbtoa, ?_, ?_, ?_, ?_⟩
  · unfold generateProgressCode
    simp only [hlevel, hbtoa]
    rfl
  · intro hnil
    have hs := List.append_eq_nil.1 hnil
    have hm := List.map_eq_nil_iff.1 hs.1
    exact sextets_ne_nil _ (by simp) hm
  · exact unscramble_scramble_of _ fun c hc => (encoded_chars _ hbytes c hc).1
  · exact scramble_not_white _ fun c hc => (encoded_chars _ hbytes c hc).2

theorem startsWith_append_self (a b : List Char) : startsWith (a ++ b) a = true := by
  induction a with
  | nil => cases b <;> rfl
  | cons c cs ih => simp [startsWith, ih]

theorem redeem_generated (g : Game) (L : ℤ) (random : ℚ) :
    redeemProgressCode g (some (generateProgressCode L random)) =
      ({ g with
         stats := { g.stats with gunLevel := (min 99 (max 1 L)).toNat }
         gunDamageMultiplier := 1 + (((min 99 (max 1 L)).toNat : ℚ) - 1) * 0.2 },
       some (min 99 (max 1 L))) := by
  obtain ⟨base, hbtoa, hgen, hne, hus, hws⟩ := generateProgressCode_eq L random
  have hdata : (generateProgressCode L random).data = "ULS-".data ++ scramble base := by
    rw [hgen]
  have htrim : jsTrim (generateProgressCode L random).data = "ULS-".data ++ scramble base := by
    rw [hdata]
    apply jsTrim_eq_self
    intro c hc
    rcases List.mem_append.1 hc with hc | hc
    · have hhead : ∀ c ∈ "ULS-".data, isJsWhiteSpace c = false := by decide
      exact hhead c hc
    · exact hws c hc
  have hlo : 1 ≤ min 99 (max 1 L) := by omega
  have hhi : min 99 (max 1 L) ≤ 99 := by omega
  have hnn : ¬ (min 99 (max 1 L) < 0) := by omega
  have hsplit : splitOn (Char.ofNat 124) (jsNumberToString 1 ++ [Char.ofNat 124] ++
      jsNumberToString (min 99 (max 1 L)) ++ [Char.ofNat 124] ++
      jsNumberToString (⌊random * 9000⌋ + 1000)) =
      [jsNumberToString 1, jsNumberToString (min 99 (max 1 L)),
        jsNumberToString (⌊random * 9000⌋ + 1000)] := by
    simp only [List.append_assoc, List.singleton_append, List.cons_append, List.nil_append]
    rw [splitOn_append_sep _ _ _ fun c hc => (jsNumberToString_byte _ c hc).2,
      splitOn_append_sep _ _ _ fun c hc => (jsNumberToString_byte _ c hc).2,
      splitOn_no_sep _ _ fun c hc => (jsNumberToString_byte _ c hc).2]
  have hlevel : parseInt (jsNumberToString (min 99 (max 1 L))) = some (min 99 (max 1 L)) := by
    have hcast : (((min 99 (max 1 L)).toNat : ℕ) : ℤ) = min 99 (max 1 L) :=
      Int.toNat_of_nonneg (by omega)
    unfold jsNumberToString
    rw [if_neg hnn, parseInt_toDigits _ (by omega), hcast]
  have hsecond : (redeemProgressCode g (some (generateProgressCode L random))).2 =
      some (min 99 (max 1 L)) := by
    rw [redeemProgressCode_some_iff]
    refine ⟨?_, ?_, ?_, jsNumberToString 1 ++ [Char.ofNat 124] ++
      jsNumberToString (min 99 (max 1 L)) ++ [Char.ofNat 124] ++
      jsNumberToString (⌊random * 9000⌋ + 1000), ?_, ?_, ?_, ?_, hlo, hhi⟩
    · rw [hdata]
      simp
    · rw [htrim]
      exact startsWith_append_self _ _
    · rw [htrim]
      exact hne ∘ fun h => by simpa [scramble] using h
    · rw [htrim]
      show atob (unscramble (scramble base)) = _
      rw [hus]
      exact atob_btoa _ _ hbtoa
    · rw [hsplit]
      rfl
    · rw [hsplit]
      show parseInt (jsNumberToString 1) = some 1
      with_unfolding_all decide
    · rw [hsplit]
      exact hlevel
  rcases redeemProgressCode_cases g (some (generateProgressCode L random)) with h | ⟨level, -, -, h⟩
  · rw [h] at hsecond
    cases hsecond
  · rw [h] at hsecond
    cases hsecond
    exact h

/-- C27: progress codes round-trip.  For every integer gun level `L` and every
draw of the nonce, redeeming the generated code returns `min 99 (max 1 L)` and
sets `stats.gunLevel` (and the derived damage multiplier) to that value; the
code is `ULS-` followed by the scrambled base64 text of the payload
`1|level|nonce`, and the reverse substitution gives that base64 text back. -/
theorem progress_code_round_trip (g : Game) (L : ℤ) (random : ℚ) :
    redeemProgressCode g (some (generateProgressCode L random)) =
      ({ g with
         stats := { g.stats with gunLevel := (min 99 (max 1 L)).toNat }
         gunDamageMultiplier := 1 + (((min 99 (max 1 L)).toNat : ℚ) - 1) * 0.2 },
       some (min 99 (max 1 L))) ∧
    (((redeemProgressCode g (some (generateProgressCode L random))).1.stats.gunLevel : ℕ) : ℤ) =
      min 99 (max 1 L) ∧
    ∃ base, btoa (jsNumberToString 1 ++ [Char.ofNat 124] ++ jsNumberToString (min 99 (max 1 L))
        ++ [Char.ofNat 124] ++ jsNumberToString (⌊random * 9000⌋ + 1000)) = some base ∧
      generateProgressCode L random = String.mk ("ULS-".data ++ scramble base) ∧
      unscramble (scramble base) = base := by
  refine ⟨redeem_generated g L random, ?_, ?_⟩
  · rw [redeem_generated g L random]
    exact Int.toNat_of_nonneg (by omega)
  · obtain ⟨base, hbtoa, hgen, -, hus, -⟩ := generateProgressCode_eq L random
    exact ⟨base, hbtoa, hgen, hus⟩

end ULS
